import Mathlib

/-!
# BankingApp: the create-transaction handler of `backend/routes/transactions.js`

A shallow embedding of the ledger code of the repository:

* `calculateFee` and `exchangeRates` (module constants of `routes/transactions.js`);
* the records of `models/Account.js` and `models/Transaction.js`;
* the handler `router.post('/')` of `routes/transactions.js`, as a function from a stored
  state and a request to a response and a new stored state;
* the hooks of `models/Account.js` that assign the account number, and the handlers
  `router.post('/')` and `router.get('/:id')` of `routes/accounts.js` and `router.get('/')`
  of `routes/transactions.js`.

Modelling conventions.

* The handler is embedded twice. `createTransaction` takes the amount as a JSON number and
  computes in exact rationals (`ℚ`): `2.5` is `5/2`, `0.03` is `3/100`, `0.01` is `1/100`.
  `createTransactionRaw` takes the amount as the body carries it, a JSON number or a JSON
  string (`JsValue`), and rounds every arithmetic result with a function `fl`; with
  `roundBinary64` for `fl` it is the arithmetic of JavaScript numbers (round to nearest,
  ties to even, 53 significant bits; overflow and subnormal numbers left out). On a number
  amount and with `fl := id` the two agree (`createTransactionRaw_exact`).
* A Mongo `ObjectId` is a natural number. A request field that has to be an `ObjectId`
  is given after parsing: see `IdField`.
* The validator `isFloat` accepts a numeric string as well as a number and converts
  nothing (there is no `toFloat()`), so the handler can receive the amount as a string:
  `+` then concatenates, while `-`, `*` and `<` convert to a number.
* `Date.now()` and `Math.random()` are arguments (`SaveEnv`); the decimal numeral of a
  natural number is `Nat.toDigits 10`.
* `await`ed writes can throw; which of them do is an explicit argument (`Faults`), and the
  `catch` block of the handler is the response `serverError`. Reads do not throw, except
  the cast failure of `Account.findById` on a string that is no `ObjectId`.
-/

namespace BankingApp

/-! ## Data model -/

/-- Mongo object identifiers. -/
abbrev ObjectId := Nat

/-- The `enum` of `TransactionSchema.type`, which is also the list of the `isIn` validator. -/
inductive TxType where
  | transfer
  | deposit
  | withdrawal
  | payment
  | international
  deriving DecidableEq, Repr

/-- The `enum` of `TransactionSchema.status`. -/
inductive TxStatus where
  | pending
  | completed
  | failed
  | cancelled
  deriving DecidableEq, Repr

/-- A document of `AccountSchema` (`models/Account.js`); `createdAt` is left out. -/
structure Account where
  _id : ObjectId
  user : ObjectId
  accountNumber : String
  type : String
  balance : ℚ := 0
  currency : String := "USD"
  interestRate : ℚ := 1/2
  overdraftLimit : ℚ := 0
  isActive : Bool := true
  deriving DecidableEq, Repr

/-- The nested path `recipient` of `TransactionSchema`. -/
structure Recipient where
  name : Option String := none
  accountNumber : Option String := none
  bankName : Option String := none
  country : Option String := none
  deriving DecidableEq, Repr

/-- The `recipient` object of a request body: the four schema fields and the `currency`
the handler reads through `recipient?.currency`. -/
structure RecipientBody where
  name : Option String := none
  accountNumber : Option String := none
  bankName : Option String := none
  country : Option String := none
  currency : Option String := none
  deriving DecidableEq, Repr

/-- A document of `TransactionSchema` (`models/Transaction.js`); `createdAt` is left out.
`completedAt` has no default in the schema. -/
structure Transaction where
  fromAccount : ObjectId
  toAccount : Option ObjectId := none
  type : TxType
  amount : ℚ
  currency : String := "USD"
  description : String
  category : String := "other"
  status : TxStatus := TxStatus.pending
  exchangeRate : ℚ := 1
  fee : ℚ := 0
  recipient : Option Recipient := none
  completedAt : Option Nat := none
  deriving DecidableEq, Repr

/-- The part of a `User` document the handler touches (`models/User.js` is referenced by
`routes/transactions.js` through `User.findByIdAndUpdate` and `$inc: { rewardsBalance }`). -/
structure User where
  _id : ObjectId
  rewardsBalance : ℚ := 0
  deriving DecidableEq, Repr

/-- The three collections the handler reads and writes. -/
structure Db where
  accounts : List Account := []
  transactions : List Transaction := []
  users : List User := []
  deriving DecidableEq, Repr

/-- A body field that is expected to hold an `ObjectId`: missing or `null` (`absent`), a
string that is no `ObjectId` (`malformed`), or an identifier. The empty string `''` is
`malformed`: as `toAccount` it is falsy, so the lookup of the destination is skipped, but
the cast to `ObjectId` fails in `transaction.save()`, before any write, and the answer is
500, as for any other string that is no `ObjectId`, on which `Account.findById` throws. -/
inductive IdField where
  | absent
  | malformed
  | id (i : ObjectId)
  deriving DecidableEq, Repr

/-- An authenticated request whose amount is a JSON number: `req.user.id` and the fields
the handler destructures from `req.body`. `amount` is `none` when the field is missing or
not numeric, `type` is `none` when the string is not one of the five transaction types.
A body whose amount is a numeric string, which the validator also admits, is a
`RawRequest`. -/
structure Request where
  user : ObjectId
  fromAccount : IdField
  toAccount : IdField := IdField.absent
  amount : Option ℚ
  description : String
  type : Option TxType
  category : Option String := none
  recipient : Option RecipientBody := none
  deriving DecidableEq, Repr

/-- The responses of the handler, by status code and message. -/
inductive Response where
  /-- 400 `Validation failed` -/
  | validationFailed
  /-- 404 `Source account not found` -/
  | sourceNotFound
  /-- 400 `Insufficient funds` -/
  | insufficientFunds
  /-- 404 `Destination account not found` -/
  | destinationNotFound
  /-- 201 `Transaction completed successfully` -/
  | created (transaction : Transaction)
  /-- 500 `Server error creating transaction` (the `catch` block) -/
  | serverError
  deriving DecidableEq, Repr

/-- Which of the awaited writes of the handler throw. -/
structure Faults where
  transactionSave : Bool := false
  targetSave : Bool := false
  sourceSave : Bool := false
  rewardsUpdate : Bool := false
  deriving DecidableEq, Repr

/-- No write throws. -/
def noFaults : Faults := {}

/-! ## `routes/transactions.js` -/

/-- The constant `exchangeRates`, as a lookup by key. -/
def exchangeRates (key : String) : Option ℚ :=
  if key = "USD-EUR" then some (85/100)
  else if key = "USD-GBP" then some (73/100)
  else if key = "USD-CAD" then some (132/100)
  else if key = "USD-PHP" then some (5680/100)
  else if key = "USD-INR" then some (8315/100)
  else if key = "EUR-USD" then some (118/100)
  else if key = "GBP-USD" then some (137/100)
  else if key = "CAD-USD" then some (76/100)
  else none

/-- The table `fees` inside `calculateFee`; `international` is not a key of it. -/
def fees (type : TxType) : Option ℚ :=
  match type with
  | TxType.transfer => some 0
  | TxType.deposit => some 0
  | TxType.withdrawal => some (5/2)
  | TxType.payment => some (3/2)
  | TxType.international => none

/-- The function `calculateFee(type, amount, isInternational)`. `fees[type] || 0` is the
table value, or 0 when the key is missing (or the value is 0). -/
def calculateFee (type : TxType) (amount : ℚ) (isInternational : Bool) : ℚ :=
  if isInternational then
    min (amount * (3/100)) 25
  else
    (fees type).getD 0

/-- The validator list of `router.post('/')`: `fromAccount` is a Mongo id, `amount` is a float
of at least 0.01, `description` is not empty, `type` is one of the five types. -/
def validationPasses (req : Request) : Bool :=
  (match req.fromAccount with
    | IdField.id _ => true
    | _ => false) &&
  (match req.amount with
    | some a => decide ((1:ℚ)/100 ≤ a)
    | none => false) &&
  (req.description != "") &&
  req.type.isSome

/-- The query `Account.findOne({ _id: fromAccount, user: req.user.id })`. -/
def findOwned (accounts : List Account) (fromAccount user : ObjectId) : Option Account :=
  accounts.find? (fun a => a._id == fromAccount && a.user == user)

/-- The query `Account.findById(toAccount)`. -/
def findById (accounts : List Account) (toAccount : ObjectId) : Option Account :=
  accounts.find? (fun a => a._id == toAccount)

/-- The call `doc.save()` on an account document whose `balance` was assigned: the stored
document with the identifier of `doc` gets the balance of `doc`. -/
def saveAccount (accounts : List Account) (doc : Account) : List Account :=
  accounts.map (fun a => if a._id = doc._id then { a with balance := doc.balance } else a)

/-- The call `User.findByIdAndUpdate(id, { $inc: { rewardsBalance: points } })`. -/
def incRewards (users : List User) (id : ObjectId) (points : ℚ) : List User :=
  users.map (fun u => if u._id = id then { u with rewardsBalance := u.rewardsBalance + points } else u)

/-- The types of the pre-check `['withdrawal', 'transfer', 'payment', 'international']`. -/
def debitingTypes : List TxType :=
  [TxType.withdrawal, TxType.transfer, TxType.payment, TxType.international]

/-- The `enum` of `TransactionSchema.category`, checked when the transaction is saved. -/
def categories : List String :=
  ["food", "shopping", "bills", "entertainment", "transport", "healthcare", "other"]

/-- The expression for `exchangeRate` in the handler: the table value for the key
`SRC-DST` of an `international` transaction (`|| 1` when there is none), 1 otherwise.
A missing `recipient?.currency` prints as `undefined` in the key. -/
def exchangeRate (type : TxType) (sourceCurrency : String) (recipient : Option RecipientBody) : ℚ :=
  if type = TxType.international then
    match exchangeRates (sourceCurrency ++ "-" ++ ((recipient.bind (·.currency)).getD "undefined")) with
    | some r => if r = 0 then 1 else r
    | none => 1
  else 1

/-- The document `new Transaction({ ... status: 'completed' })` of the handler. -/
def newTransaction (req : Request) (fromAccount : ObjectId) (amount : ℚ) (type : TxType)
    (sourceAccount : Account) : Transaction :=
  { fromAccount := fromAccount
    toAccount := (match req.toAccount with
      | IdField.id t => some t
      | _ => none)
    amount := amount
    currency := sourceAccount.currency
    description := req.description
    type := type
    category := req.category.getD "other"
    fee := calculateFee type amount (decide (type = TxType.international))
    exchangeRate := exchangeRate type sourceAccount.currency req.recipient
    recipient := req.recipient.map (fun r =>
      { name := r.name, accountNumber := r.accountNumber, bankName := r.bankName,
        country := r.country })
    status := TxStatus.completed }

/-- The block `// Update account balances` up to `await sourceAccount.save()`, on the
accounts collection. The result is the collection after the writes that were made and
whether a write threw. -/
def updateBalances (fl : Faults) (accounts : List Account) (type : TxType) (amount fee : ℚ)
    (sourceAccount : Account) (targetAccount : Option Account) : Bool × List Account :=
  if type = TxType.withdrawal ∨ type = TxType.payment ∨ type = TxType.international then
    let sourceAccount := { sourceAccount with balance := sourceAccount.balance - (amount + fee) }
    if fl.sourceSave then (true, accounts) else (false, saveAccount accounts sourceAccount)
  else
    match type, targetAccount with
    | TxType.transfer, some targetAccount =>
      let sourceAccount := { sourceAccount with balance := sourceAccount.balance - (amount + fee) }
      let targetAccount := { targetAccount with balance := targetAccount.balance + amount }
      if fl.targetSave then (true, accounts)
      else
        let accounts := saveAccount accounts targetAccount
        if fl.sourceSave then (true, accounts) else (false, saveAccount accounts sourceAccount)
    | _, _ =>
      if type = TxType.deposit then
        let sourceAccount := { sourceAccount with balance := sourceAccount.balance + amount }
        if fl.sourceSave then (true, accounts) else (false, saveAccount accounts sourceAccount)
      else
        if fl.sourceSave then (true, accounts) else (false, saveAccount accounts sourceAccount)

/-- The handler from `const fee = calculateFee(...)` to the 201 response: the transaction
is saved with status `completed`, then the balances are written, then the rewards. -/
def persistAndApply (fl : Faults) (db : Db) (req : Request) (fromAccount : ObjectId)
    (amount : ℚ) (type : TxType) (sourceAccount : Account) (targetAccount : Option Account) :
    Response × Db :=
  let fee := calculateFee type amount (decide (type = TxType.international))
  let transaction := newTransaction req fromAccount amount type sourceAccount
  if fl.transactionSave ∨ transaction.category ∉ categories then
    (Response.serverError, db)
  else
    let db := { db with transactions := db.transactions ++ [transaction] }
    match updateBalances fl db.accounts type amount fee sourceAccount targetAccount with
    | (true, accounts) => (Response.serverError, { db with accounts := accounts })
    | (false, accounts) =>
      let db := { db with accounts := accounts }
      if fl.rewardsUpdate then (Response.serverError, db)
      else
        (Response.created transaction,
          { db with users := incRewards db.users req.user (⌊amount * (1/100)⌋ : ℤ) })

/-- The handler `router.post('/')` (`// Create transaction`) on an amount that is a JSON
number, in exact arithmetic. The handler on the body as sent and with rounding is
`createTransactionRaw`. -/
def createTransaction (fl : Faults) (db : Db) (req : Request) : Response × Db :=
  if ¬ validationPasses req then (Response.validationFailed, db) else
  match req.fromAccount, req.amount, req.type with
  | IdField.id fromAccount, some amount, some type =>
    match findOwned db.accounts fromAccount req.user with
    | none => (Response.sourceNotFound, db)
    | some sourceAccount =>
      if type ∈ debitingTypes ∧
          sourceAccount.balance <
            amount + calculateFee type amount (decide (type = TxType.international)) then
        (Response.insufficientFunds, db)
      else
        match req.toAccount with
        | IdField.absent =>
          persistAndApply fl db req fromAccount amount type sourceAccount none
        | IdField.malformed => (Response.serverError, db)
        | IdField.id toAccount =>
          match findById db.accounts toAccount with
          | none => (Response.destinationNotFound, db)
          | some targetAccount =>
            persistAndApply fl db req fromAccount amount type sourceAccount (some targetAccount)
  | _, _, _ => (Response.validationFailed, db)

/-- The stored balance of the account with identifier `id`. -/
def Db.balance? (db : Db) (id : ObjectId) : Option ℚ :=
  (findById db.accounts id).map (·.balance)

/-- The stored reward balance of the user with identifier `id`. -/
def Db.rewards? (db : Db) (id : ObjectId) : Option ℚ :=
  (db.users.find? (fun u => u._id == id)).map (·.rewardsBalance)

/-- Mongo keeps `_id` unique within the accounts collection. -/
def Db.UniqueIds (db : Db) : Prop :=
  (db.accounts.map (·._id)).Nodup

/-- A sequence of create-transaction requests, each with its faults, run one after the
other on the stored state. -/
def runRequests (db : Db) : List (Faults × Request) → Db
  | [] => db
  | (fl, req) :: rest => runRequests (createTransaction fl db req).2 rest

/-- The request passed the validators, the source lookup, the funds pre-check and the
destination lookup of the handler on `db`: the handler goes on to save the transaction. -/
structure Admitted (db : Db) (req : Request) (fromAccount : ObjectId) (amount : ℚ) (type : TxType)
    (sourceAccount : Account) (targetAccount : Option Account) : Prop where
  fromAccount_eq : req.fromAccount = IdField.id fromAccount
  amount_eq : req.amount = some amount
  type_eq : req.type = some type
  amount_min : (1:ℚ)/100 ≤ amount
  description_ne : req.description ≠ ""
  source : findOwned db.accounts fromAccount req.user = some sourceAccount
  funds : ¬ (type ∈ debitingTypes ∧ sourceAccount.balance <
    amount + calculateFee type amount (decide (type = TxType.international)))
  target : (req.toAccount = IdField.absent ∧ targetAccount = none) ∨
    ∃ t ta, req.toAccount = IdField.id t ∧ findById db.accounts t = some ta ∧
      targetAccount = some ta

/-- The response is one of the four refusals the handler sends before it writes. -/
def Response.isRejection : Response → Bool
  | Response.validationFailed => true
  | Response.sourceNotFound => true
  | Response.insufficientFunds => true
  | Response.destinationNotFound => true
  | _ => false

/-- The ledger invariant on a collection of accounts: identifiers are unique, and every
account has a non-negative overdraft limit and a balance of at least minus that limit. -/
def AccountsOk (accounts : List Account) : Prop :=
  (accounts.map (·._id)).Nodup ∧
    ∀ a ∈ accounts, 0 ≤ a.overdraftLimit ∧ -a.overdraftLimit ≤ a.balance

/-! ## Scenarios -/

/-- Scenario B of the specification: account 1 holds 500.00, account 2 holds 0.00. -/
def scenarioB : Db :=
  { accounts :=
      [{ _id := 1, user := 7, accountNumber := "BA12345678001", type := "checking", balance := 500 },
       { _id := 2, user := 8, accountNumber := "BA12345678002", type := "savings", balance := 0 }]
    users := [{ _id := 7 }, { _id := 8 }] }

/-- Scenario B: user 7 transfers 200.00 from account 1 to account 2. -/
def transferB : Request :=
  { user := 7, fromAccount := IdField.id 1, toAccount := IdField.id 2, amount := some 200,
    description := "rent", type := some TxType.transfer }

/-- Scenario B: the transaction document the handler stores. -/
def transferBRecord : Transaction :=
  { fromAccount := 1, toAccount := some 2, type := TxType.transfer, amount := 200,
    description := "rent", status := TxStatus.completed }

/-- An account with an overdraft limit of 100.00 and a balance of 0.00. -/
def overdraftAccount : Account :=
  { _id := 3, user := 7, accountNumber := "BA12345678003", type := "checking", balance := 0,
    overdraftLimit := 100 }

/-- A store that holds `overdraftAccount` only. -/
def scenarioOverdraft : Db :=
  { accounts := [overdraftAccount], users := [{ _id := 7 }] }

/-- User 7 withdraws 10.00 from account 3. -/
def withdrawal10 : Request :=
  { user := 7, fromAccount := IdField.id 3, amount := some 10, description := "cash",
    type := some TxType.withdrawal }

/-- Scenario A of the specification: balance 100.00, overdraft 0. -/
def scenarioA : Db :=
  { accounts :=
      [{ _id := 4, user := 7, accountNumber := "BA12345678004", type := "checking",
         balance := 100 }]
    users := [{ _id := 7 }] }

/-- Scenario A: user 7 withdraws 100.00 from account 4. -/
def withdrawalA : Request :=
  { user := 7, fromAccount := IdField.id 4, amount := some 100, description := "cash",
    type := some TxType.withdrawal }

/-- Scenario C of the specification: balance 0.00. -/
def scenarioC : Db :=
  { accounts :=
      [{ _id := 5, user := 7, accountNumber := "BA12345678005", type := "savings", balance := 0 }]
    users := [{ _id := 7 }] }

/-- Scenario C: user 7 deposits 50.00 on account 5. -/
def depositC : Request :=
  { user := 7, fromAccount := IdField.id 5, amount := some 50, description := "pay",
    type := some TxType.deposit }

/-- Scenario C: the transaction document the handler stores. -/
def depositCRecord : Transaction :=
  { fromAccount := 5, type := TxType.deposit, amount := 50, description := "pay",
    status := TxStatus.completed }

/-- The deposit of Scenario C with a destination account that is not stored. -/
def depositDangling : Request :=
  { depositC with toAccount := IdField.id 99 }

/-- User 7 withdraws 40.00 from account 4 of Scenario A. -/
def withdrawal40 : Request :=
  { user := 7, fromAccount := IdField.id 4, amount := some 40, description := "cash",
    type := some TxType.withdrawal }

/-- The transaction document stored for `withdrawal40`. -/
def withdrawal40Record : Transaction :=
  { fromAccount := 4, type := TxType.withdrawal, amount := 40, description := "cash",
    fee := 5/2, status := TxStatus.completed }

/-- Scenario D of the specification: an account in USD with a balance of 5000.00. -/
def scenarioD : Db :=
  { accounts :=
      [{ _id := 6, user := 7, accountNumber := "BA12345678006", type := "business",
         balance := 5000 }]
    users := [{ _id := 7 }] }

/-- Scenario D: user 7 sends 1000.00 abroad, to a recipient in a currency without a
configured rate. -/
def internationalD : Request :=
  { user := 7, fromAccount := IdField.id 6, amount := some 1000, description := "invoice",
    type := some TxType.international,
    recipient := some { name := some "R", currency := some "JPY" } }

/-- Scenario D: the transaction document the handler stores. -/
def internationalDRecord : Transaction :=
  { fromAccount := 6, type := TxType.international, amount := 1000, description := "invoice",
    fee := 25, exchangeRate := 1, recipient := some { name := some "R" },
    status := TxStatus.completed }

/-- The write of the source account throws; every other write goes through. -/
def sourceSaveFails : Faults := { sourceSave := true }

/-- Scenario B, user 7 transferring 200.00 from account 1 to account 1 itself. -/
def selfTransfer : Request :=
  { user := 7, fromAccount := IdField.id 1, toAccount := IdField.id 1, amount := some 200,
    description := "rent", type := some TxType.transfer }

/-- The transaction document stored for `selfTransfer`. -/
def selfTransferRecord : Transaction :=
  { fromAccount := 1, toAccount := some 1, type := TxType.transfer, amount := 200,
    description := "rent", status := TxStatus.completed }

/-- Scenario B, user 7 transferring 200.00 from account 1 to an account 99 that is not
stored. -/
def transferDangling : Request :=
  { transferB with toAccount := IdField.id 99 }

/-- Scenario B, user 7 transferring 200.00 from account 1 without naming a destination. -/
def transferNoDestination : Request :=
  { user := 7, fromAccount := IdField.id 1, amount := some 200, description := "rent",
    type := some TxType.transfer }

/-- The transaction document stored for `transferNoDestination`. -/
def transferNoDestinationRecord : Transaction :=
  { fromAccount := 1, type := TxType.transfer, amount := 200, description := "rent",
    status := TxStatus.completed }

/-- Scenario B, user 8 asking to transfer 200.00 out of account 1, which user 7 owns. -/
def transferByOther : Request :=
  { transferB with user := 8 }

/-- The keys of the constant `exchangeRates`. -/
def configuredPairs : List String :=
  ["USD-EUR", "USD-GBP", "USD-CAD", "USD-PHP", "USD-INR", "EUR-USD", "GBP-USD", "CAD-USD"]

/-- Scenario D with a recipient in EUR: user 7 sends 1000.00 from the USD account 6. -/
def internationalEUR : Request :=
  { user := 7, fromAccount := IdField.id 6, amount := some 1000, description := "invoice",
    type := some TxType.international,
    recipient := some { name := some "R", currency := some "EUR" } }

/-- The transaction document stored for `internationalEUR`. -/
def internationalEURRecord : Transaction :=
  { fromAccount := 6, type := TxType.international, amount := 1000, description := "invoice",
    fee := 25, exchangeRate := 85/100, recipient := some { name := some "R" },
    status := TxStatus.completed }

/-- The account with its `isActive` flag set to the value `flags` gives for its identifier. -/
def Account.withActive (flags : ObjectId → Bool) (a : Account) : Account :=
  { a with isActive := flags a._id }

/-- The store with the `isActive` flag of every account set by `flags`. -/
def Db.withActive (flags : ObjectId → Bool) (db : Db) : Db :=
  { db with accounts := db.accounts.map (Account.withActive flags) }

/-- Scenario A with its account deactivated. -/
def scenarioInactive : Db :=
  scenarioA.withActive (fun _ => false)

/-- The expression for `exchangeRate` in the handler with the rate table as an argument;
`exchangeRate` is this expression at the constant `exchangeRates`. -/
def exchangeRateWith (table : String → Option ℚ) (type : TxType) (sourceCurrency : String)
    (recipient : Option RecipientBody) : ℚ :=
  if type = TxType.international then
    match table (sourceCurrency ++ "-" ++ ((recipient.bind (·.currency)).getD "undefined")) with
    | some r => if r = 0 then 1 else r
    | none => 1
  else 1

/-- The rate table with one more entry: `key` is configured with `rate`. -/
def configureRate (table : String → Option ℚ) (key : String) (rate : ℚ) : String → Option ℚ :=
  fun k => if k = key then some rate else table k

/-- The document `new Transaction({ ... })` of the handler when the module constant
`exchangeRates` is `table`: the table is read for the field `exchangeRate` only. -/
def newTransactionWith (table : String → Option ℚ) (req : Request) (fromAccount : ObjectId)
    (amount : ℚ) (type : TxType) (sourceAccount : Account) : Transaction :=
  { newTransaction req fromAccount amount type sourceAccount with
    exchangeRate := exchangeRateWith table type sourceAccount.currency req.recipient }

/-! ## `models/Account.js`: the account number hooks -/

/-- The call `s.slice(-k)` on the characters of a string: the last `k` characters, or the
whole string when it has fewer. -/
def sliceLast (k : Nat) (s : List Char) : List Char :=
  s.drop (s.length - k)

/-- The call `s.padStart(k, c)` on the characters of a string. -/
def padStart (k : Nat) (c : Char) (s : List Char) : List Char :=
  List.replicate (k - s.length) c ++ s

/-- The account number the hooks compute, as a function of the reading `now` of
`Date.now()` and of the value `draw` of `Math.random()`:
`'BA' + timestamp.slice(-8) + random` with `timestamp = now.toString()` and
`random = Math.floor(draw * 1000).toString().padStart(3, '0')`. -/
def generateAccountNumber (now : Nat) (draw : ℚ) : String :=
  let timestamp := Nat.toDigits 10 now
  let random := padStart 3 '0' (Nat.toDigits 10 (⌊draw * 1000⌋).toNat)
  "BA" ++ String.mk (sliceLast 8 timestamp) ++ String.mk random

/-- The hook `AccountSchema.pre('validate')`; an account number that is not set is the
empty string. -/
def preValidate (now : Nat) (draw : ℚ) (account : Account) : Account :=
  if account.accountNumber = "" then
    { account with accountNumber := generateAccountNumber now draw }
  else account

/-- The hook `AccountSchema.pre('save')`. -/
def preSave (now : Nat) (draw : ℚ) (account : Account) : Account :=
  if account.accountNumber = "" then
    { account with accountNumber := generateAccountNumber now draw }
  else account

/-- What `Date.now()` and `Math.random()` give in each of the two hooks, and the fresh
`_id` of a new document. -/
structure SaveEnv where
  newId : ObjectId
  validateNow : Nat
  validateDraw : ℚ
  saveNow : Nat
  saveDraw : ℚ
  deriving Repr

/-- The hooks that `doc.save()` runs on an account document: validation first, then the
save hooks. -/
def runHooks (env : SaveEnv) (account : Account) : Account :=
  preSave env.saveNow env.saveDraw (preValidate env.validateNow env.validateDraw account)

/-- The call `doc.save()` of the handler on an account document, hooks included: the
stored document gets the balance of the document, and its account number when a hook
assigned one (`save` writes the modified paths). -/
def saveAccountHooked (env : SaveEnv) (accounts : List Account) (doc : Account) :
    List Account :=
  accounts.map (fun a =>
    if a._id = doc._id then
      if doc.accountNumber = "" then
        { a with balance := doc.balance
                 accountNumber := (runHooks env doc).accountNumber }
      else { a with balance := doc.balance }
    else a)

/-! ## `routes/accounts.js` -/

/-- The body of a create-account request and `req.user.id`. -/
structure AccountRequest where
  user : ObjectId
  type : String
  currency : String
  deriving DecidableEq, Repr

/-- The responses of the create-account handler. -/
inductive AccountResponse where
  /-- 400 `Validation failed` -/
  | validationFailed
  /-- 201 `Account created successfully` -/
  | created (account : Account)
  /-- 500 `Server error creating account` -/
  | serverError
  deriving DecidableEq, Repr

/-- The `enum` of `AccountSchema.type`, also the list of the `isIn` validator. -/
def accountTypes : List String :=
  ["checking", "savings", "business", "investment"]

/-- The handler `router.post('/')` of `routes/accounts.js` (`// Create new account`).
The insert is refused by the unique indexes on `_id` and on `accountNumber` when a stored
document has the same value; the handler then answers 500. -/
def createAccount (env : SaveEnv) (db : Db) (req : AccountRequest) : AccountResponse × Db :=
  if ¬ (req.type ∈ accountTypes ∧ req.currency.length = 3) then
    (AccountResponse.validationFailed, db)
  else
    let account : Account :=
      { _id := env.newId, user := req.user, accountNumber := "", type := req.type,
        currency := req.currency, balance := 0 }
    let account := runHooks env account
    if db.accounts.any (fun a =>
        a._id == account._id || a.accountNumber == account.accountNumber) then
      (AccountResponse.serverError, db)
    else
      (AccountResponse.created account, { db with accounts := db.accounts ++ [account] })

/-- The filter `{ $or: [{ fromAccount: { $in: ids } }, { toAccount: { $in: ids } }] }`. -/
def touches (ids : List ObjectId) (t : Transaction) : Bool :=
  ids.contains t.fromAccount ||
    (match t.toAccount with
      | some i => ids.contains i
      | none => false)

/-- The responses of the GET handlers that return transactions. -/
inductive ListResponse where
  /-- 200 with the page of transactions and the count `total` -/
  | ok (transactions : List Transaction) (total : Nat)
  /-- 404 `Account not found` -/
  | notFound
  /-- 500 -/
  | serverError
  deriving DecidableEq, Repr

/-- The chain `.sort({ createdAt: -1 }).limit(limit).skip(skip)` on the matching
documents: the store keeps the documents in the order they were saved, so newest first is
the reverse; `limit(0)` is no limit. -/
def pageOf (matching : List Transaction) (skip limit : Nat) : List Transaction :=
  if limit = 0 then matching.reverse.drop skip
  else (matching.reverse.drop skip).take limit

/-- The handler `router.get('/')` of `routes/transactions.js` (`// Get user transactions`),
for a page of at least 1. `populate` changes the returned copies only and is left out,
as are `totalPages` and `currentPage`. A query parameter `accountId` that is no `ObjectId`
makes the query throw. -/
def getTransactions (db : Db) (user : ObjectId) (page limit : Nat) (accountId : IdField) :
    ListResponse × Db :=
  let userAccounts := db.accounts.filter (fun a => a.user == user)
  let accountIds := userAccounts.map (·._id)
  match accountId with
  | IdField.malformed => (ListResponse.serverError, db)
  | IdField.absent =>
    let matching := db.transactions.filter (touches accountIds)
    (ListResponse.ok (pageOf matching ((page - 1) * limit) limit) matching.length, db)
  | IdField.id i =>
    let matching := db.transactions.filter (touches [i])
    (ListResponse.ok (pageOf matching ((page - 1) * limit) limit) matching.length, db)

/-- The handler `router.get('/:id')` of `routes/accounts.js` (`// Get account by ID`);
the account of the answer is left out. `id` is `none` when the route parameter is no
`ObjectId`. -/
def getAccount (db : Db) (user : ObjectId) (id : Option ObjectId) : ListResponse × Db :=
  match id with
  | none => (ListResponse.serverError, db)
  | some i =>
    match findOwned db.accounts i user with
    | none => (ListResponse.notFound, db)
    | some account =>
      let matching := db.transactions.filter (touches [account._id])
      (ListResponse.ok (pageOf matching 0 10) matching.length, db)

/-- The sum of the stored balances. -/
def Db.totalBalance (db : Db) : ℚ :=
  (db.accounts.map (·.balance)).sum

/-- A reading of the clock and a draw for each hook, and a fresh identifier. -/
def envNoon : SaveEnv :=
  { newId := 10, validateNow := 1762214400123, validateDraw := 1/2,
    saveNow := 1762214400124, saveDraw := 1/4 }

/-- A request of user 7 for a checking account in USD. -/
def openChecking : AccountRequest :=
  { user := 7, type := "checking", currency := "USD" }

/-- A store whose only account carries the number that `envNoon` generates. -/
def scenarioCollision : Db :=
  { accounts :=
      [{ _id := 9, user := 8, accountNumber := "BA14400123500", type := "savings" }] }

/-! ## JavaScript values of the body field `amount` -/

/-- A value the body field `amount` can hold when the `isFloat` validator passed: a JSON
number, or a JSON string that spells a decimal numeral (the validator converts nothing). -/
inductive JsValue where
  | number (q : ℚ)
  | string (s : String)
  deriving DecidableEq, Repr

/-- The digits after the decimal point of `f`, for `0 <= f < 1`, at most `fuel` of them. -/
def fractionDigits : Nat → ℚ → List Char
  | 0, _ => []
  | fuel + 1, f =>
    if f = 0 then []
    else Nat.digitChar (⌊f * 10⌋).toNat :: fractionDigits fuel (f * 10 - ((⌊f * 10⌋).toNat : ℚ))

/-- The conversion `String(q)` of a number with a finite decimal expansion:
`2.5` prints as `2.5`, `0` as `0`, `1002` as `1002`. -/
def numberToString (q : ℚ) : String :=
  (if q < 0 then "-" else "") ++
  String.mk (Nat.toDigits 10 (⌊|q|⌋).toNat) ++
  (if |q| - ((⌊|q|⌋).toNat : ℚ) = 0 then ""
    else "." ++ String.mk (fractionDigits 17 (|q| - ((⌊|q|⌋).toNat : ℚ))))

/-- The value of a string of decimal digits; `none` when a character is no digit. -/
def digitsValue : List Char → Option Nat
  | [] => some 0
  | cs => cs.foldl
      (fun acc c => acc.bind (fun n => if c.isDigit then some (n * 10 + (c.toNat - 48)) else none))
      (some 0)

/-- The conversion `Number(s)` on numerals of the form `digits`, `digits.digits`, with
an optional sign; `none` stands for `NaN`. Numerals with an exponent, hexadecimal
numerals, `Infinity` and blanks are not covered. -/
def stringToNumber (s : String) : Option ℚ :=
  let signed : Bool × List Char :=
    match s.data with
    | '-' :: rest => (true, rest)
    | '+' :: rest => (false, rest)
    | cs => (false, cs)
  let whole := signed.2.takeWhile (fun c => c != '.')
  let fraction := (signed.2.dropWhile (fun c => c != '.')).drop 1
  if whole = [] ∧ fraction = [] then none
  else
    match digitsValue whole, digitsValue fraction with
    | some w, some f =>
      let v : ℚ := (w : ℚ) + (f : ℚ) / (10 : ℚ) ^ fraction.length
      some (if signed.1 then -v else v)
    | _, _ => none

/-- The conversion `Number(v)`. -/
def JsValue.toNumber : JsValue → Option ℚ
  | JsValue.number q => some q
  | JsValue.string s => stringToNumber s

/-- The conversion `String(v)`. -/
def JsValue.toStr : JsValue → String
  | JsValue.number q => numberToString q
  | JsValue.string s => s

/-- The operator `a + b`: the sum of two numbers, the concatenation when an operand is a
string. -/
def jsAdd (a b : JsValue) : JsValue :=
  match a, b with
  | JsValue.number x, JsValue.number y => JsValue.number (x + y)
  | _, _ => JsValue.string (a.toStr ++ b.toStr)

/-- The operator `a - b`: both operands are converted to numbers. -/
def jsSub (a b : JsValue) : Option ℚ :=
  match a.toNumber, b.toNumber with
  | some x, some y => some (x - y)
  | _, _ => none

/-- The operator `a * b`: both operands are converted to numbers. -/
def jsMul (a b : JsValue) : Option ℚ :=
  match a.toNumber, b.toNumber with
  | some x, some y => some (x * y)
  | _, _ => none

/-- The comparison `balance < b` of a number with a value: the value is converted to a
number, and a comparison with `NaN` is false. -/
def jsLt (balance : ℚ) (b : JsValue) : Bool :=
  match b.toNumber with
  | some y => decide (balance < y)
  | none => false

/-- The function `calculateFee` on the unconverted amount: `amount * 0.03` converts it. -/
def calculateFeeRaw (type : TxType) (amount : JsValue) (isInternational : Bool) : Option ℚ :=
  if isInternational then
    (jsMul amount (JsValue.number (3/100))).map (fun x => min x 25)
  else
    some ((fees type).getD 0)

/-- The expression `const totalAmount = amount + fee` of the pre-check. -/
def totalAmountRaw (amount : JsValue) (fee : ℚ) : JsValue :=
  jsAdd amount (JsValue.number fee)

/-- The test `sourceAccount.balance < totalAmount` of the pre-check. -/
def insufficientRaw (balance : ℚ) (amount : JsValue) (fee : ℚ) : Bool :=
  jsLt balance (totalAmountRaw amount fee)

/-- The assignment `sourceAccount.balance -= (amount + fee)`. -/
def debitRaw (balance : ℚ) (amount : JsValue) (fee : ℚ) : Option ℚ :=
  jsSub (JsValue.number balance) (jsAdd amount (JsValue.number fee))

/-- The assignments `targetAccount.balance += amount` and `sourceAccount.balance += amount`;
the schema type `Number` converts the value assigned to the path. -/
def creditRaw (balance : ℚ) (amount : JsValue) : Option ℚ :=
  (jsAdd (JsValue.number balance) amount).toNumber

/-! ## More scenarios -/

/-- Scenario D without recipient: user 7 sends 1000.00 abroad and names nobody. -/
def internationalNoRecipient : Request :=
  { user := 7, fromAccount := IdField.id 6, amount := some 1000, description := "invoice",
    type := some TxType.international }

/-- The transaction document stored for `internationalNoRecipient`. -/
def internationalNoRecipientRecord : Transaction :=
  { fromAccount := 6, type := TxType.international, amount := 1000, description := "invoice",
    fee := 25, exchangeRate := 1, status := TxStatus.completed }

/-- Scenario B after a withdrawal of user 7 from account 1 was recorded. -/
def scenarioListing : Db :=
  { scenarioB with
    transactions :=
      [{ fromAccount := 1, type := TxType.withdrawal, amount := 40, description := "cash",
         fee := 5/2, status := TxStatus.completed }] }

/-! ## The handler on the unconverted amount, with the rounding of binary64

`createTransaction` above computes with exact rationals on an amount that is a JSON
number. The definitions below follow the same source lines on the value the body
carries, a number or a string, and round every arithmetic result with a function `fl`;
`roundBinary64` is the rounding of JavaScript numbers. With `fl` the identity and an
amount that is a number they are `createTransaction`
(`createTransactionRaw_exact`). -/

/-- Round to the nearest integer, ties to the even one. -/
def roundHalfEven (x : ℚ) : ℤ :=
  if x - ⌊x⌋ < 1/2 then ⌊x⌋
  else if 1/2 < x - ⌊x⌋ then ⌊x⌋ + 1
  else if ⌊x⌋ % 2 = 0 then ⌊x⌋ else ⌊x⌋ + 1

/-- The number of binary digits of `n`, for `fuel` at least that number. -/
def bitLength : Nat → Nat → Nat
  | 0, _ => 0
  | fuel + 1, n => if n = 0 then 0 else bitLength fuel (n / 2) + 1

/-- For `q > 0`, the integer `e` with `2 ^ e <= q < 2 ^ (e + 1)`. -/
def binaryExponent (q : ℚ) : ℤ :=
  let e0 : ℤ := (bitLength q.num.natAbs q.num.natAbs : ℤ) - (bitLength q.den q.den : ℤ)
  if q < (2:ℚ) ^ e0 then e0 - 1 else e0

/-- The binary64 number nearest to `q` (53 binary digits, ties to even), for `q` in the
range of normal numbers: what JavaScript stores for a literal or for the exact result of
`+`, `-`, `*` on two numbers. -/
def roundBinary64 (q : ℚ) : ℚ :=
  if q = 0 then 0
  else
    (roundHalfEven (q / (2:ℚ) ^ (binaryExponent |q| - 52)) : ℚ) *
      (2:ℚ) ^ (binaryExponent |q| - 52)

/-- The conversion `Number(v)`: a numeral is read to the nearest number. -/
def JsValue.toNumberFl (fl : ℚ → ℚ) : JsValue → Option ℚ
  | JsValue.number q => some q
  | JsValue.string s => (stringToNumber s).map fl

/-- The operator `a + b` with rounding. -/
def jsAddFl (fl : ℚ → ℚ) (a b : JsValue) : JsValue :=
  match a, b with
  | JsValue.number x, JsValue.number y => JsValue.number (fl (x + y))
  | _, _ => JsValue.string (a.toStr ++ b.toStr)

/-- The operator `a - b` with rounding; `none` stands for `NaN`. -/
def jsSubFl (fl : ℚ → ℚ) (a b : JsValue) : Option ℚ :=
  match a.toNumberFl fl, b.toNumberFl fl with
  | some x, some y => some (fl (x - y))
  | _, _ => none

/-- The comparison `balance < b`; a comparison with `NaN` is false. -/
def jsLtFl (fl : ℚ → ℚ) (balance : ℚ) (b : JsValue) : Bool :=
  match b.toNumberFl fl with
  | some y => decide (balance < y)
  | none => false

/-- The function `calculateFee` with rounding, on the numeric value of the amount
(`amount * 0.03` converts a string); `0.03` is the number nearest to 3/100. -/
def calculateFeeFl (fl : ℚ → ℚ) (type : TxType) (amount : ℚ) (isInternational : Bool) : ℚ :=
  if isInternational then
    min (fl (amount * fl (3/100))) 25
  else
    (fees type).getD 0

/-- An authenticated request with the body field `amount` as it arrives: `none` when the
field is missing, `some v` for a JSON number or a JSON string. -/
structure RawRequest where
  user : ObjectId
  fromAccount : IdField
  toAccount : IdField := IdField.absent
  amount : Option JsValue
  description : String
  type : Option TxType
  category : Option String := none
  recipient : Option RecipientBody := none
  deriving DecidableEq, Repr

/-- The request with the amount replaced by its numeric value. -/
def RawRequest.toRequest (req : RawRequest) (amount : ℚ) : Request :=
  { user := req.user, fromAccount := req.fromAccount, toAccount := req.toAccount,
    amount := some amount, description := req.description, type := req.type,
    category := req.category, recipient := req.recipient }

/-- The validator list on the raw body: `isFloat({ min: 0.01 })` reads the value as a
numeral and compares it with the number `0.01`; it converts nothing. -/
def validationPassesRaw (fl : ℚ → ℚ) (req : RawRequest) : Bool :=
  (match req.fromAccount with
    | IdField.id _ => true
    | _ => false) &&
  (match req.amount.bind (JsValue.toNumberFl fl) with
    | some a => decide (fl (1/100) ≤ a)
    | none => false) &&
  (req.description != "") &&
  req.type.isSome

/-- The block `// Update account balances` on the unconverted amount. A balance that
comes out as `NaN` fails the cast of the schema type and the save of that document
throws. -/
def updateBalancesRaw (fl : ℚ → ℚ) (faults : Faults) (accounts : List Account) (type : TxType)
    (amount : JsValue) (fee : ℚ) (sourceAccount : Account) (targetAccount : Option Account) :
    Bool × List Account :=
  if type = TxType.withdrawal ∨ type = TxType.payment ∨ type = TxType.international then
    match jsSubFl fl (JsValue.number sourceAccount.balance)
        (jsAddFl fl amount (JsValue.number fee)) with
    | none => (true, accounts)
    | some b =>
      if faults.sourceSave then (true, accounts)
      else (false, saveAccount accounts { sourceAccount with balance := b })
  else
    match type, targetAccount with
    | TxType.transfer, some targetAccount =>
      match (jsAddFl fl (JsValue.number targetAccount.balance) amount).toNumberFl fl with
      | none => (true, accounts)
      | some tb =>
        if faults.targetSave then (true, accounts)
        else
          let accounts := saveAccount accounts { targetAccount with balance := tb }
          match jsSubFl fl (JsValue.number sourceAccount.balance)
              (jsAddFl fl amount (JsValue.number fee)) with
          | none => (true, accounts)
          | some b =>
            if faults.sourceSave then (true, accounts)
            else (false, saveAccount accounts { sourceAccount with balance := b })
    | _, _ =>
      if type = TxType.deposit then
        match (jsAddFl fl (JsValue.number sourceAccount.balance) amount).toNumberFl fl with
        | none => (true, accounts)
        | some b =>
          if faults.sourceSave then (true, accounts)
          else (false, saveAccount accounts { sourceAccount with balance := b })
      else
        if faults.sourceSave then (true, accounts)
        else (false, saveAccount accounts sourceAccount)

/-- The handler from `const fee = calculateFee(...)` to the 201 response, on the
unconverted amount `amount` whose numeric value is `a`: the schema type casts the
amount of the Transaction to `a`. -/
def persistAndApplyRaw (fl : ℚ → ℚ) (faults : Faults) (db : Db) (req : RawRequest)
    (fromAccount : ObjectId) (amount : JsValue) (a : ℚ) (type : TxType)
    (sourceAccount : Account) (targetAccount : Option Account) : Response × Db :=
  let fee := calculateFeeFl fl type a (decide (type = TxType.international))
  let transaction : Transaction :=
    { newTransaction (req.toRequest a) fromAccount a type sourceAccount with fee := fee }
  if faults.transactionSave ∨ transaction.category ∉ categories then
    (Response.serverError, db)
  else
    let db := { db with transactions := db.transactions ++ [transaction] }
    match updateBalancesRaw fl faults db.accounts type amount fee sourceAccount
        targetAccount with
    | (true, accounts) => (Response.serverError, { db with accounts := accounts })
    | (false, accounts) =>
      let db := { db with accounts := accounts }
      if faults.rewardsUpdate then (Response.serverError, db)
      else
        (Response.created transaction,
          { db with users := incRewards db.users req.user (⌊fl (a * fl (1/100))⌋ : ℤ) })

/-- The handler `router.post('/')` on the raw body, with rounding `fl`. -/
def createTransactionRaw (fl : ℚ → ℚ) (faults : Faults) (db : Db) (req : RawRequest) :
    Response × Db :=
  if ¬ validationPassesRaw fl req then (Response.validationFailed, db) else
  match req.fromAccount, req.amount, req.type with
  | IdField.id fromAccount, some amount, some type =>
    match amount.toNumberFl fl with
    | none => (Response.validationFailed, db)
    | some a =>
      match findOwned db.accounts fromAccount req.user with
      | none => (Response.sourceNotFound, db)
      | some sourceAccount =>
        if type ∈ debitingTypes ∧
            jsLtFl fl sourceAccount.balance
              (jsAddFl fl amount (JsValue.number
                (calculateFeeFl fl type a (decide (type = TxType.international))))) = true then
          (Response.insufficientFunds, db)
        else
          match req.toAccount with
          | IdField.absent =>
            persistAndApplyRaw fl faults db req fromAccount amount a type sourceAccount none
          | IdField.malformed => (Response.serverError, db)
          | IdField.id toAccount =>
            match findById db.accounts toAccount with
            | none => (Response.destinationNotFound, db)
            | some targetAccount =>
              persistAndApplyRaw fl faults db req fromAccount amount a type sourceAccount
                (some targetAccount)
  | _, _, _ => (Response.validationFailed, db)

/-! ## Scenarios with string amounts and with rounding -/

/-- Account 1 of user 7 holds 5000.00 and account 2 of user 8 holds 50.00. -/
def scenarioRaw : Db :=
  { accounts :=
      [{ _id := 1, user := 7, accountNumber := "BA12345678001", type := "checking",
         balance := 5000 },
       { _id := 2, user := 8, accountNumber := "BA12345678002", type := "savings",
         balance := 50 }]
    users := [{ _id := 7 }, { _id := 8 }] }

/-- User 7 transfers `"200"`, a string, from account 1 to account 2. -/
def transferString : RawRequest :=
  { user := 7, fromAccount := IdField.id 1, toAccount := IdField.id 2,
    amount := some (JsValue.string "200"), description := "rent",
    type := some TxType.transfer }

/-- The transaction document stored for `transferString`. -/
def transferStringRecord : Transaction :=
  { fromAccount := 1, toAccount := some 2, type := TxType.transfer, amount := 200,
    description := "rent", status := TxStatus.completed }

/-- User 7 withdraws `"100"`, a string, from account 1. -/
def withdrawalString : RawRequest :=
  { user := 7, fromAccount := IdField.id 1, amount := some (JsValue.string "100"),
    description := "cash", type := some TxType.withdrawal }

/-- The transaction document stored for `withdrawalString`. -/
def withdrawalStringRecord : Transaction :=
  { fromAccount := 1, type := TxType.withdrawal, amount := 100, description := "cash",
    fee := 5/2, status := TxStatus.completed }

/-- An account with an overdraft limit of 10.00 that is overdrawn by 5.00. -/
def scenarioOverdrawn : Db :=
  { accounts :=
      [{ _id := 3, user := 7, accountNumber := "BA12345678003", type := "checking",
         balance := -5, overdraftLimit := 10 }]
    users := [{ _id := 7 }] }

/-- User 7 deposits `"100"`, a string, on account 3. -/
def depositString : RawRequest :=
  { user := 7, fromAccount := IdField.id 3, amount := some (JsValue.string "100"),
    description := "pay", type := some TxType.deposit }

/-- An account that holds `2.78`, the number nearest to 278/100. -/
def scenarioCents : Db :=
  { accounts :=
      [{ _id := 4, user := 7, accountNumber := "BA12345678004", type := "checking",
         balance := roundBinary64 (278/100) }]
    users := [{ _id := 7 }] }

/-- User 7 withdraws `0.28`, the number nearest to 28/100, from account 4. -/
def withdrawalCents : RawRequest :=
  { user := 7, fromAccount := IdField.id 4,
    amount := some (JsValue.number (roundBinary64 (28/100))), description := "cash",
    type := some TxType.withdrawal }

/-- An account that holds `1e16`. -/
def scenarioLarge : Db :=
  { accounts :=
      [{ _id := 5, user := 7, accountNumber := "BA12345678005", type := "savings",
         balance := 10000000000000000 }]
    users := [{ _id := 7 }] }

/-- User 7 deposits the number 1 on account 5. -/
def depositOne : RawRequest :=
  { user := 7, fromAccount := IdField.id 5, amount := some (JsValue.number 1),
    description := "pay", type := some TxType.deposit }

/-- Scenario C on the raw body: user 7 deposits the number 50 on account 5. -/
def depositCRaw : RawRequest :=
  { user := 7, fromAccount := IdField.id 5, amount := some (JsValue.number 50),
    description := "pay", type := some TxType.deposit }

/-- The deposit of Scenario C on the raw body, with a destination that is not stored. -/
def depositDanglingRaw : RawRequest :=
  { depositCRaw with toAccount := IdField.id 99 }

/-- The transaction document stored for `depositOne`. -/
def depositOneRecord : Transaction :=
  { fromAccount := 5, type := TxType.deposit, amount := 1, description := "pay",
    status := TxStatus.completed }

/-- The transaction document stored for `depositString`. -/
def depositStringRecord : Transaction :=
  { fromAccount := 3, type := TxType.deposit, amount := 100, description := "pay",
    status := TxStatus.completed }

/-- An account that holds `2.8`, the number nearest to 28/10. -/
def scenarioTenths : Db :=
  { accounts :=
      [{ _id := 4, user := 7, accountNumber := "BA12345678004", type := "checking",
         balance := roundBinary64 (28/10) }]
    users := [{ _id := 7 }] }

/-- User 7 withdraws `0.3`, the number nearest to 3/10, from account 4. -/
def withdrawalTenths : RawRequest :=
  { user := 7, fromAccount := IdField.id 4,
    amount := some (JsValue.number (roundBinary64 (3/10))), description := "cash",
    type := some TxType.withdrawal }

/-- The transaction document stored for `withdrawalTenths`. -/
def withdrawalTenthsRecord : Transaction :=
  { fromAccount := 4, type := TxType.withdrawal, amount := roundBinary64 (3/10), fee := 5/2,
    description := "cash", status := TxStatus.completed }

/-- The request `withdrawal10` as a raw body: user 7 withdraws 10.00 from account 3. -/
def withdrawal10Raw : RawRequest :=
  { user := 7, fromAccount := IdField.id 3, amount := some (JsValue.number 10),
    description := "cash", type := some TxType.withdrawal }

/-! ## Lemmas on the accounts collection -/

theorem saveAccount_ids (accounts : List Account) (doc : Account) :
    (saveAccount accounts doc).map (·._id) = accounts.map (·._id) := by
  unfold saveAccount
  rw [List.map_map]
  apply List.map_congr_left
  intro a _
  by_cases h : a._id = doc._id <;> simp [h]

theorem findById_saveAccount (accounts : List Account) (doc : Account) (i : ObjectId) :
    findById (saveAccount accounts doc) i =
      (findById accounts i).map
        (fun a => if a._id = doc._id then { a with balance := doc.balance } else a) := by
  unfold findById saveAccount
  rw [List.find?_map]
  have hp : ((fun a : Account => a._id == i) ∘
      fun a : Account => if a._id = doc._id then { a with balance := doc.balance } else a) =
      fun a : Account => a._id == i := by
    funext a
    by_cases h : a._id = doc._id <;> simp [h]
  rw [hp]

theorem findById_id {accounts : List Account} {i : ObjectId} {a : Account}
    (h : findById accounts i = some a) : a._id = i := by
  unfold findById at h
  have := List.find?_some h
  simpa using this

theorem findById_mem {accounts : List Account} {i : ObjectId} {a : Account}
    (h : findById accounts i = some a) : a ∈ accounts := by
  unfold findById at h
  exact List.mem_of_find?_eq_some h

theorem findOwned_id {accounts : List Account} {i u : ObjectId} {a : Account}
    (h : findOwned accounts i u = some a) : a._id = i ∧ a.user = u := by
  unfold findOwned at h
  have := List.find?_some h
  simpa using this

theorem findOwned_mem {accounts : List Account} {i u : ObjectId} {a : Account}
    (h : findOwned accounts i u = some a) : a ∈ accounts := by
  unfold findOwned at h
  exact List.mem_of_find?_eq_some h

theorem mem_findById {accounts : List Account} {a : Account}
    (hu : (accounts.map (·._id)).Nodup) (h : a ∈ accounts) :
    findById accounts a._id = some a := by
  induction accounts with
  | nil => cases h
  | cons b rest ih =>
    rw [List.map_cons, List.nodup_cons] at hu
    unfold findById
    rw [List.find?_cons]
    rcases List.mem_cons.mp h with rfl | hmem
    · have hb : (a._id == a._id) = true := by simp
      rw [hb]
    · have hb : (b._id == a._id) = false := by
        rw [beq_eq_false_iff_ne]
        intro heq
        apply hu.1
        rw [heq]
        exact List.mem_map_of_mem _ hmem
      rw [hb]
      exact ih hu.2 hmem

theorem findOwned_findById {accounts : List Account} {i u : ObjectId} {a : Account}
    (hu : (accounts.map (·._id)).Nodup) (h : findOwned accounts i u = some a) :
    findById accounts i = some a := by
  have hid := (findOwned_id h).1
  rw [← hid]
  exact mem_findById hu (findOwned_mem h)

/-! ## The shape of a run of the handler -/

theorem validationPasses_iff (req : Request) :
    validationPasses req = true ↔
      (∃ s, req.fromAccount = IdField.id s) ∧ (∃ a, req.amount = some a ∧ (1:ℚ)/100 ≤ a) ∧
        req.description ≠ "" ∧ ∃ t, req.type = some t := by
  unfold validationPasses
  rcases req with ⟨u, fa, ta, am, d, ty, c, r⟩
  cases fa <;> cases am <;> cases ty <;> simp

/-- Every run of the handler either answers without having written anything, or is the
run of `persistAndApply` on an admitted request. -/
theorem createTransaction_cases (fl : Faults) (db : Db) (req : Request) :
    ((createTransaction fl db req).2 = db ∧
      ((createTransaction fl db req).1.isRejection = true ∨
        (createTransaction fl db req).1 = Response.serverError)) ∨
    ∃ s amount type src tgt, Admitted db req s amount type src tgt ∧
      createTransaction fl db req = persistAndApply fl db req s amount type src tgt := by
  unfold createTransaction
  by_cases hv : validationPasses req = true
  · obtain ⟨⟨s, hs⟩, ⟨a, ha, hmin⟩, hd, ⟨t, ht⟩⟩ := (validationPasses_iff req).mp hv
    simp only [hv, not_true_eq_false, if_false, hs, ha, ht]
    cases hsrc : findOwned db.accounts s req.user with
    | none => left; simp [Response.isRejection]
    | some src =>
      simp only []
      split_ifs with hf
      · left; simp [Response.isRejection]
      · cases hto : req.toAccount with
        | absent =>
          right
          exact ⟨s, a, t, src, none, ⟨hs, ha, ht, hmin, hd, hsrc, hf, Or.inl ⟨hto, rfl⟩⟩, rfl⟩
        | malformed => left; simp
        | id i =>
          simp only []
          cases htg : findById db.accounts i with
          | none => left; simp [Response.isRejection]
          | some ta =>
            right
            exact ⟨s, a, t, src, some ta,
              ⟨hs, ha, ht, hmin, hd, hsrc, hf, Or.inr ⟨i, ta, hto, htg, rfl⟩⟩, rfl⟩
  · left
    simp [hv, Response.isRejection]

theorem persistAndApply_created {fl : Faults} {db : Db} {req : Request} {s : ObjectId}
    {amount : ℚ} {type : TxType} {src : Account} {tgt : Option Account}
    {tx : Transaction} {db' : Db}
    (h : persistAndApply fl db req s amount type src tgt = (Response.created tx, db')) :
    tx = newTransaction req s amount type src ∧
    fl.transactionSave = false ∧ fl.rewardsUpdate = false ∧
    updateBalances fl db.accounts type amount
        (calculateFee type amount (decide (type = TxType.international))) src tgt =
      (false, db'.accounts) ∧
    db'.transactions = db.transactions ++ [tx] ∧
    db'.users = incRewards db.users req.user (⌊amount * (1/100)⌋ : ℤ) := by
  unfold persistAndApply at h
  simp only [] at h
  rcases hub : updateBalances fl db.accounts type amount
      (calculateFee type amount (decide (type = TxType.international))) src tgt with ⟨b, accs⟩
  rw [hub] at h
  by_cases h1 : fl.transactionSave = true ∨
      (newTransaction req s amount type src).category ∉ categories
  · rw [if_pos h1] at h
    simp at h
  · rw [if_neg h1] at h
    cases b with
    | true => simp at h
    | false =>
      simp only [] at h
      by_cases h2 : fl.rewardsUpdate = true
      · rw [if_pos h2] at h
        simp at h
      · rw [if_neg h2] at h
        simp only [Prod.mk.injEq, Response.created.injEq] at h
        obtain ⟨htx, hdb⟩ := h
        subst hdb
        simp only [not_or, Bool.not_eq_true] at h1
        exact ⟨htx.symm, h1.1, by simpa using h2, rfl, by rw [htx], rfl⟩

/-- The accounts collection after `persistAndApply` is the one `updateBalances` leaves,
or the old one when the transaction was not saved. -/
theorem persistAndApply_accounts (fl : Faults) (db : Db) (req : Request) (s : ObjectId)
    (amount : ℚ) (type : TxType) (src : Account) (tgt : Option Account) :
    (persistAndApply fl db req s amount type src tgt).2.accounts = db.accounts ∨
    (persistAndApply fl db req s amount type src tgt).2.accounts =
      (updateBalances fl db.accounts type amount
        (calculateFee type amount (decide (type = TxType.international))) src tgt).2 := by
  unfold persistAndApply
  simp only []
  rcases hub : updateBalances fl db.accounts type amount
      (calculateFee type amount (decide (type = TxType.international))) src tgt with ⟨b, accs⟩
  by_cases h1 : fl.transactionSave = true ∨
      (newTransaction req s amount type src).category ∉ categories
  · left
    rw [if_pos h1]
  · right
    rw [if_neg h1]
    cases b with
    | true => rfl
    | false =>
      simp only []
      by_cases h2 : fl.rewardsUpdate = true
      · rw [if_pos h2]
      · rw [if_neg h2]

theorem updateBalances_debit (fl : Faults) (accounts : List Account) {type : TxType}
    (amount fee : ℚ) (src : Account) (tgt : Option Account)
    (h : type = TxType.withdrawal ∨ type = TxType.payment ∨ type = TxType.international) :
    updateBalances fl accounts type amount fee src tgt =
      if fl.sourceSave then (true, accounts)
      else (false, saveAccount accounts { src with balance := src.balance - (amount + fee) }) := by
  unfold updateBalances
  simp only [h, if_true]

theorem updateBalances_transfer (fl : Faults) (accounts : List Account)
    (amount fee : ℚ) (src ta : Account) :
    updateBalances fl accounts TxType.transfer amount fee src (some ta) =
      if fl.targetSave then (true, accounts)
      else if fl.sourceSave then
        (true, saveAccount accounts { ta with balance := ta.balance + amount })
      else (false, saveAccount (saveAccount accounts { ta with balance := ta.balance + amount })
        { src with balance := src.balance - (amount + fee) }) := by
  unfold updateBalances
  simp

theorem updateBalances_transfer_none (fl : Faults) (accounts : List Account)
    (amount fee : ℚ) (src : Account) :
    updateBalances fl accounts TxType.transfer amount fee src none =
      if fl.sourceSave then (true, accounts) else (false, saveAccount accounts src) := by
  unfold updateBalances
  simp

theorem updateBalances_deposit (fl : Faults) (accounts : List Account)
    (amount fee : ℚ) (src : Account) (tgt : Option Account) :
    updateBalances fl accounts TxType.deposit amount fee src tgt =
      if fl.sourceSave then (true, accounts)
      else (false, saveAccount accounts { src with balance := src.balance + amount }) := by
  unfold updateBalances
  cases tgt <;> simp

theorem balance_saveAccount (accounts : List Account) (doc : Account) (i : ObjectId) :
    (findById (saveAccount accounts doc) i).map (·.balance) =
      if i = doc._id then (findById accounts i).map (fun _ => doc.balance)
      else (findById accounts i).map (·.balance) := by
  rw [findById_saveAccount]
  cases h : findById accounts i with
  | none => simp
  | some a =>
    have hid := findById_id h
    by_cases hi : i = doc._id
    · simp [hi, hid ▸ hi]
    · have : ¬ a._id = doc._id := by rw [hid]; exact hi
      simp [hi, this]

/-- A 201 response comes from an admitted request whose writes all went through. -/
theorem created_inv {fl : Faults} {db : Db} {req : Request} {tx : Transaction}
    (h : (createTransaction fl db req).1 = Response.created tx) :
    ∃ s amount type src tgt, Admitted db req s amount type src tgt ∧
      tx = newTransaction req s amount type src ∧
      updateBalances fl db.accounts type amount
          (calculateFee type amount (decide (type = TxType.international))) src tgt =
        (false, (createTransaction fl db req).2.accounts) ∧
      (createTransaction fl db req).2.transactions = db.transactions ++ [tx] ∧
      (createTransaction fl db req).2.users =
        incRewards db.users req.user (⌊amount * (1/100)⌋ : ℤ) := by
  rcases createTransaction_cases fl db req with ⟨_, hr | hr⟩ | ⟨s, a, ty, src, tgt, had, heq⟩
  · rw [h] at hr
    simp [Response.isRejection] at hr
  · rw [h] at hr
    simp at hr
  · have hp : persistAndApply fl db req s a ty src tgt =
        (Response.created tx, (createTransaction fl db req).2) := by
      rw [← heq, ← h]
    obtain ⟨h1, _, _, h4, h5, h6⟩ := persistAndApply_created hp
    exact ⟨s, a, ty, src, tgt, had, h1, h4, h5, h6⟩

theorem eq_of_id_eq {accounts : List Account} {a b : Account}
    (hu : (accounts.map (·._id)).Nodup) (ha : a ∈ accounts) (hb : b ∈ accounts)
    (h : a._id = b._id) : a = b :=
  List.inj_on_of_nodup_map hu ha hb h

/-! ## The overdraft invariant -/

theorem mem_saveAccount {accounts : List Account} {doc a : Account}
    (h : a ∈ saveAccount accounts doc) :
    ∃ a0 ∈ accounts, a._id = a0._id ∧ a.overdraftLimit = a0.overdraftLimit ∧
      (a = a0 ∨ (a0._id = doc._id ∧ a.balance = doc.balance)) := by
  unfold saveAccount at h
  obtain ⟨a0, hmem, rfl⟩ := List.mem_map.mp h
  refine ⟨a0, hmem, ?_⟩
  by_cases hid : a0._id = doc._id
  · simp [hid]
  · simp [hid]

/-- Saving a document whose balance respects the overdraft limit of the stored account
with its identifier keeps the invariant. -/
theorem saveAccount_ok {accounts : List Account} {doc : Account}
    (hok : AccountsOk accounts)
    (h : ∀ a ∈ accounts, a._id = doc._id → -a.overdraftLimit ≤ doc.balance) :
    AccountsOk (saveAccount accounts doc) := by
  refine ⟨?_, ?_⟩
  · rw [saveAccount_ids]
    exact hok.1
  · intro a ha
    obtain ⟨a0, hmem, -, hod, hcase⟩ := mem_saveAccount ha
    rcases hcase with rfl | ⟨hid, hbal⟩
    · exact hok.2 a hmem
    · rw [hod, hbal]
      exact ⟨(hok.2 a0 hmem).1, h a0 hmem hid⟩

/-- The balance block keeps the invariant when the request was admitted: the funds
pre-check covers the debit, and credits are of a positive amount. -/
theorem updateBalances_ok (fl : Faults) {accounts : List Account} {type : TxType}
    {amount : ℚ} {src : Account} {tgt : Option Account}
    (hok : AccountsOk accounts) (hsrc : src ∈ accounts)
    (htgt : ∀ ta, tgt = some ta → ta ∈ accounts)
    (hmin : (1:ℚ)/100 ≤ amount)
    (hfunds : ¬ (type ∈ debitingTypes ∧ src.balance <
      amount + calculateFee type amount (decide (type = TxType.international)))) :
    AccountsOk (updateBalances fl accounts type amount
      (calculateFee type amount (decide (type = TxType.international))) src tgt).2 := by
  have hpos : (0:ℚ) ≤ amount := le_trans (by norm_num) hmin
  have hsrcOk := hok.2 src hsrc
  -- a debit of an admitted request leaves a non-negative balance
  have hdebit : type ∈ debitingTypes → ∀ accs : List Account, AccountsOk accs →
      (∀ a ∈ accs, a._id = src._id → a.overdraftLimit = src.overdraftLimit) →
      AccountsOk (saveAccount accs { src with balance := src.balance -
        (amount + calculateFee type amount (decide (type = TxType.international))) }) := by
    intro hty accs haccs hsame
    apply saveAccount_ok haccs
    intro a ha hid
    have hnl : ¬ src.balance <
        amount + calculateFee type amount (decide (type = TxType.international)) :=
      fun hl => hfunds ⟨hty, hl⟩
    rw [hsame a ha hid]
    simp only
    linarith [hsrcOk.1, not_lt.mp hnl]
  have hsame0 : ∀ a ∈ accounts, a._id = src._id → a.overdraftLimit = src.overdraftLimit := by
    intro a ha hid
    rw [eq_of_id_eq hok.1 ha hsrc hid]
  cases type with
  | withdrawal =>
    rw [updateBalances_debit fl accounts amount _ src tgt (Or.inl rfl)]
    by_cases f : fl.sourceSave = true
    · rw [if_pos f]; exact hok
    · rw [if_neg f]; exact hdebit (by simp [debitingTypes]) accounts hok hsame0
  | payment =>
    rw [updateBalances_debit fl accounts amount _ src tgt (Or.inr (Or.inl rfl))]
    by_cases f : fl.sourceSave = true
    · rw [if_pos f]; exact hok
    · rw [if_neg f]; exact hdebit (by simp [debitingTypes]) accounts hok hsame0
  | international =>
    rw [updateBalances_debit fl accounts amount _ src tgt (Or.inr (Or.inr rfl))]
    by_cases f : fl.sourceSave = true
    · rw [if_pos f]; exact hok
    · rw [if_neg f]; exact hdebit (by simp [debitingTypes]) accounts hok hsame0
  | deposit =>
    rw [updateBalances_deposit]
    by_cases f : fl.sourceSave = true
    · rw [if_pos f]; exact hok
    · rw [if_neg f]
      apply saveAccount_ok hok
      intro a ha hid
      rw [hsame0 a ha hid]
      simp only
      linarith [hsrcOk.2]
  | transfer =>
    cases tgt with
    | none =>
      rw [updateBalances_transfer_none]
      by_cases f : fl.sourceSave = true
      · rw [if_pos f]; exact hok
      · rw [if_neg f]
        apply saveAccount_ok hok
        intro a ha hid
        rw [hsame0 a ha hid]
        exact hsrcOk.2
    | some ta =>
      rw [updateBalances_transfer]
      have hta := htgt ta rfl
      have hcredit : AccountsOk
          (saveAccount accounts { ta with balance := ta.balance + amount }) := by
        apply saveAccount_ok hok
        intro a ha hid
        rw [eq_of_id_eq hok.1 ha hta hid]
        simp only
        linarith [(hok.2 ta hta).2]
      by_cases f1 : fl.targetSave = true
      · rw [if_pos f1]; exact hok
      · rw [if_neg f1]
        by_cases f2 : fl.sourceSave = true
        · rw [if_pos f2]; exact hcredit
        · rw [if_neg f2]
          apply hdebit (by simp [debitingTypes]) _ hcredit
          intro a ha hid
          obtain ⟨a0, hmem, hid0, hod, -⟩ := mem_saveAccount ha
          rw [hod, hsame0 a0 hmem (hid0 ▸ hid)]

/-- One request keeps the invariant, whatever the response and the faults. -/
theorem createTransaction_ok (fl : Faults) (db : Db) (req : Request)
    (hok : AccountsOk db.accounts) :
    AccountsOk (createTransaction fl db req).2.accounts := by
  rcases createTransaction_cases fl db req with ⟨hdb, -⟩ | ⟨s, a, ty, src, tgt, had, heq⟩
  · rw [hdb]; exact hok
  · rw [heq]
    rcases persistAndApply_accounts fl db req s a ty src tgt with h | h
    · rw [h]; exact hok
    · rw [h]
      apply updateBalances_ok fl hok (findOwned_mem had.source) _ had.amount_min had.funds
      intro ta hta
      rcases had.target with ⟨-, hnone⟩ | ⟨t, ta', -, hfind, hsome⟩
      · rw [hnone] at hta; cases hta
      · rw [hsome] at hta
        cases hta
        exact findById_mem hfind

theorem runRequests_ok (reqs : List (Faults × Request)) :
    ∀ db : Db, AccountsOk db.accounts → AccountsOk (runRequests db reqs).accounts := by
  induction reqs with
  | nil => intro db h; exact h
  | cons r rest ih =>
    intro db h
    rcases r with ⟨fl, req⟩
    exact ih _ (createTransaction_ok fl db req h)

/-! ## Responses -/

/-- Once the transaction is being saved the answer is 201 or 500. -/
theorem persistAndApply_response (fl : Faults) (db : Db) (req : Request) (s : ObjectId)
    (amount : ℚ) (type : TxType) (src : Account) (tgt : Option Account) :
    (persistAndApply fl db req s amount type src tgt).1 = Response.serverError ∨
    (persistAndApply fl db req s amount type src tgt).1 =
      Response.created (newTransaction req s amount type src) := by
  unfold persistAndApply
  simp only []
  rcases updateBalances fl db.accounts type amount
      (calculateFee type amount (decide (type = TxType.international))) src tgt with ⟨b, accs⟩
  by_cases h1 : fl.transactionSave = true ∨
      (newTransaction req s amount type src).category ∉ categories
  · left
    rw [if_pos h1]
  · rw [if_neg h1]
    cases b with
    | true => left; rfl
    | false =>
      simp only []
      by_cases h2 : fl.rewardsUpdate = true
      · left; rw [if_pos h2]
      · right; rw [if_neg h2]

/-- The handler on a request that passed validation and whose source account was found. -/
theorem createTransaction_of_source {fl : Faults} {db : Db} {req : Request} {s : ObjectId}
    {amount : ℚ} {type : TxType} {src : Account}
    (hv : validationPasses req = true)
    (hfrom : req.fromAccount = IdField.id s) (hamount : req.amount = some amount)
    (htype : req.type = some type)
    (hsrc : findOwned db.accounts s req.user = some src) :
    createTransaction fl db req =
      if type ∈ debitingTypes ∧ src.balance <
          amount + calculateFee type amount (decide (type = TxType.international)) then
        (Response.insufficientFunds, db)
      else
        match req.toAccount with
        | IdField.absent => persistAndApply fl db req s amount type src none
        | IdField.malformed => (Response.serverError, db)
        | IdField.id toAccount =>
          match findById db.accounts toAccount with
          | none => (Response.destinationNotFound, db)
          | some targetAccount =>
            persistAndApply fl db req s amount type src (some targetAccount) := by
  unfold createTransaction
  simp only [hv, not_true_eq_false, if_false, hfrom, hamount, htype, hsrc]

/-! ## Runs without faults -/

theorem updateBalances_noFaults (accounts : List Account) (type : TxType) (amount fee : ℚ)
    (src : Account) (tgt : Option Account) :
    (updateBalances noFaults accounts type amount fee src tgt).1 = false := by
  unfold updateBalances noFaults
  cases type <;> cases tgt <;> simp

/-- When no write throws and the category is one of the schema, the transaction is
stored and the answer is 201. -/
theorem persistAndApply_noFaults (db : Db) (req : Request) (s : ObjectId)
    (amount : ℚ) (type : TxType) (src : Account) (tgt : Option Account)
    (hcat : req.category.getD "other" ∈ categories) :
    persistAndApply noFaults db req s amount type src tgt =
      (Response.created (newTransaction req s amount type src),
        { accounts := (updateBalances noFaults db.accounts type amount
            (calculateFee type amount (decide (type = TxType.international))) src tgt).2
          transactions := db.transactions ++ [newTransaction req s amount type src]
          users := incRewards db.users req.user (⌊amount * (1/100)⌋ : ℤ) }) := by
  have hcat' : (newTransaction req s amount type src).category ∈ categories := hcat
  have hub := updateBalances_noFaults db.accounts type amount
    (calculateFee type amount (decide (type = TxType.international))) src tgt
  unfold persistAndApply
  simp only []
  rcases hres : updateBalances noFaults db.accounts type amount
      (calculateFee type amount (decide (type = TxType.international))) src tgt with ⟨b, accs⟩
  rw [hres] at hub
  simp only at hub
  subst hub
  have h1 : ¬ (noFaults.transactionSave = true ∨
      (newTransaction req s amount type src).category ∉ categories) := by
    simp [noFaults, hcat']
  have h2 : ¬ noFaults.rewardsUpdate = true := by simp [noFaults]
  rw [if_neg h1]
  simp only []
  rw [if_neg h2]

/-! ## Runs in which the transaction document was saved -/

/-- When the save of the transaction goes through, the document is stored, the accounts
are those `updateBalances` leaves, and a throwing account write gives a 500. -/
theorem persistAndApply_saved (fl : Faults) (db : Db) (req : Request) (s : ObjectId)
    (amount : ℚ) (type : TxType) (src : Account) (tgt : Option Account)
    (hsave : fl.transactionSave = false)
    (hcat : req.category.getD "other" ∈ categories) :
    (persistAndApply fl db req s amount type src tgt).2.transactions =
      db.transactions ++ [newTransaction req s amount type src] ∧
    (persistAndApply fl db req s amount type src tgt).2.accounts =
      (updateBalances fl db.accounts type amount
        (calculateFee type amount (decide (type = TxType.international))) src tgt).2 ∧
    ((updateBalances fl db.accounts type amount
        (calculateFee type amount (decide (type = TxType.international))) src tgt).1 = true →
      (persistAndApply fl db req s amount type src tgt).1 = Response.serverError) := by
  have hcat' : (newTransaction req s amount type src).category ∈ categories := hcat
  have h1 : ¬ (fl.transactionSave = true ∨
      (newTransaction req s amount type src).category ∉ categories) := by
    simp [hsave, hcat']
  unfold persistAndApply
  simp only []
  rw [if_neg h1]
  rcases updateBalances fl db.accounts type amount
      (calculateFee type amount (decide (type = TxType.international))) src tgt with ⟨b, accs⟩
  cases b with
  | true => exact ⟨rfl, rfl, fun _ => rfl⟩
  | false =>
    simp only []
    by_cases h2 : fl.rewardsUpdate = true
    · rw [if_pos h2]
      exact ⟨rfl, rfl, fun h => by cases h⟩
    · rw [if_neg h2]
      exact ⟨rfl, rfl, fun h => by cases h⟩

/-! ## Stored transactions and rewards -/

/-- A run stores at most one transaction, the document built from the request. -/
theorem createTransaction_transactions (fl : Faults) (db : Db) (req : Request) :
    (createTransaction fl db req).2.transactions = db.transactions ∨
    ∃ s amount type src,
      (createTransaction fl db req).2.transactions =
        db.transactions ++ [newTransaction req s amount type src] := by
  rcases createTransaction_cases fl db req with ⟨hdb, -⟩ | ⟨s, a, ty, src, tgt, -, heq⟩
  · left; rw [hdb]
  · rw [heq]
    unfold persistAndApply
    simp only []
    rcases updateBalances fl db.accounts ty a
      (calculateFee ty a (decide (ty = TxType.international))) src tgt with ⟨b, accs⟩
    by_cases h1 : fl.transactionSave = true ∨
        (newTransaction req s a ty src).category ∉ categories
    · left
      rw [if_pos h1]
    · right
      refine ⟨s, a, ty, src, ?_⟩
      rw [if_neg h1]
      cases b with
      | true => rfl
      | false =>
        simp only []
        by_cases h2 : fl.rewardsUpdate = true
        · rw [if_pos h2]
        · rw [if_neg h2]

theorem rewards_incRewards (users : List User) (id u : ObjectId) (points : ℚ) :
    ((incRewards users id points).find? (fun x => x._id == u)).map (·.rewardsBalance) =
      if u = id then
        ((users.find? (fun x => x._id == u)).map (·.rewardsBalance)).map (· + points)
      else (users.find? (fun x => x._id == u)).map (·.rewardsBalance) := by
  unfold incRewards
  rw [List.find?_map]
  have hp : ((fun x : User => x._id == u) ∘
      fun x : User => if x._id = id then
        { x with rewardsBalance := x.rewardsBalance + points } else x) =
      fun x : User => x._id == u := by
    funext x
    by_cases h : x._id = id <;> simp [h]
  rw [hp]
  cases hf : users.find? (fun x => x._id == u) with
  | none => simp
  | some x =>
    have hx : x._id = u := by
      have := List.find?_some hf
      simpa using this
    by_cases hu : u = id
    · simp [hu, hx ▸ hu]
    · have : ¬ x._id = id := by rw [hx]; exact hu
      simp [hu, this]

theorem findOwned_eq_none {accounts : List Account} {s u : ObjectId}
    (h : ∀ a ∈ accounts, a._id = s → a.user ≠ u) : findOwned accounts s u = none := by
  unfold findOwned
  rw [List.find?_eq_none]
  intro a ha
  simp only [Bool.and_eq_true, beq_iff_eq, not_and]
  exact fun hid => h a ha hid

/-! ## The exchange-rate table -/

/-- A key made of one currency on both sides of the hyphen is no key `XXX-YYY` with
different sides. -/
theorem same_pair_ne (c : String) (a1 a2 a3 b1 b2 b3 : Char)
    (h : ¬ (a1 = b1 ∧ a2 = b2 ∧ a3 = b3)) :
    c ++ "-" ++ c ≠ String.mk [a1, a2, a3, '-', b1, b2, b3] := by
  intro heq
  have hd := congrArg String.data heq
  simp only [String.data_append] at hd
  have hlen := congrArg List.length hd
  simp only [List.length_append, List.length_cons, List.length_nil] at hlen
  rcases c with ⟨l⟩
  simp only at hd hlen
  match l, hd, hlen with
  | [x, y, z], hd, _ =>
    simp at hd
    apply h
    obtain ⟨h1, h2, h3, h4, h5, h6⟩ := hd
    exact ⟨h1 ▸ h4 ▸ rfl, h2 ▸ h5 ▸ rfl, h3 ▸ h6 ▸ rfl⟩
  | [], _, hlen => simp at hlen
  | [_], _, hlen => simp at hlen
  | [_, _], _, hlen => simp at hlen
  | _ :: _ :: _ :: _ :: _, _, hlen => simp at hlen; omega

theorem exchangeRates_same (c : String) : exchangeRates (c ++ "-" ++ c) = none := by
  have h1 : c ++ "-" ++ c ≠ "USD-EUR" := same_pair_ne c 'U' 'S' 'D' 'E' 'U' 'R' (by decide)
  have h2 : c ++ "-" ++ c ≠ "USD-GBP" := same_pair_ne c 'U' 'S' 'D' 'G' 'B' 'P' (by decide)
  have h3 : c ++ "-" ++ c ≠ "USD-CAD" := same_pair_ne c 'U' 'S' 'D' 'C' 'A' 'D' (by decide)
  have h4 : c ++ "-" ++ c ≠ "USD-PHP" := same_pair_ne c 'U' 'S' 'D' 'P' 'H' 'P' (by decide)
  have h5 : c ++ "-" ++ c ≠ "USD-INR" := same_pair_ne c 'U' 'S' 'D' 'I' 'N' 'R' (by decide)
  have h6 : c ++ "-" ++ c ≠ "EUR-USD" := same_pair_ne c 'E' 'U' 'R' 'U' 'S' 'D' (by decide)
  have h7 : c ++ "-" ++ c ≠ "GBP-USD" := same_pair_ne c 'G' 'B' 'P' 'U' 'S' 'D' (by decide)
  have h8 : c ++ "-" ++ c ≠ "CAD-USD" := same_pair_ne c 'C' 'A' 'D' 'U' 'S' 'D' (by decide)
  unfold exchangeRates
  rw [if_neg h1, if_neg h2, if_neg h3, if_neg h4, if_neg h5, if_neg h6, if_neg h7, if_neg h8]

theorem exchangeRates_ne_zero {key : String} {r : ℚ} (h : exchangeRates key = some r) :
    r ≠ 0 := by
  unfold exchangeRates at h
  split_ifs at h <;> (cases h; norm_num)

theorem exchangeRates_unconfigured {key : String} (h : key ∉ configuredPairs) :
    exchangeRates key = none := by
  unfold configuredPairs at h
  simp only [List.mem_cons, List.mem_singleton, not_or, List.mem_nil_iff, or_false] at h
  obtain ⟨h1, h2, h3, h4, h5, h6, h7, h8⟩ := h
  unfold exchangeRates
  rw [if_neg h1, if_neg h2, if_neg h3, if_neg h4, if_neg h5, if_neg h6, if_neg h7, if_neg h8]

/-- The rate the handler computes, by the table entry of the key. -/
theorem exchangeRate_international (sourceCurrency : String) (recipient : Option RecipientBody) :
    (∀ r, exchangeRates (sourceCurrency ++ "-" ++
        ((recipient.bind (·.currency)).getD "undefined")) = some r →
      exchangeRate TxType.international sourceCurrency recipient = r) ∧
    (exchangeRates (sourceCurrency ++ "-" ++
        ((recipient.bind (·.currency)).getD "undefined")) = none →
      exchangeRate TxType.international sourceCurrency recipient = 1) := by
  unfold exchangeRate
  refine ⟨?_, ?_⟩
  · intro r hr
    simp only [if_true, hr]
    rw [if_neg (exchangeRates_ne_zero hr)]
  · intro hn
    simp only [if_true, hn]

theorem exchangeRate_eq_with (type : TxType) (sourceCurrency : String)
    (recipient : Option RecipientBody) :
    exchangeRate type sourceCurrency recipient =
      exchangeRateWith exchangeRates type sourceCurrency recipient := rfl

theorem newTransaction_eq_with (req : Request) (s : ObjectId) (amount : ℚ) (type : TxType)
    (src : Account) :
    newTransaction req s amount type src =
      newTransactionWith exchangeRates req s amount type src := rfl

/-! ## The flag `isActive` -/

theorem findOwned_withActive (flags : ObjectId → Bool) (accounts : List Account)
    (i u : ObjectId) :
    findOwned (accounts.map (Account.withActive flags)) i u =
      (findOwned accounts i u).map (Account.withActive flags) := by
  unfold findOwned
  rw [List.find?_map]
  rfl

theorem findById_withActive (flags : ObjectId → Bool) (accounts : List Account)
    (i : ObjectId) :
    findById (accounts.map (Account.withActive flags)) i =
      (findById accounts i).map (Account.withActive flags) := by
  unfold findById
  rw [List.find?_map]
  rfl

theorem saveAccount_withActive (flags : ObjectId → Bool) (accounts : List Account)
    (doc : Account) (b : ℚ) :
    saveAccount (accounts.map (Account.withActive flags))
        { Account.withActive flags doc with balance := b } =
      (saveAccount accounts { doc with balance := b }).map (Account.withActive flags) := by
  unfold saveAccount
  rw [List.map_map, List.map_map]
  apply List.map_congr_left
  intro a _
  simp only [Function.comp]
  by_cases h : a._id = doc._id
  · have h' : (Account.withActive flags a)._id = doc._id := h
    simp only [Account.withActive] at h' ⊢
    simp only [h, if_true]
  · have h' : ¬ (Account.withActive flags a)._id = doc._id := h
    simp only [Account.withActive] at h' ⊢
    simp only [h, if_false]

theorem updateBalances_withActive (flags : ObjectId → Bool) (fl : Faults)
    (accounts : List Account) (type : TxType) (amount fee : ℚ) (src : Account)
    (tgt : Option Account) :
    updateBalances fl (accounts.map (Account.withActive flags)) type amount fee
        (Account.withActive flags src) (tgt.map (Account.withActive flags)) =
      ((updateBalances fl accounts type amount fee src tgt).1,
        (updateBalances fl accounts type amount fee src tgt).2.map
          (Account.withActive flags)) := by
  have hs := fun b => saveAccount_withActive flags accounts src b
  have hsrc0 : saveAccount (accounts.map (Account.withActive flags))
      (Account.withActive flags src) =
      (saveAccount accounts src).map (Account.withActive flags) :=
    saveAccount_withActive flags accounts src src.balance
  cases type with
  | withdrawal =>
    rw [updateBalances_debit fl _ amount fee _ _ (Or.inl rfl),
      updateBalances_debit fl _ amount fee _ _ (Or.inl rfl)]
    by_cases f : fl.sourceSave = true
    · simp only [f, if_true]
    · simp only [f, if_false]
      exact congrArg (Prod.mk false) (hs _)
  | payment =>
    rw [updateBalances_debit fl _ amount fee _ _ (Or.inr (Or.inl rfl)),
      updateBalances_debit fl _ amount fee _ _ (Or.inr (Or.inl rfl))]
    by_cases f : fl.sourceSave = true
    · simp only [f, if_true]
    · simp only [f, if_false]
      exact congrArg (Prod.mk false) (hs _)
  | international =>
    rw [updateBalances_debit fl _ amount fee _ _ (Or.inr (Or.inr rfl)),
      updateBalances_debit fl _ amount fee _ _ (Or.inr (Or.inr rfl))]
    by_cases f : fl.sourceSave = true
    · simp only [f, if_true]
    · simp only [f, if_false]
      exact congrArg (Prod.mk false) (hs _)
  | deposit =>
    rw [updateBalances_deposit, updateBalances_deposit]
    by_cases f : fl.sourceSave = true
    · simp only [f, if_true]
    · simp only [f, if_false]
      exact congrArg (Prod.mk false) (hs _)
  | transfer =>
    cases tgt with
    | none =>
      rw [Option.map_none', updateBalances_transfer_none, updateBalances_transfer_none]
      by_cases f : fl.sourceSave = true
      · simp only [f, if_true]
      · simp only [f, if_false]
        exact congrArg (Prod.mk false) hsrc0
    | some ta =>
      rw [Option.map_some', updateBalances_transfer, updateBalances_transfer]
      have ht := saveAccount_withActive flags accounts ta (ta.balance + amount)
      have ht' : saveAccount (accounts.map (Account.withActive flags))
          { Account.withActive flags ta with
            balance := (Account.withActive flags ta).balance + amount } =
          (saveAccount accounts { ta with balance := ta.balance + amount }).map
            (Account.withActive flags) := ht
      by_cases f1 : fl.targetSave = true
      · simp only [f1, if_true]
      · by_cases f2 : fl.sourceSave = true
        · simp only [f1, f2, if_true, if_false]
          exact congrArg (Prod.mk true) ht'
        · simp only [f1, f2, if_false]
          apply congrArg (Prod.mk false)
          rw [ht']
          exact saveAccount_withActive flags _ src _

theorem persistAndApply_withActive (flags : ObjectId → Bool) (fl : Faults) (db : Db)
    (req : Request) (s : ObjectId) (amount : ℚ) (type : TxType) (src : Account)
    (tgt : Option Account) :
    persistAndApply fl (db.withActive flags) req s amount type
        (Account.withActive flags src) (tgt.map (Account.withActive flags)) =
      ((persistAndApply fl db req s amount type src tgt).1,
        (persistAndApply fl db req s amount type src tgt).2.withActive flags) := by
  have hnew : newTransaction req s amount type (Account.withActive flags src) =
      newTransaction req s amount type src := rfl
  have hub := updateBalances_withActive flags fl db.accounts type amount
    (calculateFee type amount (decide (type = TxType.international))) src tgt
  unfold persistAndApply
  simp only [hnew]
  have hacc : (db.withActive flags).accounts = db.accounts.map (Account.withActive flags) := rfl
  rw [hacc, hub]
  rcases updateBalances fl db.accounts type amount
      (calculateFee type amount (decide (type = TxType.international))) src tgt with ⟨b, accs⟩
  by_cases h1 : fl.transactionSave = true ∨
      (newTransaction req s amount type src).category ∉ categories
  · rw [if_pos h1, if_pos h1]
  · rw [if_neg h1, if_neg h1]
    cases b with
    | true => rfl
    | false =>
      simp only []
      by_cases h2 : fl.rewardsUpdate = true
      · rw [if_pos h2, if_pos h2]
        rfl
      · rw [if_neg h2, if_neg h2]
        rfl

/-- The handler on the store with other `isActive` flags gives the same response and the
same store, up to the flags. -/
theorem createTransaction_withActive (flags : ObjectId → Bool) (fl : Faults) (db : Db)
    (req : Request) :
    createTransaction fl (db.withActive flags) req =
      ((createTransaction fl db req).1, (createTransaction fl db req).2.withActive flags) := by
  have hacc : (db.withActive flags).accounts = db.accounts.map (Account.withActive flags) := rfl
  by_cases hv : validationPasses req = true
  · obtain ⟨⟨s, hs⟩, ⟨a, ha, -⟩, -, ⟨t, ht⟩⟩ := (validationPasses_iff req).mp hv
    cases hsrc : findOwned db.accounts s req.user with
    | none =>
      have hsrc' : findOwned (db.withActive flags).accounts s req.user = none := by
        rw [hacc, findOwned_withActive, hsrc]; rfl
      unfold createTransaction
      simp only [hv, not_true_eq_false, if_false, hs, ha, ht, hsrc, hsrc']
    | some src =>
      have hsrc' : findOwned (db.withActive flags).accounts s req.user =
          some (Account.withActive flags src) := by
        rw [hacc, findOwned_withActive, hsrc]; rfl
      rw [createTransaction_of_source hv hs ha ht hsrc,
        createTransaction_of_source hv hs ha ht hsrc']
      have hbal : (Account.withActive flags src).balance = src.balance := rfl
      rw [hbal]
      by_cases hf : t ∈ debitingTypes ∧ src.balance <
          a + calculateFee t a (decide (t = TxType.international))
      · rw [if_pos hf, if_pos hf]
      · rw [if_neg hf, if_neg hf]
        cases hto : req.toAccount with
        | absent =>
          simp only []
          exact persistAndApply_withActive flags fl db req s a t src none
        | malformed => rfl
        | id i =>
          simp only []
          rw [hacc, findById_withActive]
          cases hfind : findById db.accounts i with
          | none => rfl
          | some ta =>
            simp only [Option.map_some']
            exact persistAndApply_withActive flags fl db req s a t src (some ta)
  · have hv' : validationPasses req = false := by simpa using hv
    unfold createTransaction
    simp [hv']

/-! ## Decimal numerals and the account number -/

theorem digitChar_isDigit {d : Nat} (h : d < 10) : (Nat.digitChar d).isDigit = true := by
  interval_cases d <;> rfl

theorem toDigitsCore_isDigit (fuel : Nat) :
    ∀ (n : Nat) (ds : List Char), (∀ c ∈ ds, c.isDigit = true) →
      ∀ c ∈ Nat.toDigitsCore 10 fuel n ds, c.isDigit = true := by
  induction fuel with
  | zero =>
    intro n ds hds c hc
    exact hds c hc
  | succ f ih =>
    intro n ds hds c hc
    have hd : ∀ c ∈ Nat.digitChar (n % 10) :: ds, c.isDigit = true := by
      intro c hc
      rcases List.mem_cons.mp hc with rfl | hc
      · exact digitChar_isDigit (Nat.mod_lt _ (by norm_num))
      · exact hds c hc
    unfold Nat.toDigitsCore at hc
    simp only [] at hc
    by_cases h0 : n / 10 = 0
    · rw [if_pos h0] at hc
      exact hd c hc
    · rw [if_neg h0] at hc
      exact ih _ _ hd c hc

theorem toDigits_isDigit (n : Nat) : ∀ c ∈ Nat.toDigits 10 n, c.isDigit = true :=
  toDigitsCore_isDigit _ n [] (fun _ h => by cases h)

theorem toDigitsCore_length_ge_acc (fuel : Nat) :
    ∀ (n : Nat) (ds : List Char), ds.length ≤ (Nat.toDigitsCore 10 fuel n ds).length := by
  induction fuel with
  | zero => intro n ds; exact le_refl _
  | succ f ih =>
    intro n ds
    unfold Nat.toDigitsCore
    simp only []
    by_cases h0 : n / 10 = 0
    · rw [if_pos h0]
      simp
    · rw [if_neg h0]
      exact le_trans (by simp) (ih _ _)

/-- A number of at least `10 ^ k` prints with more than `k` digits. -/
theorem toDigitsCore_length_ge (k : Nat) :
    ∀ (fuel n : Nat) (ds : List Char), 10 ^ k ≤ n → n < fuel →
      ds.length + k + 1 ≤ (Nat.toDigitsCore 10 fuel n ds).length := by
  induction k with
  | zero =>
    intro fuel n ds _ hf
    obtain ⟨f, rfl⟩ : ∃ f, fuel = f + 1 := ⟨fuel - 1, by omega⟩
    unfold Nat.toDigitsCore
    simp only []
    by_cases h0 : n / 10 = 0
    · rw [if_pos h0]
      simp
    · rw [if_neg h0]
      exact le_trans (by simp) (toDigitsCore_length_ge_acc f _ _)
  | succ k ih =>
    intro fuel n ds hn hf
    obtain ⟨f, rfl⟩ : ∃ f, fuel = f + 1 := ⟨fuel - 1, by omega⟩
    have h10 : 10 ≤ n := le_trans (by
      calc 10 = 10 ^ 1 := by norm_num
        _ ≤ 10 ^ (k + 1) := Nat.pow_le_pow_right (by norm_num) (by omega)) hn
    have h0 : ¬ n / 10 = 0 := by omega
    have hdiv : 10 ^ k ≤ n / 10 := by
      rw [Nat.le_div_iff_mul_le (by norm_num)]
      rw [pow_succ] at hn
      exact hn
    have hlt : n / 10 < f := by omega
    unfold Nat.toDigitsCore
    simp only []
    rw [if_neg h0]
    have := ih f (n / 10) (Nat.digitChar (n % 10) :: ds) hdiv hlt
    simp only [List.length_cons] at this
    omega

theorem toDigits_length_ge {k n : Nat} (h : 10 ^ k ≤ n) :
    k + 1 ≤ (Nat.toDigits 10 n).length := by
  have := toDigitsCore_length_ge k (n + 1) n [] h (by omega)
  simpa [Nat.toDigits] using this

theorem toDigits_length_le {e n : Nat} (h : n < 10 ^ e) (he : 0 < e) :
    (Nat.toDigits 10 n).length ≤ e :=
  Nat.toDigitsCore_length 10 (by norm_num) (n + 1) n e h he

theorem sliceLast_length {k : Nat} {s : List Char} (h : k ≤ s.length) :
    (sliceLast k s).length = k := by
  unfold sliceLast
  rw [List.length_drop]
  omega

theorem padStart_length {k : Nat} {c : Char} {s : List Char} (h : s.length ≤ k) :
    (padStart k c s).length = k := by
  unfold padStart
  rw [List.length_append, List.length_replicate]
  omega

theorem scaled_draw_lt {draw : ℚ} (h0 : 0 ≤ draw) (h1 : draw < 1) :
    (⌊draw * 1000⌋).toNat < 1000 := by
  have hnn : (0:ℤ) ≤ ⌊draw * 1000⌋ := Int.floor_nonneg.mpr (by positivity)
  have hlt : ⌊draw * 1000⌋ < 1000 := by
    rw [Int.floor_lt]
    push_cast
    linarith
  omega

theorem generateAccountNumber_eq (now : Nat) (draw : ℚ) :
    generateAccountNumber now draw =
      "BA" ++ String.mk (sliceLast 8 (Nat.toDigits 10 now) ++
        padStart 3 '0' (Nat.toDigits 10 (⌊draw * 1000⌋).toNat)) := by
  unfold generateAccountNumber
  simp only []
  apply String.ext
  simp [String.data_append]

theorem generateAccountNumber_ne_empty (now : Nat) (draw : ℚ) :
    generateAccountNumber now draw ≠ "" := by
  rw [generateAccountNumber_eq]
  intro h
  have := congrArg String.length h
  simp only [String.length_append] at this
  have h2 : "BA".length = 2 := by decide
  have h0 : "".length = 0 := by decide
  omega

theorem floor_half_scaled : (⌊((1:ℚ)/2) * 1000⌋).toNat = 500 := by
  have h : ⌊((1:ℚ)/2) * 1000⌋ = 500 := by
    rw [Int.floor_eq_iff]
    norm_num
  rw [h]
  rfl

theorem generateAccountNumber_noon :
    generateAccountNumber 1762214400123 (1/2) = "BA14400123500" := by
  rw [generateAccountNumber_eq, floor_half_scaled]
  decide

/-! ## The hooks and the create-account handler -/

theorem runHooks_of_empty (env : SaveEnv) {a : Account} (h : a.accountNumber = "") :
    runHooks env a =
      { a with accountNumber := generateAccountNumber env.validateNow env.validateDraw } := by
  unfold runHooks preValidate preSave
  rw [if_pos h]
  simp only []
  rw [if_neg (generateAccountNumber_ne_empty _ _)]

theorem runHooks_of_numbered (env : SaveEnv) {a : Account} (h : a.accountNumber ≠ "") :
    runHooks env a = a := by
  unfold runHooks preValidate preSave
  rw [if_neg h, if_neg h]

theorem runHooks_numbered (env : SaveEnv) (a : Account) :
    (runHooks env a).accountNumber ≠ "" := by
  by_cases h : a.accountNumber = ""
  · rw [runHooks_of_empty env h]
    exact generateAccountNumber_ne_empty _ _
  · rw [runHooks_of_numbered env h]
    exact h

theorem saveAccountHooked_of_numbered (env : SaveEnv) (accounts : List Account)
    {doc : Account} (h : doc.accountNumber ≠ "") :
    saveAccountHooked env accounts doc = saveAccount accounts doc := by
  unfold saveAccountHooked saveAccount
  simp only [if_neg h]

/-- A save of the create-transaction handler changes no identifier and no account number. -/
theorem saveAccount_numbers (accounts : List Account) (doc : Account) :
    (saveAccount accounts doc).map (fun a => (a._id, a.accountNumber)) =
      accounts.map (fun a => (a._id, a.accountNumber)) := by
  unfold saveAccount
  rw [List.map_map]
  apply List.map_congr_left
  intro a _
  by_cases h : a._id = doc._id <;> simp [h]

theorem updateBalances_numbers (fl : Faults) (accounts : List Account) (type : TxType)
    (amount fee : ℚ) (src : Account) (tgt : Option Account) :
    (updateBalances fl accounts type amount fee src tgt).2.map
        (fun a => (a._id, a.accountNumber)) =
      accounts.map (fun a => (a._id, a.accountNumber)) := by
  unfold updateBalances
  cases type <;> cases tgt <;> cases fl.sourceSave <;> cases fl.targetSave <;>
    simp [saveAccount_numbers]

theorem createTransaction_numbers (fl : Faults) (db : Db) (req : Request) :
    (createTransaction fl db req).2.accounts.map (fun a => (a._id, a.accountNumber)) =
      db.accounts.map (fun a => (a._id, a.accountNumber)) := by
  rcases createTransaction_cases fl db req with ⟨hdb, -⟩ | ⟨s, a, ty, src, tgt, -, heq⟩
  · rw [hdb]
  · rw [heq]
    rcases persistAndApply_accounts fl db req s a ty src tgt with h | h
    · rw [h]
    · rw [h]
      exact updateBalances_numbers _ _ _ _ _ _ _

theorem createAccount_numbered (env : SaveEnv) (db : Db) (req : AccountRequest)
    (h : ∀ a ∈ db.accounts, a.accountNumber ≠ "") :
    ∀ a ∈ (createAccount env db req).2.accounts, a.accountNumber ≠ "" := by
  unfold createAccount
  by_cases hv : req.type ∈ accountTypes ∧ req.currency.length = 3
  · simp only [hv, not_true_eq_false, if_false, and_self]
    split_ifs with hdup
    · exact h
    · intro a ha
      simp only [List.mem_append, List.mem_singleton] at ha
      rcases ha with ha | rfl
      · exact h a ha
      · exact runHooks_numbered env _
  · simp only [hv, not_false_eq_true, if_true]
    exact h

/-- A collision of the generated number with a stored one makes the insert fail. -/
theorem createAccount_collision (env : SaveEnv) (db : Db) (req : AccountRequest)
    (hv : req.type ∈ accountTypes ∧ req.currency.length = 3)
    (hcol : ∃ a ∈ db.accounts,
      a.accountNumber = generateAccountNumber env.validateNow env.validateDraw) :
    createAccount env db req = (AccountResponse.serverError, db) := by
  obtain ⟨a, ha, hnum⟩ := hcol
  unfold createAccount
  simp only [hv, not_true_eq_false, if_false, and_self]
  rw [runHooks_of_empty env rfl]
  rw [if_pos]
  rw [List.any_eq_true]
  exact ⟨a, ha, by simp [hnum]⟩

/-! ## The sum of the balances -/

theorem saveAccount_of_no_id {accounts : List Account} {doc : Account}
    (h : ∀ a ∈ accounts, a._id ≠ doc._id) : saveAccount accounts doc = accounts := by
  unfold saveAccount
  conv_rhs => rw [← List.map_id accounts]
  apply List.map_congr_left
  intro a ha
  simp [h a ha]

/-- Saving a document replaces the balance of the stored account with its identifier. -/
theorem sum_saveAccount {accounts : List Account} {old doc : Account}
    (hu : (accounts.map (·._id)).Nodup) (hmem : old ∈ accounts) (hid : old._id = doc._id) :
    ((saveAccount accounts doc).map (·.balance)).sum =
      (accounts.map (·.balance)).sum - old.balance + doc.balance := by
  induction accounts with
  | nil => cases hmem
  | cons a rest ih =>
    rw [List.map_cons, List.nodup_cons] at hu
    by_cases ha : a._id = doc._id
    · have hrest : ∀ x ∈ rest, x._id ≠ doc._id := by
        intro x hx hxid
        apply hu.1
        rw [ha, ← hxid]
        exact List.mem_map_of_mem _ hx
      have hold : old = a := by
        rcases List.mem_cons.mp hmem with h | h
        · exact h
        · exact absurd hid (hrest old h)
      have hsave : saveAccount (a :: rest) doc =
          { a with balance := doc.balance } :: rest := by
        have := saveAccount_of_no_id hrest
        unfold saveAccount at this ⊢
        rw [List.map_cons, this, if_pos ha]
      rw [hsave, hold]
      simp only [List.map_cons, List.sum_cons]
      ring
    · have hold : old ∈ rest := by
        rcases List.mem_cons.mp hmem with h | h
        · rw [h] at hid
          exact absurd hid ha
        · exact h
      have hsave : saveAccount (a :: rest) doc = a :: saveAccount rest doc := by
        unfold saveAccount
        rw [List.map_cons, if_neg ha]
      rw [hsave]
      simp only [List.map_cons, List.sum_cons]
      rw [ih hu.2 hold]
      ring

theorem mem_saveAccount_self {accounts : List Account} {old doc : Account}
    (hmem : old ∈ accounts) (hid : old._id = doc._id) :
    { old with balance := doc.balance } ∈ saveAccount accounts doc := by
  unfold saveAccount
  apply List.mem_map.mpr
  exact ⟨old, hmem, by rw [if_pos hid]⟩

/-! ## The listing -/

theorem mem_pageOf {matching : List Transaction} {skip limit : Nat} {t : Transaction}
    (h : t ∈ pageOf matching skip limit) : t ∈ matching := by
  unfold pageOf at h
  split_ifs at h
  · exact List.mem_reverse.mp (List.mem_of_mem_drop h)
  · exact List.mem_reverse.mp (List.mem_of_mem_drop (List.mem_of_mem_take h))

/-- Without the query parameter `accountId`, every transaction of the page has its source
or its destination among the accounts of the requester. -/
theorem listing_default_owned (db : Db) (user : ObjectId) (page limit : Nat)
    (ts : List Transaction) (total : Nat)
    (h : (getTransactions db user page limit IdField.absent).1 = ListResponse.ok ts total) :
    ∀ t ∈ ts,
      touches ((db.accounts.filter (fun a => a.user == user)).map (·._id)) t = true := by
  unfold getTransactions at h
  simp only [ListResponse.ok.injEq] at h
  intro t ht
  rw [← h.1] at ht
  have := mem_pageOf ht
  exact (List.mem_filter.mp this).2

/-! ## Amounts that are JSON numbers -/

/-- On an amount that is a number the unconverted expressions are the arithmetic of
`createTransaction`. -/
theorem raw_of_number (type : TxType) (isInternational : Bool) (balance a fee : ℚ) :
    calculateFeeRaw type (JsValue.number a) isInternational =
      some (calculateFee type a isInternational) ∧
    totalAmountRaw (JsValue.number a) fee = JsValue.number (a + fee) ∧
    insufficientRaw balance (JsValue.number a) fee = decide (balance < a + fee) ∧
    debitRaw balance (JsValue.number a) fee = some (balance - (a + fee)) ∧
    creditRaw balance (JsValue.number a) = some (balance + a) := by
  refine ⟨?_, rfl, rfl, rfl, rfl⟩
  unfold calculateFeeRaw calculateFee
  cases isInternational <;> rfl

/-! ## The handler on the unconverted amount -/

theorem calculateFeeFl_id (type : TxType) (a : ℚ) (isInternational : Bool) :
    calculateFeeFl id type a isInternational = calculateFee type a isInternational := rfl

theorem updateBalancesRaw_exact (faults : Faults) (accounts : List Account) (type : TxType)
    (a fee : ℚ) (src : Account) (tgt : Option Account) :
    updateBalancesRaw id faults accounts type (JsValue.number a) fee src tgt =
      updateBalances faults accounts type a fee src tgt := by
  unfold updateBalancesRaw updateBalances
  cases type <;> cases tgt <;>
    simp [jsSubFl, jsAddFl, JsValue.toNumberFl]

theorem persistAndApplyRaw_exact (faults : Faults) (db : Db) (req : RawRequest)
    (s : ObjectId) (a : ℚ) (type : TxType) (src : Account) (tgt : Option Account) :
    persistAndApplyRaw id faults db req s (JsValue.number a) a type src tgt =
      persistAndApply faults db (req.toRequest a) s a type src tgt := by
  unfold persistAndApplyRaw persistAndApply
  simp only [calculateFeeFl_id, updateBalancesRaw_exact]
  rfl

/-- In exact arithmetic and on an amount that is a JSON number, the handler on the raw
body is `createTransaction`. -/
theorem createTransactionRaw_exact (faults : Faults) (db : Db) (req : RawRequest) (a : ℚ)
    (hamount : req.amount = some (JsValue.number a)) :
    createTransactionRaw id faults db req =
      createTransaction faults db (req.toRequest a) := by
  have hv : validationPassesRaw id req = validationPasses (req.toRequest a) := by
    unfold validationPassesRaw validationPasses RawRequest.toRequest
    simp [hamount, JsValue.toNumberFl]
  unfold createTransactionRaw createTransaction
  rw [hv]
  by_cases hp : validationPasses (req.toRequest a) = true
  · simp only [hp, not_true_eq_false, if_false, hamount]
    have e1 : (req.toRequest a).fromAccount = req.fromAccount := rfl
    have e2 : (req.toRequest a).amount = some a := rfl
    have e3 : (req.toRequest a).type = req.type := rfl
    have e4 : (req.toRequest a).user = req.user := rfl
    have e5 : (req.toRequest a).toAccount = req.toAccount := rfl
    rw [e1, e2, e3, e4, e5]
    cases hf : req.fromAccount with
    | absent => rfl
    | malformed => rfl
    | id s =>
      cases ht : req.type with
      | none => rfl
      | some ty =>
        simp only [JsValue.toNumberFl]
        cases findOwned db.accounts s req.user with
        | none => rfl
        | some src =>
          simp only [jsLtFl, jsAddFl, JsValue.toNumberFl, calculateFeeFl_id, id,
            decide_eq_true_eq, persistAndApplyRaw_exact]
  · have hp' : validationPasses (req.toRequest a) = false := by simpa using hp
    simp [hp']

theorem createTransactionRaw_of_source {fl : ℚ → ℚ} {faults : Faults} {db : Db}
    {req : RawRequest} {s : ObjectId} {v : JsValue} {a : ℚ} {type : TxType} {src : Account}
    (hv : validationPassesRaw fl req = true)
    (hfrom : req.fromAccount = IdField.id s) (hamount : req.amount = some v)
    (hnum : v.toNumberFl fl = some a) (htype : req.type = some type)
    (hsrc : findOwned db.accounts s req.user = some src) :
    createTransactionRaw fl faults db req =
      if type ∈ debitingTypes ∧
          jsLtFl fl src.balance
            (jsAddFl fl v (JsValue.number
              (calculateFeeFl fl type a (decide (type = TxType.international))))) = true then
        (Response.insufficientFunds, db)
      else
        match req.toAccount with
        | IdField.absent => persistAndApplyRaw fl faults db req s v a type src none
        | IdField.malformed => (Response.serverError, db)
        | IdField.id toAccount =>
          match findById db.accounts toAccount with
          | none => (Response.destinationNotFound, db)
          | some targetAccount =>
            persistAndApplyRaw fl faults db req s v a type src (some targetAccount) := by
  unfold createTransactionRaw
  simp only [hv, not_true_eq_false, if_false, hfrom, hamount, htype, hnum, hsrc]

theorem persistAndApplyRaw_response (fl : ℚ → ℚ) (faults : Faults) (db : Db)
    (req : RawRequest) (s : ObjectId) (v : JsValue) (a : ℚ) (type : TxType) (src : Account)
    (tgt : Option Account) :
    (persistAndApplyRaw fl faults db req s v a type src tgt).1 = Response.serverError ∨
    ∃ tx, (persistAndApplyRaw fl faults db req s v a type src tgt).1 = Response.created tx := by
  unfold persistAndApplyRaw
  simp only []
  rcases updateBalancesRaw fl faults db.accounts type v
      (calculateFeeFl fl type a (decide (type = TxType.international))) src tgt with ⟨b, accs⟩
  by_cases h1 : faults.transactionSave = true ∨
      ({ newTransaction (req.toRequest a) s a type src with
          fee := calculateFeeFl fl type a (decide (type = TxType.international)) } :
        Transaction).category ∉ categories
  · left
    rw [if_pos h1]
  · rw [if_neg h1]
    cases b with
    | true => left; rfl
    | false =>
      simp only []
      by_cases h2 : faults.rewardsUpdate = true
      · left; rw [if_pos h2]
      · right; rw [if_neg h2]; exact ⟨_, rfl⟩

theorem updateBalancesRaw_deposit_number (fl : ℚ → ℚ) (faults : Faults)
    (accounts : List Account) (a fee : ℚ) (src : Account) (tgt : Option Account) :
    updateBalancesRaw fl faults accounts TxType.deposit (JsValue.number a) fee src tgt =
      if faults.sourceSave then (true, accounts)
      else (false, saveAccount accounts { src with balance := fl (src.balance + a) }) := by
  unfold updateBalancesRaw
  cases tgt <;> simp [jsAddFl, JsValue.toNumberFl]

/-! ## The sign of the fee -/

theorem roundHalfEven_nonneg {x : ℚ} (hx : 0 ≤ x) : 0 ≤ roundHalfEven x := by
  have hf : (0:ℤ) ≤ ⌊x⌋ := Int.floor_nonneg.mpr hx
  unfold roundHalfEven
  split_ifs <;> omega

theorem roundBinary64_nonneg {q : ℚ} (hq : 0 ≤ q) : 0 ≤ roundBinary64 q := by
  unfold roundBinary64
  split_ifs with h0
  · exact le_refl 0
  · have hpos : (0:ℚ) < (2:ℚ) ^ (binaryExponent |q| - 52) := zpow_pos (by norm_num) _
    have hx : (0:ℚ) ≤ q / (2:ℚ) ^ (binaryExponent |q| - 52) := div_nonneg hq hpos.le
    have hr : (0:ℚ) ≤ (roundHalfEven (q / (2:ℚ) ^ (binaryExponent |q| - 52)) : ℚ) := by
      exact_mod_cast roundHalfEven_nonneg hx
    exact mul_nonneg hr hpos.le

theorem calculateFeeFl_nonneg {fl : ℚ → ℚ} (hfl : ∀ x, 0 ≤ x → 0 ≤ fl x) (type : TxType)
    (isInternational : Bool) {amount : ℚ} (hamount : 0 ≤ amount) :
    0 ≤ calculateFeeFl fl type amount isInternational := by
  unfold calculateFeeFl
  cases isInternational with
  | true =>
    simp only [if_true]
    exact le_min (hfl _ (mul_nonneg hamount (hfl _ (by norm_num)))) (by norm_num)
  | false =>
    cases type <;> simp [fees] <;> norm_num

theorem persistAndApplyRaw_created {fl : ℚ → ℚ} {faults : Faults} {db : Db}
    {req : RawRequest} {s : ObjectId} {v : JsValue} {a : ℚ} {type : TxType} {src : Account}
    {tgt : Option Account} {tx : Transaction}
    (h : (persistAndApplyRaw fl faults db req s v a type src tgt).1 = Response.created tx) :
    tx = { newTransaction (req.toRequest a) s a type src with
           fee := calculateFeeFl fl type a (decide (type = TxType.international)) } := by
  unfold persistAndApplyRaw at h
  simp only [] at h
  generalize updateBalancesRaw fl faults db.accounts type v
      (calculateFeeFl fl type a (decide (type = TxType.international))) src tgt = r at h
  rcases r with ⟨b, accs⟩
  by_cases h1 : faults.transactionSave = true ∨
      ({ newTransaction (req.toRequest a) s a type src with
          fee := calculateFeeFl fl type a (decide (type = TxType.international)) } :
        Transaction).category ∉ categories
  · rw [if_pos h1] at h
    cases h
  · rw [if_neg h1] at h
    cases b with
    | true => cases h
    | false =>
      simp only [] at h
      by_cases h2 : faults.rewardsUpdate = true
      · rw [if_pos h2] at h
        cases h
      · rw [if_neg h2] at h
        simp only [Response.created.injEq] at h
        exact h.symm

/-- A 201 response of the handler on the raw body: the amount passed the validator and
the recorded fee is the fee computed from its numeric value. -/
theorem createTransactionRaw_created {fl : ℚ → ℚ} {faults : Faults} {db : Db}
    {req : RawRequest} {tx : Transaction}
    (h : (createTransactionRaw fl faults db req).1 = Response.created tx) :
    ∃ (s : ObjectId) (a : ℚ) (type : TxType) (src : Account), fl (1/100) ≤ a ∧
      req.type = some type ∧
      tx = { newTransaction (req.toRequest a) s a type src with
             fee := calculateFeeFl fl type a (decide (type = TxType.international)) } := by
  by_cases hv : validationPassesRaw fl req = true
  · cases hfrom : req.fromAccount with
    | absent => simp [validationPassesRaw, hfrom] at hv
    | malformed => simp [validationPassesRaw, hfrom] at hv
    | id s =>
      cases hamount : req.amount with
      | none => simp [validationPassesRaw, hamount] at hv
      | some v =>
        cases htype : req.type with
        | none => simp [validationPassesRaw, htype] at hv
        | some type =>
          cases hnum : v.toNumberFl fl with
          | none => simp [validationPassesRaw, hamount, hnum] at hv
          | some a =>
            have hmin : fl (1/100) ≤ a := by
              simp [validationPassesRaw, hfrom, hamount, hnum, htype] at hv
              rw [one_div]
              exact hv.1
            cases hsrc : findOwned db.accounts s req.user with
            | none =>
              exfalso
              unfold createTransactionRaw at h
              simp only [hv, not_true_eq_false, if_false, hfrom, hamount, htype, hnum,
                hsrc] at h
              cases h
            | some src =>
              rw [createTransactionRaw_of_source hv hfrom hamount hnum htype hsrc] at h
              refine ⟨s, a, type, src, hmin, rfl, ?_⟩
              by_cases hins : type ∈ debitingTypes ∧
                  jsLtFl fl src.balance
                    (jsAddFl fl v (JsValue.number
                      (calculateFeeFl fl type a (decide (type = TxType.international))))) = true
              · rw [if_pos hins] at h
                cases h
              · rw [if_neg hins] at h
                cases hto : req.toAccount with
                | absent =>
                  rw [hto] at h
                  exact persistAndApplyRaw_created h
                | malformed =>
                  rw [hto] at h
                  cases h
                | id i =>
                  rw [hto] at h
                  simp only [] at h
                  cases hfind : findById db.accounts i with
                  | none =>
                    rw [hfind] at h
                    cases h
                  | some ta =>
                    rw [hfind] at h
                    exact persistAndApplyRaw_created h
  · exfalso
    unfold createTransactionRaw at h
    rw [if_pos hv] at h
    cases h

/-! ## Claims -/

/-- The transfer of an amount that is a JSON number, in exact arithmetic: a completed
`transfer` of amount `A` between two distinct existing accounts lowers the stored balance
of the source by `A` plus the recorded fee, raises the stored balance of the destination
by `A`, and leaves the balance of every other account as it was. -/
theorem transfer_moves_amount (fl : Faults) (db : Db) (req : Request) (tx : Transaction)
    (s t : ObjectId) (A bs bt : ℚ)
    (hu : db.UniqueIds)
    (htype : req.type = some TxType.transfer)
    (hfrom : req.fromAccount = IdField.id s) (hto : req.toAccount = IdField.id t)
    (hamount : req.amount = some A) (hne : s ≠ t)
    (hbs : db.balance? s = some bs) (hbt : db.balance? t = some bt)
    (hrun : (createTransaction fl db req).1 = Response.created tx) :
    (createTransaction fl db req).2.balance? s = some (bs - (A + tx.fee)) ∧
    (createTransaction fl db req).2.balance? t = some (bt + A) ∧
    (∀ i, i ≠ s → i ≠ t →
      (createTransaction fl db req).2.balance? i = db.balance? i) ∧
    tx.status = TxStatus.completed := by
  obtain ⟨s', a, ty, src, tgt, had, htx, hub, -, -⟩ := created_inv hrun
  have e1 := had.fromAccount_eq
  have e2 := had.amount_eq
  have e3 := had.type_eq
  rw [hfrom] at e1
  rw [hamount] at e2
  rw [htype] at e3
  cases e1
  cases e2
  cases e3
  rcases had.target with ⟨habs, -⟩ | ⟨t', ta, ht', hta, htgt⟩
  · rw [hto] at habs
    cases habs
  rw [hto] at ht'
  cases ht'
  subst htgt
  have hsrc := findOwned_findById hu had.source
  have hsid := findById_id hsrc
  have htid := findById_id hta
  rw [updateBalances_transfer] at hub
  by_cases f1 : fl.targetSave = true
  · rw [if_pos f1] at hub
    simp at hub
  rw [if_neg f1] at hub
  by_cases f2 : fl.sourceSave = true
  · rw [if_pos f2] at hub
    simp at hub
  rw [if_neg f2] at hub
  have hacc := (Prod.mk.inj hub).2
  have hfee : tx.fee = calculateFee TxType.transfer A (decide (TxType.transfer = TxType.international)) := by
    rw [htx]; rfl
  unfold Db.balance? at hbs hbt ⊢
  rw [hsrc] at hbs
  rw [hta] at hbt
  simp only [Option.map_some', Option.some.injEq] at hbs hbt
  rw [← hacc]
  refine ⟨?_, ?_, ?_, ?_⟩
  · rw [balance_saveAccount, if_pos hsid.symm, findById_saveAccount, hsrc]
    simp only [Option.map_some', hfee, hbs]
  · rw [balance_saveAccount]
    have h1 : ¬ t = src._id := by rw [hsid]; exact fun h => hne h.symm
    simp only [if_neg h1]
    rw [balance_saveAccount, if_pos htid.symm, hta]
    simp only [Option.map_some', hbt]
  · intro i his hit
    have h1 : ¬ i = src._id := by rw [hsid]; exact his
    have h2 : ¬ i = ta._id := by rw [htid]; exact hit
    rw [balance_saveAccount, if_neg h1, balance_saveAccount, if_neg h2]
  · rw [htx]; rfl

/-- Scenario B: 500.00 and 0.00 become 300.00 and 200.00, status `completed`. -/
theorem transfer_moves_amount_witness :
    scenarioB.UniqueIds ∧
    (createTransaction noFaults scenarioB transferB).1 = Response.created transferBRecord ∧
    (createTransaction noFaults scenarioB transferB).2.balance? 1 = some 300 ∧
    (createTransaction noFaults scenarioB transferB).2.balance? 2 = some 200 ∧
    transferBRecord.status = TxStatus.completed := by
  have hu : scenarioB.UniqueIds := by
    simp [Db.UniqueIds, scenarioB]
  have hrun : (createTransaction noFaults scenarioB transferB).1 =
      Response.created transferBRecord := by
    simp [createTransaction, validationPasses, transferB, scenarioB, findOwned, findById,
      debitingTypes, calculateFee, fees, persistAndApply, newTransaction, categories,
      updateBalances, noFaults, transferBRecord, exchangeRate]
    norm_num
  obtain ⟨h1, h2, -, h4⟩ := transfer_moves_amount noFaults scenarioB transferB transferBRecord
    1 2 200 500 0 hu rfl rfl rfl rfl (by decide)
    (by simp [Db.balance?, findById, scenarioB]) (by simp [Db.balance?, findById, scenarioB]) hrun
  refine ⟨hu, hrun, ?_, ?_, h4⟩
  · rw [h1]; norm_num [transferBRecord]
  · rw [h2]; norm_num

/-- The ledger invariant for amounts that are JSON numbers, in exact arithmetic: when every
account starts with `overdraftLimit >= 0` and `balance >= -overdraftLimit`, then after any
sequence of create-transaction requests, of any type and with any outcome, every account
still has `balance >= -overdraftLimit`. -/
theorem balance_never_below_overdraft (db : Db) (reqs : List (Faults × Request))
    (hu : db.UniqueIds)
    (h0 : ∀ a ∈ db.accounts, 0 ≤ a.overdraftLimit ∧ -a.overdraftLimit ≤ a.balance) :
    ∀ a ∈ (runRequests db reqs).accounts, -a.overdraftLimit ≤ a.balance := by
  intro a ha
  exact ((runRequests_ok reqs db ⟨hu, h0⟩).2 a ha).2

/-- A run of one transfer on Scenario B keeps every balance at or above minus the limit. -/
theorem balance_never_below_overdraft_witness :
    scenarioB.UniqueIds ∧
    (∀ a ∈ scenarioB.accounts, 0 ≤ a.overdraftLimit ∧ -a.overdraftLimit ≤ a.balance) ∧
    ∀ a ∈ (runRequests scenarioB [(noFaults, transferB), (noFaults, transferB)]).accounts,
      -a.overdraftLimit ≤ a.balance := by
  have hu : scenarioB.UniqueIds := by
    simp [Db.UniqueIds, scenarioB]
  have h0 : ∀ a ∈ scenarioB.accounts, 0 ≤ a.overdraftLimit ∧ -a.overdraftLimit ≤ a.balance := by
    simp [scenarioB]
  exact ⟨hu, h0, balance_never_below_overdraft scenarioB _ hu h0⟩

/-- C3, as stated, fails: with balance 0.00 and an overdraft limit of 100.00 a withdrawal of
10.00 (fee 2.50) is refused with `Insufficient funds`, in exact arithmetic and in binary64
alike, although `balance - (amount + fee) = -12.50` is not below
`-overdraftLimit = -100.00`. -/
theorem insufficient_funds_ignores_overdraft :
    findOwned scenarioOverdraft.accounts 3 7 = some overdraftAccount ∧
    (createTransaction noFaults scenarioOverdraft withdrawal10).1 = Response.insufficientFunds ∧
    (createTransactionRaw roundBinary64 noFaults scenarioOverdraft withdrawal10Raw).1 =
      Response.insufficientFunds ∧
    ¬ (overdraftAccount.balance - (10 + calculateFee TxType.withdrawal 10 false) <
        -overdraftAccount.overdraftLimit) := by
  refine ⟨?_, ?_, by decide!, ?_⟩
  · simp [findOwned, scenarioOverdraft, overdraftAccount]
  · simp [createTransaction, validationPasses, withdrawal10, scenarioOverdraft, overdraftAccount,
      findOwned, debitingTypes, calculateFee, fees]
    norm_num
  · norm_num [overdraftAccount, calculateFee, fees]

/-- The debit of an amount that is a JSON number, in exact arithmetic: a completed
`withdrawal`, `payment` or `international` transaction lowers the stored balance of its
source account by `amount + fee`, the amount and fee being those of the stored
Transaction, and changes the balance of no other account. -/
theorem outbound_debits_amount_plus_fee (fl : Faults) (db : Db) (req : Request)
    (tx : Transaction)
    (hu : db.UniqueIds)
    (hrun : (createTransaction fl db req).1 = Response.created tx)
    (htype : tx.type = TxType.withdrawal ∨ tx.type = TxType.payment ∨
      tx.type = TxType.international) :
    tx ∈ (createTransaction fl db req).2.transactions ∧
    (∃ b, db.balance? tx.fromAccount = some b ∧
      (createTransaction fl db req).2.balance? tx.fromAccount =
        some (b - (tx.amount + tx.fee))) ∧
    ∀ i, i ≠ tx.fromAccount →
      (createTransaction fl db req).2.balance? i = db.balance? i := by
  obtain ⟨s, a, ty, src, tgt, had, htx, hub, htxs, -⟩ := created_inv hrun
  have hty : ty = TxType.withdrawal ∨ ty = TxType.payment ∨ ty = TxType.international := by
    rw [htx] at htype; exact htype
  have hfromA : tx.fromAccount = s := by rw [htx]; rfl
  have hamt : tx.amount = a := by rw [htx]; rfl
  have hfee : tx.fee = calculateFee ty a (decide (ty = TxType.international)) := by
    rw [htx]; rfl
  have hsrc := findOwned_findById hu had.source
  have hsid := findById_id hsrc
  rw [updateBalances_debit fl db.accounts a _ src tgt hty] at hub
  by_cases f : fl.sourceSave = true
  · rw [if_pos f] at hub
    simp at hub
  rw [if_neg f] at hub
  have hacc := (Prod.mk.inj hub).2
  refine ⟨by rw [htxs]; simp, ⟨src.balance, ?_, ?_⟩, ?_⟩
  · unfold Db.balance?
    rw [hfromA, hsrc]
    rfl
  · unfold Db.balance?
    rw [← hacc, hfromA, balance_saveAccount, if_pos hsid.symm, hsrc, hamt, hfee]
    rfl
  · intro i hi
    unfold Db.balance?
    have h1 : ¬ i = src._id := by rw [hsid, ← hfromA]; exact hi
    rw [← hacc, balance_saveAccount]
    simp only [if_neg h1]

/-- A withdrawal of 40.00 from 100.00 leaves 100.00 - (40.00 + 2.50) = 57.50. -/
theorem outbound_debits_amount_plus_fee_witness :
    scenarioA.UniqueIds ∧
    (createTransaction noFaults scenarioA withdrawal40).1 = Response.created withdrawal40Record ∧
    (createTransaction noFaults scenarioA withdrawal40).2.balance? 4 = some (115/2) := by
  have hu : scenarioA.UniqueIds := by
    simp [Db.UniqueIds, scenarioA]
  have hrun : (createTransaction noFaults scenarioA withdrawal40).1 =
      Response.created withdrawal40Record := by
    simp [createTransaction, validationPasses, withdrawal40, scenarioA, findOwned,
      debitingTypes, calculateFee, fees, persistAndApply, newTransaction, categories,
      updateBalances, noFaults, withdrawal40Record, exchangeRate]
    norm_num
  obtain ⟨-, ⟨b, hb, hb'⟩, -⟩ := outbound_debits_amount_plus_fee noFaults scenarioA withdrawal40
    withdrawal40Record hu hrun (Or.inl rfl)
  refine ⟨hu, hrun, ?_⟩
  have hb0 : b = 100 := by
    simp [Db.balance?, findById, scenarioA, withdrawal40Record] at hb
    exact hb.symm
  have e : withdrawal40Record.fromAccount = 4 := rfl
  rw [e] at hb'
  rw [hb', hb0]
  norm_num [withdrawal40Record]

/-- C6. With `isInternational = true`, `calculateFee` is `min(amount * 0.03, 25)` for every
type and amount; so the fee recorded for a completed `international` transaction of amount
`a` is `min(0.03 * a, 25)`. -/
theorem international_fee :
    (∀ (type : TxType) (amount : ℚ),
      calculateFee type amount true = min (amount * (3/100)) 25) ∧
    (∀ (fl : Faults) (db : Db) (req : Request) (tx : Transaction) (a : ℚ),
      req.type = some TxType.international → req.amount = some a →
      (createTransaction fl db req).1 = Response.created tx →
      tx.fee = min ((3/100) * a) 25) := by
  refine ⟨fun type amount => rfl, ?_⟩
  intro fl db req tx a hty ham hrun
  obtain ⟨s, a', ty, src, tgt, had, htx, -, -, -⟩ := created_inv hrun
  have e1 := had.amount_eq
  have e2 := had.type_eq
  rw [ham] at e1
  rw [hty] at e2
  cases e1
  cases e2
  rw [htx, mul_comm]
  rfl

/-- Scenario D: the international transaction of 1000.00 is recorded with fee 25. -/
theorem international_fee_witness :
    calculateFee TxType.international 1000 true = 25 ∧
    (createTransaction noFaults scenarioD internationalD).1 =
      Response.created internationalDRecord ∧
    internationalDRecord.fee = min ((3/100) * 1000) 25 := by
  have hkey : ("USD" ++ "-" ++ "JPY" : String) = "USD-JPY" := by decide
  have hrun : (createTransaction noFaults scenarioD internationalD).1 =
      Response.created internationalDRecord := by
    simp [createTransaction, validationPasses, internationalD, scenarioD, findOwned,
      debitingTypes, calculateFee, fees, persistAndApply, newTransaction, categories,
      updateBalances, noFaults, internationalDRecord, exchangeRate, exchangeRates, hkey]
    norm_num
  refine ⟨?_, hrun, international_fee.2 noFaults scenarioD internationalD internationalDRecord
    1000 rfl rfl hrun⟩
  rw [international_fee.1]
  norm_num

/-- C7. With `isInternational = false`, `calculateFee` is 2.50 for `withdrawal`, 1.50 for
`payment`, 0 for `transfer` and 0 for `deposit`, whatever the amount. -/
theorem domestic_fee (amount : ℚ) :
    calculateFee TxType.withdrawal amount false = 5/2 ∧
    calculateFee TxType.payment amount false = 3/2 ∧
    calculateFee TxType.transfer amount false = 0 ∧
    calculateFee TxType.deposit amount false = 0 := by
  refine ⟨rfl, rfl, rfl, rfl⟩

/-- C8. The fee is never negative: for every type, every `isInternational` flag and every
amount that is not negative, `calculateFee` is not negative, in exact arithmetic and in
binary64 alike. The function is private to `routes/transactions.js` and is called at two
places of the handler only, both after the validator `isFloat({ min: 0.01 })`, so every
amount it receives is at least 0.01. -/
theorem fee_nonneg (type : TxType) (isInternational : Bool) (amount : ℚ)
    (hamount : 0 ≤ amount) :
    0 ≤ calculateFee type amount isInternational ∧
    0 ≤ calculateFeeFl roundBinary64 type amount isInternational := by
  refine ⟨?_, calculateFeeFl_nonneg (fun _ hx => roundBinary64_nonneg hx) type isInternational
    hamount⟩
  unfold calculateFee
  cases isInternational with
  | true =>
    simp only [if_true]
    exact le_min (mul_nonneg hamount (by norm_num)) (by norm_num)
  | false =>
    cases type <;> simp [fees] <;> norm_num

/-- The fee of an international transaction of 1000.00 is not negative. -/
theorem fee_nonneg_witness :
    (0:ℚ) ≤ 1000 ∧ 0 ≤ calculateFee TxType.international 1000 true ∧
    0 ≤ calculateFeeFl roundBinary64 TxType.international 1000 true :=
  ⟨by norm_num, fee_nonneg TxType.international true 1000 (by norm_num)⟩

/-- The fee recorded by the handler is never negative: whatever the body, number or
string amount, and whatever write throws, a 201 response carries a Transaction whose fee
was computed from an amount of at least `0.01`, and that fee is not negative. -/
theorem recorded_fee_nonneg (faults : Faults) (db : Db) (req : RawRequest) (tx : Transaction)
    (h : (createTransactionRaw roundBinary64 faults db req).1 = Response.created tx) :
    0 ≤ tx.fee := by
  obtain ⟨s, a, type, src, hmin, -, rfl⟩ := createTransactionRaw_created h
  have h0 : (0:ℚ) ≤ roundBinary64 (1/100) := roundBinary64_nonneg (by norm_num)
  exact calculateFeeFl_nonneg (fun _ hx => roundBinary64_nonneg hx) type _ (le_trans h0 hmin)

/-- C9. When the handler refuses a request (validation failure, source account not found
or not owned, insufficient funds, destination not found), the stored state after the call
is the stored state before it: every account balance and every reward balance is the same. -/
theorem rejection_changes_nothing (fl : Faults) (db : Db) (req : Request)
    (hrej : (createTransaction fl db req).1.isRejection = true) :
    (createTransaction fl db req).2 = db ∧
    (∀ i, (createTransaction fl db req).2.balance? i = db.balance? i) ∧
    (∀ u, (createTransaction fl db req).2.rewards? u = db.rewards? u) := by
  have hdb : (createTransaction fl db req).2 = db := by
    rcases createTransaction_cases fl db req with ⟨hdb, -⟩ | ⟨s, a, ty, src, tgt, -, heq⟩
    · exact hdb
    · exfalso
      rw [heq] at hrej
      rcases persistAndApply_response fl db req s a ty src tgt with h | h <;>
        rw [h] at hrej <;> simp [Response.isRejection] at hrej
  refine ⟨hdb, ?_, ?_⟩
  · intro i; rw [hdb]
  · intro u; rw [hdb]

/-- Scenario A: the withdrawal of 100.00 from a balance of 100.00 (fee 2.50) is refused
with `Insufficient funds` and the balance stays 100.00. -/
theorem rejection_changes_nothing_witness :
    (createTransaction noFaults scenarioA withdrawalA).1 = Response.insufficientFunds ∧
    (createTransaction noFaults scenarioA withdrawalA).2 = scenarioA ∧
    (createTransaction noFaults scenarioA withdrawalA).2.balance? 4 = some 100 := by
  have hr : (createTransaction noFaults scenarioA withdrawalA).1 = Response.insufficientFunds := by
    simp [createTransaction, validationPasses, withdrawalA, scenarioA, findOwned,
      debitingTypes, calculateFee, fees]
    norm_num
  have hrej : (createTransaction noFaults scenarioA withdrawalA).1.isRejection = true := by
    rw [hr]; rfl
  obtain ⟨h1, h2, -⟩ := rejection_changes_nothing noFaults scenarioA withdrawalA hrej
  refine ⟨hr, h1, ?_⟩
  rw [h2]
  simp [Db.balance?, findById, scenarioA]

/-- C10, as stated, fails: in Scenario B, when the write of the source account throws after
the destination was written, the handler answers 500, the destination keeps its credit
(200.00), the source keeps its balance (500.00), and the Transaction stays stored with
status `completed`: nothing is rolled back. -/
theorem failed_transfer_not_rolled_back :
    (createTransaction sourceSaveFails scenarioB transferB).1 = Response.serverError ∧
    (createTransaction sourceSaveFails scenarioB transferB).2.balance? 2 = some 200 ∧
    (createTransaction sourceSaveFails scenarioB transferB).2.balance? 1 = some 500 ∧
    (createTransaction sourceSaveFails scenarioB transferB).2.transactions = [transferBRecord] ∧
    transferBRecord.status = TxStatus.completed := by
  refine ⟨?_, ?_, ?_, ?_, rfl⟩
  · simp [createTransaction, validationPasses, transferB, scenarioB, findOwned, findById,
      debitingTypes, calculateFee, fees, persistAndApply, newTransaction, categories,
      updateBalances, sourceSaveFails]
    norm_num
  · simp [createTransaction, validationPasses, transferB, scenarioB, findOwned, findById,
      debitingTypes, calculateFee, fees, persistAndApply, newTransaction, categories,
      updateBalances, sourceSaveFails, saveAccount, Db.balance?]
    norm_num
  · simp [createTransaction, validationPasses, transferB, scenarioB, findOwned, findById,
      debitingTypes, calculateFee, fees, persistAndApply, newTransaction, categories,
      updateBalances, sourceSaveFails, saveAccount, Db.balance?]
    norm_num
  · simp [createTransaction, validationPasses, transferB, scenarioB, findOwned, findById,
      debitingTypes, calculateFee, fees, persistAndApply, newTransaction, categories,
      updateBalances, sourceSaveFails, transferBRecord, exchangeRate]
    norm_num

/-- C10, amended. In a model where each account write may throw, the handler stores the
Transaction with status `completed` before either account write and rolls nothing back.
For a transfer between two distinct accounts that passed the checks and whose Transaction
was saved: if the destination write throws, the answer is 500 and no balance changed; if
the destination write goes through and the source write throws, the answer is 500, the
destination stays credited by `A` and the source keeps its balance; if both go through,
the source is debited `A + fee` and the destination credited `A`. So the source is never
debited without the destination credited. -/
theorem transfer_writes_by_fault (fl : Faults) (db : Db) (req : Request) (s t : ObjectId)
    (A : ℚ) (src ta : Account)
    (hu : db.UniqueIds)
    (hv : validationPasses req = true)
    (hfrom : req.fromAccount = IdField.id s) (hamount : req.amount = some A)
    (htype : req.type = some TxType.transfer)
    (hsrc : findOwned db.accounts s req.user = some src)
    (hfunds : ¬ src.balance < A + calculateFee TxType.transfer A false)
    (hto : req.toAccount = IdField.id t) (hta : findById db.accounts t = some ta)
    (hne : s ≠ t)
    (hsave : fl.transactionSave = false)
    (hcat : req.category.getD "other" ∈ categories) :
    ((createTransaction fl db req).2.transactions =
        db.transactions ++ [newTransaction req s A TxType.transfer src] ∧
      (newTransaction req s A TxType.transfer src).status = TxStatus.completed) ∧
    (fl.targetSave = true →
      (createTransaction fl db req).1 = Response.serverError ∧
      ∀ i, (createTransaction fl db req).2.balance? i = db.balance? i) ∧
    (fl.targetSave = false → fl.sourceSave = true →
      (createTransaction fl db req).1 = Response.serverError ∧
      (createTransaction fl db req).2.balance? t = some (ta.balance + A) ∧
      ∀ i, i ≠ t → (createTransaction fl db req).2.balance? i = db.balance? i) ∧
    (fl.targetSave = false → fl.sourceSave = false →
      (createTransaction fl db req).2.balance? s =
        some (src.balance - (A + calculateFee TxType.transfer A false)) ∧
      (createTransaction fl db req).2.balance? t = some (ta.balance + A)) ∧
    ((createTransaction fl db req).2.balance? s ≠ db.balance? s →
      (createTransaction fl db req).2.balance? t = some (ta.balance + A)) := by
  have hfind := findOwned_findById hu hsrc
  have hsid := findById_id hfind
  have htid := findById_id hta
  have hnf : ¬ (TxType.transfer ∈ debitingTypes ∧ src.balance <
      A + calculateFee TxType.transfer A (decide (TxType.transfer = TxType.international))) :=
    fun h => hfunds h.2
  have hrun : createTransaction fl db req =
      persistAndApply fl db req s A TxType.transfer src (some ta) := by
    rw [createTransaction_of_source hv hfrom hamount htype hsrc, if_neg hnf, hto]
    simp only []
    rw [hta]
  obtain ⟨htxs, haccs, hfail⟩ :=
    persistAndApply_saved fl db req s A TxType.transfer src (some ta) hsave hcat
  rw [updateBalances_transfer] at haccs hfail
  have hfee : calculateFee TxType.transfer A (decide (TxType.transfer = TxType.international)) =
      calculateFee TxType.transfer A false := rfl
  -- the three outcomes
  have c1 : fl.targetSave = true →
      (createTransaction fl db req).1 = Response.serverError ∧
      ∀ i, (createTransaction fl db req).2.balance? i = db.balance? i := by
    intro f1
    rw [if_pos f1] at haccs hfail
    refine ⟨by rw [hrun]; exact hfail rfl, fun i => ?_⟩
    unfold Db.balance?
    rw [hrun, haccs]
  have c2 : fl.targetSave = false → fl.sourceSave = true →
      (createTransaction fl db req).1 = Response.serverError ∧
      (createTransaction fl db req).2.balance? t = some (ta.balance + A) ∧
      ∀ i, i ≠ t → (createTransaction fl db req).2.balance? i = db.balance? i := by
    intro f1 f2
    have f1' : ¬ fl.targetSave = true := by simp [f1]
    rw [if_neg f1', if_pos f2] at haccs hfail
    refine ⟨by rw [hrun]; exact hfail rfl, ?_, fun i hi => ?_⟩
    · unfold Db.balance?
      rw [hrun, haccs, balance_saveAccount, if_pos htid.symm, hta]
      rfl
    · unfold Db.balance?
      have h1 : ¬ i = ta._id := by rw [htid]; exact hi
      rw [hrun, haccs, balance_saveAccount]
      simp only [if_neg h1]
  have c3 : fl.targetSave = false → fl.sourceSave = false →
      (createTransaction fl db req).2.balance? s =
        some (src.balance - (A + calculateFee TxType.transfer A false)) ∧
      (createTransaction fl db req).2.balance? t = some (ta.balance + A) := by
    intro f1 f2
    have f1' : ¬ fl.targetSave = true := by simp [f1]
    have f2' : ¬ fl.sourceSave = true := by simp [f2]
    rw [if_neg f1', if_neg f2'] at haccs
    simp only at haccs
    refine ⟨?_, ?_⟩
    · unfold Db.balance?
      rw [hrun, haccs, balance_saveAccount, if_pos hsid.symm, findById_saveAccount, hfind]
      rfl
    · unfold Db.balance?
      have h1 : ¬ t = src._id := by rw [hsid]; exact fun h => hne h.symm
      rw [hrun, haccs, balance_saveAccount]
      simp only [if_neg h1]
      rw [balance_saveAccount, if_pos htid.symm, hta]
      rfl
  refine ⟨⟨by rw [hrun]; exact htxs, rfl⟩, c1, c2, c3, ?_⟩
  intro hchg
  cases f1 : fl.targetSave with
  | true => exact absurd ((c1 f1).2 s) hchg
  | false =>
    cases f2 : fl.sourceSave with
    | true => exact (c2 f1 f2).2.1
    | false => exact (c3 f1 f2).2

/-- Scenario B with a throwing source write: the answer is 500 and account 2 holds
0.00 + 200.00 while every other balance is as before. -/
theorem transfer_writes_by_fault_witness :
    scenarioB.UniqueIds ∧ validationPasses transferB = true ∧
    findOwned scenarioB.accounts 1 transferB.user =
      some { _id := 1, user := 7, accountNumber := "BA12345678001", type := "checking",
             balance := 500 } ∧
    findById scenarioB.accounts 2 =
      some { _id := 2, user := 8, accountNumber := "BA12345678002", type := "savings",
             balance := 0 } ∧
    (createTransaction sourceSaveFails scenarioB transferB).1 = Response.serverError ∧
    (createTransaction sourceSaveFails scenarioB transferB).2.balance? 2 = some (0 + 200) ∧
    ∀ i, i ≠ 2 →
      (createTransaction sourceSaveFails scenarioB transferB).2.balance? i =
        scenarioB.balance? i := by
  have hu : scenarioB.UniqueIds := by
    simp [Db.UniqueIds, scenarioB]
  have hv : validationPasses transferB = true := by
    simp [validationPasses, transferB]
    norm_num
  have hsrc : findOwned scenarioB.accounts 1 transferB.user =
      some { _id := 1, user := 7, accountNumber := "BA12345678001", type := "checking",
             balance := 500 } := by
    simp [findOwned, scenarioB, transferB]
  have hta : findById scenarioB.accounts 2 =
      some { _id := 2, user := 8, accountNumber := "BA12345678002", type := "savings",
             balance := 0 } := by
    simp [findById, scenarioB]
  have hfunds : ¬ ((500:ℚ) < 200 + calculateFee TxType.transfer 200 false) := by
    simp [calculateFee, fees]
    norm_num
  have hcat : transferB.category.getD "other" ∈ categories := by
    simp [transferB, categories]
  have h := (transfer_writes_by_fault sourceSaveFails scenarioB transferB 1 2 200 _ _ hu hv rfl
    rfl rfl hsrc hfunds rfl hta (by decide) rfl hcat).2.2.1 rfl rfl
  exact ⟨hu, hv, hsrc, hta, h⟩

/-- C11. Evaluation of the handler on a self-transfer: in Scenario B a transfer of 200.00
from account 1 to account 1 is not rejected. The answer is 201 with a Transaction recorded
as `completed`, and the stored balance of the account goes from 500.00 to 300.00: the
credit written through the destination document is overwritten by the debit written
through the source document. -/
theorem self_transfer_completes :
    scenarioB.balance? 1 = some 500 ∧
    (createTransaction noFaults scenarioB selfTransfer).1 = Response.created selfTransferRecord ∧
    selfTransferRecord.status = TxStatus.completed ∧
    (createTransaction noFaults scenarioB selfTransfer).2.balance? 1 = some 300 := by
  refine ⟨?_, ?_, rfl, ?_⟩
  · simp [Db.balance?, findById, scenarioB]
  · simp [createTransaction, validationPasses, selfTransfer, scenarioB, findOwned, findById,
      debitingTypes, calculateFee, fees, persistAndApply, newTransaction, categories,
      updateBalances, noFaults, selfTransferRecord, exchangeRate]
    norm_num
  · simp [createTransaction, validationPasses, selfTransfer, scenarioB, findOwned, findById,
      debitingTypes, calculateFee, fees, persistAndApply, newTransaction, categories,
      updateBalances, noFaults, saveAccount, Db.balance?]
    norm_num

/-- C12. A `transfer` request that names a destination account id which is not stored, and
whose source has sufficient funds, is answered `Destination account not found` whatever
the faults, and the stored state is untouched: no Transaction is persisted and no balance
changes. -/
theorem transfer_to_unknown_destination_refused (fl : Faults) (db : Db) (req : Request)
    (s t : ObjectId) (A : ℚ) (src : Account)
    (hv : validationPasses req = true)
    (hfrom : req.fromAccount = IdField.id s) (hamount : req.amount = some A)
    (htype : req.type = some TxType.transfer)
    (hsrc : findOwned db.accounts s req.user = some src)
    (hfunds : ¬ src.balance < A + calculateFee TxType.transfer A false)
    (hto : req.toAccount = IdField.id t) (hnone : findById db.accounts t = none) :
    (createTransaction fl db req).1 = Response.destinationNotFound ∧
    (createTransaction fl db req).2 = db ∧
    (createTransaction fl db req).2.transactions = db.transactions ∧
    ∀ i, (createTransaction fl db req).2.balance? i = db.balance? i := by
  have hnf : ¬ (TxType.transfer ∈ debitingTypes ∧ src.balance <
      A + calculateFee TxType.transfer A (decide (TxType.transfer = TxType.international))) :=
    fun h => hfunds h.2
  have hrun : createTransaction fl db req = (Response.destinationNotFound, db) := by
    rw [createTransaction_of_source hv hfrom hamount htype hsrc, if_neg hnf, hto]
    simp only []
    rw [hnone]
  rw [hrun]
  exact ⟨rfl, rfl, rfl, fun _ => rfl⟩

/-- Scenario B: the transfer of 200.00 to the unknown account 99 is refused and the store
is as before. -/
theorem transfer_to_unknown_destination_refused_witness :
    validationPasses transferDangling = true ∧
    findOwned scenarioB.accounts 1 transferDangling.user =
      some { _id := 1, user := 7, accountNumber := "BA12345678001", type := "checking",
             balance := 500 } ∧
    findById scenarioB.accounts 99 = none ∧
    (createTransaction noFaults scenarioB transferDangling).1 = Response.destinationNotFound ∧
    (createTransaction noFaults scenarioB transferDangling).2 = scenarioB := by
  have hv : validationPasses transferDangling = true := by
    simp [validationPasses, transferDangling, transferB]
    norm_num
  have hsrc : findOwned scenarioB.accounts 1 transferDangling.user =
      some { _id := 1, user := 7, accountNumber := "BA12345678001", type := "checking",
             balance := 500 } := by
    simp [findOwned, scenarioB, transferDangling, transferB]
  have hnone : findById scenarioB.accounts 99 = none := by
    simp [findById, scenarioB]
  have hfunds : ¬ ((500:ℚ) < 200 + calculateFee TxType.transfer 200 false) := by
    simp [calculateFee, fees]
    norm_num
  have h := transfer_to_unknown_destination_refused noFaults scenarioB transferDangling 1 99 200 _
    hv rfl rfl rfl hsrc hfunds rfl hnone
  exact ⟨hv, hsrc, hnone, h.1, h.2.1⟩

/-- C13. Evaluation of the handler on a transfer without destination: in Scenario B a
transfer of 200.00 from account 1 that names no destination account is not rejected.
The answer is 201, a Transaction of type `transfer` is stored as `completed`, and no
balance has changed: the source is not debited and no account is credited. -/
theorem transfer_without_destination_completes :
    (createTransaction noFaults scenarioB transferNoDestination).1 =
      Response.created transferNoDestinationRecord ∧
    transferNoDestinationRecord.type = TxType.transfer ∧
    transferNoDestinationRecord.status = TxStatus.completed ∧
    (createTransaction noFaults scenarioB transferNoDestination).2.transactions =
      [transferNoDestinationRecord] ∧
    (createTransaction noFaults scenarioB transferNoDestination).2.accounts =
      scenarioB.accounts := by
  refine ⟨?_, rfl, rfl, ?_, ?_⟩
  · simp [createTransaction, validationPasses, transferNoDestination, scenarioB, findOwned,
      debitingTypes, calculateFee, fees, persistAndApply, newTransaction, categories,
      updateBalances, noFaults, transferNoDestinationRecord, exchangeRate]
    norm_num
  · simp [createTransaction, validationPasses, transferNoDestination, scenarioB, findOwned,
      debitingTypes, calculateFee, fees, persistAndApply, newTransaction, categories,
      updateBalances, noFaults, transferNoDestinationRecord, exchangeRate]
    norm_num
  · simp [createTransaction, validationPasses, transferNoDestination, scenarioB, findOwned,
      debitingTypes, calculateFee, fees, persistAndApply, newTransaction, categories,
      updateBalances, noFaults, saveAccount]
    norm_num

/-- C14, as stated, fails: in Scenario A the withdrawal of 100.00 (fee 2.50) from a balance
of 100.00 is refused with `Insufficient funds` and no Transaction is stored, so there is
no stored Transaction with status `failed`. -/
theorem refused_withdrawal_leaves_no_record :
    (createTransaction noFaults scenarioA withdrawalA).1 = Response.insufficientFunds ∧
    (createTransaction noFaults scenarioA withdrawalA).2.transactions = [] ∧
    ¬ ∃ t ∈ (createTransaction noFaults scenarioA withdrawalA).2.transactions,
        t.status = TxStatus.failed := by
  have hr : createTransaction noFaults scenarioA withdrawalA =
      (Response.insufficientFunds, scenarioA) := by
    simp [createTransaction, validationPasses, withdrawalA, scenarioA, findOwned,
      debitingTypes, calculateFee, fees]
    norm_num
  rw [hr]
  refine ⟨rfl, rfl, ?_⟩
  simp [scenarioA]

/-- C14, amended. When a request is refused for insufficient funds no Transaction record
is persisted for the attempt: the stored transactions are those stored before the call. -/
theorem insufficient_funds_persists_nothing (fl : Faults) (db : Db) (req : Request)
    (h : (createTransaction fl db req).1 = Response.insufficientFunds) :
    (createTransaction fl db req).2.transactions = db.transactions := by
  rcases createTransaction_cases fl db req with ⟨hdb, -⟩ | ⟨s, a, ty, src, tgt, -, heq⟩
  · rw [hdb]
  · exfalso
    rw [heq] at h
    rcases persistAndApply_response fl db req s a ty src tgt with h' | h' <;>
      rw [h'] at h <;> cases h

/-- Scenario A: after the refusal the list of stored transactions is still empty. -/
theorem insufficient_funds_persists_nothing_witness :
    (createTransaction noFaults scenarioA withdrawalA).1 = Response.insufficientFunds ∧
    (createTransaction noFaults scenarioA withdrawalA).2.transactions =
      scenarioA.transactions := by
  have hr : (createTransaction noFaults scenarioA withdrawalA).1 =
      Response.insufficientFunds := by
    simp [createTransaction, validationPasses, withdrawalA, scenarioA, findOwned,
      debitingTypes, calculateFee, fees]
    norm_num
  exact ⟨hr, insufficient_funds_persists_nothing noFaults scenarioA withdrawalA hr⟩

/-- C16. A request that passed validation and whose source account id is not stored, or
is stored for a user other than the requester, is answered `Source account not found`;
and the source account of every completed transaction is a stored account owned by the
requesting user. -/
theorem source_must_be_owned (fl : Faults) (db : Db) (req : Request) :
    (∀ s, validationPasses req = true → req.fromAccount = IdField.id s →
      (∀ a ∈ db.accounts, a._id = s → a.user ≠ req.user) →
      (createTransaction fl db req).1 = Response.sourceNotFound ∧
      (createTransaction fl db req).2 = db) ∧
    (∀ tx, (createTransaction fl db req).1 = Response.created tx →
      ∃ src ∈ db.accounts, src._id = tx.fromAccount ∧ src.user = req.user ∧
        req.fromAccount = IdField.id tx.fromAccount) := by
  refine ⟨?_, ?_⟩
  · intro s hv hfrom hnot
    obtain ⟨-, ⟨a, ha, -⟩, -, ⟨t, ht⟩⟩ := (validationPasses_iff req).mp hv
    have hnone := findOwned_eq_none hnot
    have hrun : createTransaction fl db req = (Response.sourceNotFound, db) := by
      unfold createTransaction
      simp only [hv, not_true_eq_false, if_false, hfrom, ha, ht, hnone]
    rw [hrun]
    exact ⟨rfl, rfl⟩
  · intro tx hrun
    obtain ⟨s, a, ty, src, tgt, had, htx, -, -, -⟩ := created_inv hrun
    have hid := findOwned_id had.source
    have hfromA : tx.fromAccount = s := by rw [htx]; rfl
    refine ⟨src, findOwned_mem had.source, ?_, hid.2, ?_⟩
    · rw [hfromA]; exact hid.1
    · rw [hfromA]; exact had.fromAccount_eq

/-- Scenario B: user 8 cannot move money out of account 1 of user 7. -/
theorem source_must_be_owned_witness :
    validationPasses transferByOther = true ∧
    (∀ a ∈ scenarioB.accounts, a._id = 1 → a.user ≠ transferByOther.user) ∧
    (createTransaction noFaults scenarioB transferByOther).1 = Response.sourceNotFound ∧
    (createTransaction noFaults scenarioB transferByOther).2 = scenarioB := by
  have hv : validationPasses transferByOther = true := by
    simp [validationPasses, transferByOther, transferB]
    norm_num
  have hnot : ∀ a ∈ scenarioB.accounts, a._id = 1 → a.user ≠ transferByOther.user := by
    simp [scenarioB, transferByOther]
  have h := (source_must_be_owned noFaults scenarioB transferByOther).1 1 hv rfl hnot
  exact ⟨hv, hnot, h.1, h.2⟩

/-- C17. A completed transaction of amount `a` raises the reward balance of the requesting
user by exactly `floor(a * 0.01)`, computed from the amount of the Transaction and not
from amount plus fee, and leaves the reward balance of every other user as it was. -/
theorem rewards_accrue_on_amount (fl : Faults) (db : Db) (req : Request) (tx : Transaction)
    (hrun : (createTransaction fl db req).1 = Response.created tx) :
    (createTransaction fl db req).2.rewards? req.user =
      (db.rewards? req.user).map (· + ((⌊tx.amount * (1/100)⌋ : ℤ) : ℚ)) ∧
    ∀ u, u ≠ req.user → (createTransaction fl db req).2.rewards? u = db.rewards? u := by
  obtain ⟨s, a, ty, src, tgt, -, htx, -, -, husers⟩ := created_inv hrun
  have hamt : tx.amount = a := by rw [htx]; rfl
  unfold Db.rewards?
  rw [husers, hamt]
  refine ⟨?_, ?_⟩
  · rw [rewards_incRewards, if_pos rfl]
  · intro u hu
    rw [rewards_incRewards, if_neg hu]

/-- Scenario C: the deposit of 50.00 adds `floor(0.50) = 0` points to user 7. -/
theorem rewards_accrue_on_amount_witness :
    (createTransaction noFaults scenarioC depositC).1 = Response.created depositCRecord ∧
    scenarioC.rewards? 7 = some 0 ∧
    (createTransaction noFaults scenarioC depositC).2.rewards? 7 = some 0 := by
  have hrun : (createTransaction noFaults scenarioC depositC).1 =
      Response.created depositCRecord := by
    simp [createTransaction, validationPasses, depositC, scenarioC, findOwned,
      debitingTypes, calculateFee, fees, persistAndApply, newTransaction, categories,
      updateBalances, noFaults, depositCRecord, exchangeRate]
    norm_num
  have h0 : scenarioC.rewards? 7 = some 0 := by
    simp [Db.rewards?, scenarioC]
  have hfloor : ⌊(50:ℚ) * (1/100)⌋ = 0 := by
    rw [Int.floor_eq_iff]
    norm_num
  have h := (rewards_accrue_on_amount noFaults scenarioC depositC depositCRecord hrun).1
  have e : depositC.user = 7 := rfl
  have e2 : depositCRecord.amount = 50 := rfl
  rw [e, e2, hfloor, h0] at h
  refine ⟨hrun, h0, ?_⟩
  rw [h]
  simp

/-- C18. The exchange rate recorded on the Transaction of a completed request is 1 for
every type other than `international`. For `international`, with the currency of the
source account (which is the currency recorded on the Transaction) and the currency of
the recipient, it is 1 when the two are equal, the rate of the table when `SRC-DST` is
one of the eight configured pairs, and 1 for every other pair. -/
theorem recorded_exchange_rate (fl : Faults) (db : Db) (req : Request) (tx : Transaction)
    (hrun : (createTransaction fl db req).1 = Response.created tx) :
    (∃ src, findOwned db.accounts tx.fromAccount req.user = some src ∧
      tx.currency = src.currency) ∧
    (tx.type ≠ TxType.international → tx.exchangeRate = 1) ∧
    (tx.type = TxType.international →
      (∀ r, req.recipient = some r → r.currency = some tx.currency → tx.exchangeRate = 1) ∧
      (∀ rate, exchangeRates (tx.currency ++ "-" ++
          ((req.recipient.bind (·.currency)).getD "undefined")) = some rate →
        tx.exchangeRate = rate) ∧
      (tx.currency ++ "-" ++ ((req.recipient.bind (·.currency)).getD "undefined") ∉
          configuredPairs → tx.exchangeRate = 1)) ∧
    (exchangeRates "USD-EUR" = some (85/100) ∧ exchangeRates "USD-GBP" = some (73/100) ∧
      exchangeRates "USD-CAD" = some (132/100) ∧ exchangeRates "USD-PHP" = some (5680/100) ∧
      exchangeRates "USD-INR" = some (8315/100) ∧ exchangeRates "EUR-USD" = some (118/100) ∧
      exchangeRates "GBP-USD" = some (137/100) ∧ exchangeRates "CAD-USD" = some (76/100)) := by
  obtain ⟨s, a, ty, src, tgt, had, htx, -, -, -⟩ := created_inv hrun
  have hfromA : tx.fromAccount = s := by rw [htx]; rfl
  have hcur : tx.currency = src.currency := by rw [htx]; rfl
  have hty : tx.type = ty := by rw [htx]; rfl
  have hrate : tx.exchangeRate = exchangeRate ty src.currency req.recipient := by
    rw [htx]; rfl
  refine ⟨⟨src, by rw [hfromA]; exact had.source, hcur⟩, ?_, ?_, ?_⟩
  · intro hne
    rw [hty] at hne
    rw [hrate]
    unfold exchangeRate
    rw [if_neg hne]
  · intro hint
    rw [hty] at hint
    subst hint
    rw [hcur, hrate]
    have hkey := exchangeRate_international src.currency req.recipient
    refine ⟨?_, hkey.1, fun hn => hkey.2 (exchangeRates_unconfigured hn)⟩
    intro r hr hc
    apply hkey.2
    have hd : ((req.recipient.bind (·.currency)).getD "undefined") = src.currency := by
      rw [hr]
      simp [hc]
    rw [hd]
    exact exchangeRates_same src.currency
  · refine ⟨?_, ?_, ?_, ?_, ?_, ?_, ?_, ?_⟩ <;> simp [exchangeRates]

/-- The international transaction of 1000.00 from the USD account of Scenario D to a
recipient in EUR is recorded with the table rate 0.85. -/
theorem recorded_exchange_rate_witness :
    (createTransaction noFaults scenarioD internationalEUR).1 =
      Response.created internationalEURRecord ∧
    exchangeRates (internationalEURRecord.currency ++ "-" ++
      ((internationalEUR.recipient.bind (·.currency)).getD "undefined")) = some (85/100) ∧
    internationalEURRecord.exchangeRate = 85/100 := by
  have hkey : ("USD" ++ "-" ++ "EUR" : String) = "USD-EUR" := by decide
  have hrun : (createTransaction noFaults scenarioD internationalEUR).1 =
      Response.created internationalEURRecord := by
    simp [createTransaction, validationPasses, internationalEUR, scenarioD, findOwned,
      debitingTypes, calculateFee, fees, persistAndApply, newTransaction, categories,
      updateBalances, noFaults, internationalEURRecord, exchangeRate, exchangeRates, hkey]
    norm_num
  have hrate : exchangeRates (internationalEURRecord.currency ++ "-" ++
      ((internationalEUR.recipient.bind (·.currency)).getD "undefined")) = some (85/100) := by
    simp [internationalEURRecord, internationalEUR, exchangeRates, hkey]
  exact ⟨hrun, hrate, ((recorded_exchange_rate noFaults scenarioD internationalEUR
    internationalEURRecord hrun).2.2.1 rfl).2.1 _ hrate⟩

/-- C19, as stated, fails: in Scenario D the pair `USD-JPY` is not configured, the stored
record has fee 25 and rate 1, and it is the very record the same request gives when the
table has the entry `USD-JPY: 1`. Nothing on the record flags the fallback. -/
theorem fallback_rate_not_flagged :
    exchangeRates "USD-JPY" = none ∧
    (createTransaction noFaults scenarioD internationalD).1 =
      Response.created internationalDRecord ∧
    internationalDRecord.fee = 25 ∧ internationalDRecord.exchangeRate = 1 ∧
    newTransactionWith (configureRate exchangeRates "USD-JPY" 1) internationalD 6 1000
        TxType.international
        { _id := 6, user := 7, accountNumber := "BA12345678006", type := "business",
          balance := 5000 } =
      internationalDRecord := by
  have hkey : ("USD" ++ "-" ++ "JPY" : String) = "USD-JPY" := by decide
  refine ⟨by simp [exchangeRates], ?_, rfl, rfl, ?_⟩
  · simp [createTransaction, validationPasses, internationalD, scenarioD, findOwned,
      debitingTypes, calculateFee, fees, persistAndApply, newTransaction, categories,
      updateBalances, noFaults, internationalDRecord, exchangeRate, exchangeRates, hkey]
    norm_num
  · simp [newTransactionWith, newTransaction, internationalD, internationalDRecord,
      exchangeRateWith, configureRate, calculateFee, hkey]
    norm_num

/-- C19, amended. For a completed `international` transaction whose currency pair is not
configured, the fallback rate 1 is recorded and is not flagged: the stored record is,
field by field, the record the same request gives when the table has the pair with
rate 1. -/
theorem fallback_rate_indistinguishable (fl : Faults) (db : Db) (req : Request)
    (tx : Transaction)
    (hrun : (createTransaction fl db req).1 = Response.created tx)
    (htype : tx.type = TxType.international)
    (hpair : exchangeRates (tx.currency ++ "-" ++
      ((req.recipient.bind (·.currency)).getD "undefined")) = none) :
    tx.exchangeRate = 1 ∧
    ∃ src, findOwned db.accounts tx.fromAccount req.user = some src ∧
      tx = newTransactionWith
        (configureRate exchangeRates
          (tx.currency ++ "-" ++ ((req.recipient.bind (·.currency)).getD "undefined")) 1)
        req tx.fromAccount tx.amount TxType.international src := by
  obtain ⟨s, a, ty, src, tgt, had, htx, -, -, -⟩ := created_inv hrun
  have hfromA : tx.fromAccount = s := by rw [htx]; rfl
  have hamt : tx.amount = a := by rw [htx]; rfl
  have hcur : tx.currency = src.currency := by rw [htx]; rfl
  have hty : tx.type = ty := by rw [htx]; rfl
  rw [hty] at htype
  subst htype
  rw [hcur] at hpair
  have hrate : tx.exchangeRate = 1 := by
    rw [htx]
    exact (exchangeRate_international src.currency req.recipient).2 hpair
  refine ⟨hrate, src, by rw [hfromA]; exact had.source, ?_⟩
  rw [hfromA, hamt, hcur]
  have hwith : exchangeRateWith
      (configureRate exchangeRates
        (src.currency ++ "-" ++ ((req.recipient.bind (·.currency)).getD "undefined")) 1)
      TxType.international src.currency req.recipient = 1 := by
    simp [exchangeRateWith, configureRate]
  have hnew : (newTransaction req s a TxType.international src).exchangeRate = 1 := by
    rw [← htx]; exact hrate
  rw [htx]
  unfold newTransactionWith
  rw [hwith, ← hnew]

/-- Scenario D: the record of the international transaction of 1000.00 to a recipient in
JPY has rate 1 and is the record of the table with `USD-JPY: 1`. -/
theorem fallback_rate_indistinguishable_witness :
    (createTransaction noFaults scenarioD internationalD).1 =
      Response.created internationalDRecord ∧
    exchangeRates (internationalDRecord.currency ++ "-" ++
      ((internationalD.recipient.bind (·.currency)).getD "undefined")) = none ∧
    internationalDRecord.exchangeRate = 1 := by
  have hkey : ("USD" ++ "-" ++ "JPY" : String) = "USD-JPY" := by decide
  have hrun : (createTransaction noFaults scenarioD internationalD).1 =
      Response.created internationalDRecord := by
    simp [createTransaction, validationPasses, internationalD, scenarioD, findOwned,
      debitingTypes, calculateFee, fees, persistAndApply, newTransaction, categories,
      updateBalances, noFaults, internationalDRecord, exchangeRate, exchangeRates, hkey]
    norm_num
  have hpair : exchangeRates (internationalDRecord.currency ++ "-" ++
      ((internationalD.recipient.bind (·.currency)).getD "undefined")) = none := by
    simp [internationalDRecord, internationalD, exchangeRates, hkey]
  exact ⟨hrun, hpair, (fallback_rate_indistinguishable noFaults scenarioD internationalD
    internationalDRecord hrun rfl hpair).1⟩

/-- C15, as stated, fails: with the account of Scenario A deactivated (`isActive = false`)
the withdrawal of 40.00 is completed and the balance goes from 100.00 to 57.50. -/
theorem deactivated_source_still_debited :
    findOwned scenarioInactive.accounts 4 withdrawal40.user =
      some { _id := 4, user := 7, accountNumber := "BA12345678004", type := "checking",
             balance := 100, isActive := false } ∧
    (createTransaction noFaults scenarioInactive withdrawal40).1 =
      Response.created withdrawal40Record ∧
    (createTransaction noFaults scenarioInactive withdrawal40).2.balance? 4 = some (115/2) := by
  refine ⟨?_, ?_, ?_⟩
  · simp [findOwned, scenarioInactive, scenarioA, Db.withActive, Account.withActive,
      withdrawal40]
  · simp [createTransaction, validationPasses, withdrawal40, scenarioInactive, scenarioA,
      Db.withActive, Account.withActive, findOwned, debitingTypes, calculateFee, fees,
      persistAndApply, newTransaction, categories, updateBalances, noFaults,
      withdrawal40Record, exchangeRate]
    norm_num
  · simp [createTransaction, validationPasses, withdrawal40, scenarioInactive, scenarioA,
      Db.withActive, Account.withActive, findOwned, findById, debitingTypes, calculateFee,
      fees, persistAndApply, newTransaction, categories, updateBalances, noFaults,
      saveAccount, Db.balance?]
    norm_num

/-- C15, amended. The flag `isActive` takes no part in the handler: on two stores that
differ in the `isActive` flags of their accounts only, every request gets the same
response and leaves the same balances, and the flags are left as they were. A deactivated
source or destination account blocks nothing. -/
theorem isActive_not_consulted (flags : ObjectId → Bool) (fl : Faults) (db : Db)
    (req : Request) :
    (createTransaction fl (db.withActive flags) req).1 = (createTransaction fl db req).1 ∧
    (createTransaction fl (db.withActive flags) req).2 =
      (createTransaction fl db req).2.withActive flags ∧
    ∀ i, (createTransaction fl (db.withActive flags) req).2.balance? i =
      (createTransaction fl db req).2.balance? i := by
  rw [createTransaction_withActive]
  refine ⟨rfl, rfl, fun i => ?_⟩
  unfold Db.balance?
  have hacc : ((createTransaction fl db req).2.withActive flags).accounts =
      (createTransaction fl db req).2.accounts.map (Account.withActive flags) := rfl
  simp only [hacc]
  rw [findById_withActive]
  cases findById (createTransaction fl db req).2.accounts i <;> rfl

/-- C20, as stated, fails: the Transaction stored for the transfer of Scenario B has status
`completed` and no `completedAt`. -/
theorem completed_record_without_completedAt :
    (createTransaction noFaults scenarioB transferB).2.transactions = [transferBRecord] ∧
    transferBRecord.status = TxStatus.completed ∧
    transferBRecord.completedAt = none := by
  refine ⟨?_, rfl, rfl⟩
  simp [createTransaction, validationPasses, transferB, scenarioB, findOwned, findById,
    debitingTypes, calculateFee, fees, persistAndApply, newTransaction, categories,
    updateBalances, noFaults, transferBRecord, exchangeRate]
  norm_num

/-- C20, amended. Every Transaction the handler persists has status `completed` and no
`completedAt`: the handler assigns no `completedAt` and the schema gives it no default. -/
theorem persisted_record_has_no_completedAt (fl : Faults) (db : Db) (req : Request)
    (t : Transaction) (ht : t ∈ (createTransaction fl db req).2.transactions) :
    t ∈ db.transactions ∨ (t.status = TxStatus.completed ∧ t.completedAt = none) := by
  rcases createTransaction_transactions fl db req with h | ⟨s, a, ty, src, h⟩
  · rw [h] at ht
    exact Or.inl ht
  · rw [h] at ht
    rcases List.mem_append.mp ht with hold | hnew
    · exact Or.inl hold
    · right
      rw [List.mem_singleton.mp hnew]
      exact ⟨rfl, rfl⟩

/-- Scenario B: the stored record of the transfer is `completed` without `completedAt`. -/
theorem persisted_record_has_no_completedAt_witness :
    transferBRecord ∈ (createTransaction noFaults scenarioB transferB).2.transactions ∧
    (transferBRecord ∈ scenarioB.transactions ∨
      (transferBRecord.status = TxStatus.completed ∧ transferBRecord.completedAt = none)) := by
  have hmem : transferBRecord ∈
      (createTransaction noFaults scenarioB transferB).2.transactions := by
    have h : (createTransaction noFaults scenarioB transferB).2.transactions =
        [transferBRecord] := by
      simp [createTransaction, validationPasses, transferB, scenarioB, findOwned, findById,
        debitingTypes, calculateFee, fees, persistAndApply, newTransaction, categories,
        updateBalances, noFaults, transferBRecord, exchangeRate]
      norm_num
    rw [h]
    exact List.mem_singleton.mpr rfl
  exact ⟨hmem, persisted_record_has_no_completedAt noFaults scenarioB transferB
    transferBRecord hmem⟩

/-- C21. Transaction history is append-only: after a create-transaction call the stored
list is the old list with at most one record added at the end, so every record stored
before the call is stored at its place with every field unchanged; the get-transactions
and get-account handlers leave the whole store as it was. A record in status `completed`,
`failed` or `cancelled` therefore never changes. -/
theorem history_append_only (fl : Faults) (db : Db) (req : Request) (user : ObjectId)
    (page limit : Nat) (accountId : IdField) (id : Option ObjectId) :
    (∃ added, added.length ≤ 1 ∧
      (createTransaction fl db req).2.transactions = db.transactions ++ added) ∧
    (∀ (i : Nat) (t : Transaction), db.transactions[i]? = some t →
      (createTransaction fl db req).2.transactions[i]? = some t) ∧
    (getTransactions db user page limit accountId).2 = db ∧
    (getAccount db user id).2 = db := by
  have happ : ∃ added, added.length ≤ 1 ∧
      (createTransaction fl db req).2.transactions = db.transactions ++ added := by
    rcases createTransaction_transactions fl db req with h | ⟨s, a, ty, src, h⟩
    · exact ⟨[], by simp, by rw [h]; simp⟩
    · exact ⟨[newTransaction req s a ty src], by simp, h⟩
  refine ⟨happ, ?_, ?_, ?_⟩
  · intro i t hi
    obtain ⟨added, -, h⟩ := happ
    have hlt : i < db.transactions.length := by
      rcases Nat.lt_or_ge i db.transactions.length with h' | h'
      · exact h'
      · rw [List.getElem?_eq_none h'] at hi
        cases hi
    rw [h, List.getElem?_append_left hlt]
    exact hi
  · unfold getTransactions
    cases accountId <;> rfl
  · unfold getAccount
    cases id with
    | none => rfl
    | some i =>
      simp only []
      cases findOwned db.accounts i user <;> rfl

/-- After the transfer of Scenario B on a store that already holds the deposit record of
Scenario C, that record is still the first stored record. -/
theorem history_append_only_witness :
    ({ scenarioB with transactions := [depositCRecord] } : Db).transactions[0]? =
      some depositCRecord ∧
    (createTransaction noFaults { scenarioB with transactions := [depositCRecord] }
      transferB).2.transactions[0]? = some depositCRecord :=
  ⟨rfl, (history_append_only noFaults { scenarioB with transactions := [depositCRecord] }
    transferB 7 1 20 IdField.absent none).2.1 0 depositCRecord rfl⟩

/-- C22. Evaluation of the generator on colliding inputs: two account creations in the
same millisecond whose draws are 0.5 and 0.5004, and a third one 100000 seconds later
(the clock reading differs by `10 ^ 8`), all get the account number `BA14400123500`. -/
theorem account_numbers_collide :
    generateAccountNumber 1762214400123 (1/2) = "BA14400123500" ∧
    generateAccountNumber 1762214400123 (5004/10000) = "BA14400123500" ∧
    generateAccountNumber 1762314400123 (1/2) = "BA14400123500" ∧
    ((1:ℚ)/2 ≠ 5004/10000) ∧ (1762214400123 ≠ 1762314400123) := by
  have h2 : (⌊((5004:ℚ)/10000) * 1000⌋).toNat = 500 := by
    have h : ⌊((5004:ℚ)/10000) * 1000⌋ = 500 := by
      rw [Int.floor_eq_iff]
      norm_num
    rw [h]
    rfl
  refine ⟨generateAccountNumber_noon, ?_, ?_, by norm_num, by norm_num⟩
  · rw [generateAccountNumber_eq, h2]
    decide
  · rw [generateAccountNumber_eq, floor_half_scaled]
    decide

/-- C23. For a clock reading of at least 8 decimal digits and a draw in `[0, 1)`, the
generated account number is `BA` followed by exactly 11 decimal digits: the last 8
characters of the decimal numeral of the clock reading, then the numeral of
`floor(draw * 1000)`, which is below 1000, padded with zeros to 3 characters. -/
theorem account_number_format (now : Nat) (draw : ℚ)
    (hnow : 10 ^ 7 ≤ now) (h0 : 0 ≤ draw) (h1 : draw < 1) :
    ∃ clock random : List Char,
      generateAccountNumber now draw = "BA" ++ String.mk (clock ++ random) ∧
      clock = sliceLast 8 (Nat.toDigits 10 now) ∧
      random = padStart 3 '0' (Nat.toDigits 10 (⌊draw * 1000⌋).toNat) ∧
      (⌊draw * 1000⌋).toNat < 1000 ∧
      clock.length = 8 ∧ random.length = 3 ∧ (clock ++ random).length = 11 ∧
      ∀ c ∈ clock ++ random, c.isDigit = true := by
  have hscaled := scaled_draw_lt h0 h1
  have hclock : (sliceLast 8 (Nat.toDigits 10 now)).length = 8 :=
    sliceLast_length (toDigits_length_ge hnow)
  have hrandom : (padStart 3 '0' (Nat.toDigits 10 (⌊draw * 1000⌋).toNat)).length = 3 :=
    padStart_length (toDigits_length_le (by simpa using hscaled) (by norm_num))
  refine ⟨_, _, generateAccountNumber_eq now draw, rfl, rfl, hscaled, hclock, hrandom, ?_, ?_⟩
  · rw [List.length_append, hclock, hrandom]
  · intro c hc
    rcases List.mem_append.mp hc with h | h
    · unfold sliceLast at h
      exact toDigits_isDigit now c (List.mem_of_mem_drop h)
    · unfold padStart at h
      rcases List.mem_append.mp h with h | h
      · rw [List.eq_of_mem_replicate h]
        rfl
      · exact toDigits_isDigit _ c h

/-- The clock reading 1762214400123 and the draw 0.5 give `BA14400123500`. -/
theorem account_number_format_witness :
    10 ^ 7 ≤ 1762214400123 ∧ (0:ℚ) ≤ 1/2 ∧ (1:ℚ)/2 < 1 ∧
    ∃ clock random : List Char,
      generateAccountNumber 1762214400123 (1/2) = "BA" ++ String.mk (clock ++ random) ∧
      clock.length = 8 ∧ random.length = 3 ∧
      ∀ c ∈ clock ++ random, c.isDigit = true := by
  obtain ⟨clock, random, h1, -, -, -, h5, h6, -, h8⟩ :=
    account_number_format 1762214400123 (1/2) (by norm_num) (by norm_num) (by norm_num)
  exact ⟨by norm_num, by norm_num, by norm_num, clock, random, h1, h5, h6, h8⟩

/-- C24. An account number is assigned once and never changes. Each of the two hooks,
the pre-validate hook and the pre-save hook, run on an account without a number sets the
number generated from its own clock reading and draw, which is not empty; run on an
account with a number it changes nothing, so each hook is idempotent, and so is the pair
a save runs. The create-account handler keeps every stored account numbered, and a
create-transaction request changes the identifier and the account number of no account
(a save of a numbered document writes its balance only). -/
theorem account_number_assigned_once (env env2 : SaveEnv) (now now2 : Nat) (draw draw2 : ℚ)
    (a : Account) (db : Db) (areq : AccountRequest) (fl : Faults) (req : Request) :
    (a.accountNumber = "" →
      (preValidate now draw a).accountNumber = generateAccountNumber now draw ∧
      (preValidate now draw a).accountNumber ≠ "" ∧
      (preSave now draw a).accountNumber = generateAccountNumber now draw ∧
      (preSave now draw a).accountNumber ≠ "") ∧
    (a.accountNumber ≠ "" → preValidate now draw a = a ∧ preSave now draw a = a) ∧
    preValidate now2 draw2 (preValidate now draw a) = preValidate now draw a ∧
    preSave now2 draw2 (preSave now draw a) = preSave now draw a ∧
    (a.accountNumber = "" →
      (runHooks env a).accountNumber =
        generateAccountNumber env.validateNow env.validateDraw ∧
      (runHooks env a).accountNumber ≠ "") ∧
    (a.accountNumber ≠ "" → runHooks env a = a) ∧
    runHooks env2 (runHooks env a) = runHooks env a ∧
    ((∀ x ∈ db.accounts, x.accountNumber ≠ "") →
      ∀ x ∈ (createAccount env db areq).2.accounts, x.accountNumber ≠ "") ∧
    ((∀ x ∈ db.accounts, x.accountNumber ≠ "") →
      (∀ x ∈ (createTransaction fl db req).2.accounts, x.accountNumber ≠ "") ∧
      (createTransaction fl db req).2.accounts.map (fun x => (x._id, x.accountNumber)) =
        db.accounts.map (fun x => (x._id, x.accountNumber))) ∧
    (a.accountNumber ≠ "" →
      saveAccountHooked env db.accounts a = saveAccount db.accounts a) := by
  have hgen := generateAccountNumber_ne_empty now draw
  have hv_set : a.accountNumber = "" →
      (preValidate now draw a).accountNumber = generateAccountNumber now draw := by
    intro h
    unfold preValidate
    rw [if_pos h]
  have hs_set : a.accountNumber = "" →
      (preSave now draw a).accountNumber = generateAccountNumber now draw := by
    intro h
    unfold preSave
    rw [if_pos h]
  have hv_keep : ∀ (n : Nat) (d : ℚ) (x : Account), x.accountNumber ≠ "" →
      preValidate n d x = x := by
    intro n d x h
    unfold preValidate
    rw [if_neg h]
  have hs_keep : ∀ (n : Nat) (d : ℚ) (x : Account), x.accountNumber ≠ "" →
      preSave n d x = x := by
    intro n d x h
    unfold preSave
    rw [if_neg h]
  have hv_num : (preValidate now draw a).accountNumber ≠ "" := by
    by_cases h : a.accountNumber = ""
    · rw [hv_set h]; exact hgen
    · rw [hv_keep now draw a h]; exact h
  have hs_num : (preSave now draw a).accountNumber ≠ "" := by
    by_cases h : a.accountNumber = ""
    · rw [hs_set h]; exact hgen
    · rw [hs_keep now draw a h]; exact h
  refine ⟨fun h => ⟨hv_set h, hv_num, hs_set h, hs_num⟩,
    fun h => ⟨hv_keep now draw a h, hs_keep now draw a h⟩,
    hv_keep now2 draw2 _ hv_num, hs_keep now2 draw2 _ hs_num,
    ?_, fun h => runHooks_of_numbered env h,
    runHooks_of_numbered env2 (runHooks_numbered env a),
    createAccount_numbered env db areq, ?_,
    fun h => saveAccountHooked_of_numbered env db.accounts h⟩
  · intro h
    refine ⟨?_, runHooks_numbered env a⟩
    rw [runHooks_of_empty env h]
  · intro hnum
    have hmap := createTransaction_numbers fl db req
    refine ⟨?_, hmap⟩
    intro x hx
    have hx' : (x._id, x.accountNumber) ∈
        (createTransaction fl db req).2.accounts.map (fun x => (x._id, x.accountNumber)) :=
      List.mem_map_of_mem _ hx
    rw [hmap] at hx'
    obtain ⟨y, hy, hxy⟩ := List.mem_map.mp hx'
    have : y.accountNumber = x.accountNumber := (Prod.mk.inj hxy).2
    rw [← this]
    exact hnum y hy

/-- On an account without a number the pre-validate hook at clock 1762214400123 and draw
0.5 sets `BA14400123500`, the pre-save hook at clock 1762214400124 and draw 0.25 sets
`BA14400124250`, the two hooks of a save set `BA14400123500`, and the transfer of
Scenario B leaves the numbers of both accounts as they were. -/
theorem account_number_assigned_once_witness :
    (∀ x ∈ scenarioB.accounts, x.accountNumber ≠ "") ∧
    (preValidate 1762214400123 (1/2)
      { _id := 10, user := 7, accountNumber := "", type := "checking" }).accountNumber =
      "BA14400123500" ∧
    (preSave 1762214400124 (1/4)
      { _id := 10, user := 7, accountNumber := "", type := "checking" }).accountNumber =
      "BA14400124250" ∧
    (runHooks envNoon { _id := 10, user := 7, accountNumber := "", type := "checking" }
      ).accountNumber = "BA14400123500" ∧
    (createTransaction noFaults scenarioB transferB).2.accounts.map
        (fun x => (x._id, x.accountNumber)) =
      [(1, "BA12345678001"), (2, "BA12345678002")] := by
  have hnum : ∀ x ∈ scenarioB.accounts, x.accountNumber ≠ "" := by
    simp [scenarioB]
  have hquarter : generateAccountNumber 1762214400124 (1/4) = "BA14400124250" := by
    have hf : (⌊((1:ℚ)/4) * 1000⌋).toNat = 250 := by
      have h : ⌊((1:ℚ)/4) * 1000⌋ = 250 := by
        rw [Int.floor_eq_iff]
        norm_num
      rw [h]
      rfl
    rw [generateAccountNumber_eq, hf]
    decide
  have h1 := account_number_assigned_once envNoon envNoon 1762214400123 0 (1/2) 0
    { _id := 10, user := 7, accountNumber := "", type := "checking" } scenarioB openChecking
    noFaults transferB
  have h2 := account_number_assigned_once envNoon envNoon 1762214400124 0 (1/4) 0
    { _id := 10, user := 7, accountNumber := "", type := "checking" } scenarioB openChecking
    noFaults transferB
  refine ⟨hnum, ?_, ?_, ?_, ?_⟩
  · rw [(h1.1 rfl).1]
    exact generateAccountNumber_noon
  · rw [(h2.1 rfl).2.2.1]
    exact hquarter
  · rw [(h1.2.2.2.2.1 rfl).1]
    exact generateAccountNumber_noon
  · rw [(h1.2.2.2.2.2.2.2.2.1 hnum).2]
    rfl

/-- C25, as stated, fails: on a store that already holds the number `BA14400123500`, a
create-account request whose generated number is `BA14400123500` is answered 500 and no
account is added; there is no second attempt. -/
theorem colliding_creation_fails :
    generateAccountNumber envNoon.validateNow envNoon.validateDraw = "BA14400123500" ∧
    createAccount envNoon scenarioCollision openChecking =
      (AccountResponse.serverError, scenarioCollision) := by
  refine ⟨generateAccountNumber_noon, ?_⟩
  apply createAccount_collision
  · simp [openChecking, accountTypes]
    decide
  · refine ⟨_, List.mem_singleton.mpr rfl, ?_⟩
    exact generateAccountNumber_noon.symm

/-- C25, amended. When the account number generated for a new account is a number already
stored, account creation is not retried: the insert is refused by the unique index, the
handler answers 500 `Server error creating account`, and no account is stored. -/
theorem collision_fails_creation (env : SaveEnv) (db : Db) (req : AccountRequest)
    (hv : req.type ∈ accountTypes ∧ req.currency.length = 3)
    (hcol : ∃ a ∈ db.accounts,
      a.accountNumber = generateAccountNumber env.validateNow env.validateDraw) :
    (createAccount env db req).1 = AccountResponse.serverError ∧
    (createAccount env db req).2 = db := by
  rw [createAccount_collision env db req hv hcol]
  exact ⟨rfl, rfl⟩

/-- The create-account request of user 7 on the store that holds `BA14400123500`. -/
theorem collision_fails_creation_witness :
    (openChecking.type ∈ accountTypes ∧ openChecking.currency.length = 3) ∧
    (∃ a ∈ scenarioCollision.accounts,
      a.accountNumber = generateAccountNumber envNoon.validateNow envNoon.validateDraw) ∧
    (createAccount envNoon scenarioCollision openChecking).1 = AccountResponse.serverError ∧
    (createAccount envNoon scenarioCollision openChecking).2 = scenarioCollision := by
  have hv : openChecking.type ∈ accountTypes ∧ openChecking.currency.length = 3 := by
    refine ⟨?_, ?_⟩
    · simp [openChecking, accountTypes]
    · decide
  have hcol : ∃ a ∈ scenarioCollision.accounts,
      a.accountNumber = generateAccountNumber envNoon.validateNow envNoon.validateDraw :=
    ⟨_, List.mem_singleton.mpr rfl, generateAccountNumber_noon.symm⟩
  exact ⟨hv, hcol, collision_fails_creation envNoon scenarioCollision openChecking hv hcol⟩

/-- C26, as stated, fails: in Scenario D the `international` request of 1000.00 that names
no recipient is completed; the Transaction is stored without recipient and the source is
debited 1000.00 + 25.00. -/
theorem international_without_recipient_completes :
    internationalNoRecipient.recipient = none ∧
    (createTransaction noFaults scenarioD internationalNoRecipient).1 =
      Response.created internationalNoRecipientRecord ∧
    internationalNoRecipientRecord.recipient = none ∧
    (createTransaction noFaults scenarioD internationalNoRecipient).2.transactions =
      [internationalNoRecipientRecord] ∧
    (createTransaction noFaults scenarioD internationalNoRecipient).2.balance? 6 =
      some 3975 := by
  have hkey : ("USD" ++ "-" ++ "undefined" : String) = "USD-undefined" := by decide
  refine ⟨rfl, ?_, rfl, ?_, ?_⟩
  · simp [createTransaction, validationPasses, internationalNoRecipient, scenarioD, findOwned,
      debitingTypes, calculateFee, fees, persistAndApply, newTransaction, categories,
      updateBalances, noFaults, internationalNoRecipientRecord, exchangeRate, exchangeRates,
      hkey]
    norm_num
  · simp [createTransaction, validationPasses, internationalNoRecipient, scenarioD, findOwned,
      debitingTypes, calculateFee, fees, persistAndApply, newTransaction, categories,
      updateBalances, noFaults, internationalNoRecipientRecord, exchangeRate, exchangeRates,
      hkey]
    norm_num
  · simp [createTransaction, validationPasses, internationalNoRecipient, scenarioD, findOwned,
      findById, debitingTypes, calculateFee, fees, persistAndApply, newTransaction,
      categories, updateBalances, noFaults, saveAccount, Db.balance?]
    norm_num

/-- C26, amended. Recipient metadata is not required for `international`: the handler
checks nothing about `recipient`. An `international` request that passes validation, on
an owned source account with sufficient funds, is completed when no write throws,
whatever its recipient is (absent, or with any of its fields missing): the Transaction is
stored with the recipient fields that were given and the source is debited
`amount + fee`. -/
theorem recipient_not_required (db : Db) (req : Request) (s : ObjectId) (amount : ℚ)
    (src : Account)
    (hu : db.UniqueIds)
    (hv : validationPasses req = true)
    (hfrom : req.fromAccount = IdField.id s) (hamount : req.amount = some amount)
    (htype : req.type = some TxType.international)
    (hsrc : findOwned db.accounts s req.user = some src)
    (hfunds : ¬ src.balance < amount + calculateFee TxType.international amount true)
    (hto : req.toAccount = IdField.absent)
    (hcat : req.category.getD "other" ∈ categories) :
    (createTransaction noFaults db req).1 =
      Response.created (newTransaction req s amount TxType.international src) ∧
    (newTransaction req s amount TxType.international src).recipient =
      req.recipient.map (fun r =>
        { name := r.name, accountNumber := r.accountNumber, bankName := r.bankName,
          country := r.country }) ∧
    (createTransaction noFaults db req).2.transactions =
      db.transactions ++ [newTransaction req s amount TxType.international src] ∧
    (createTransaction noFaults db req).2.balance? s =
      some (src.balance - (amount + calculateFee TxType.international amount true)) := by
  have hfind := findOwned_findById hu hsrc
  have hsid := findById_id hfind
  have hnf : ¬ (TxType.international ∈ debitingTypes ∧ src.balance <
      amount + calculateFee TxType.international amount
        (decide (TxType.international = TxType.international))) :=
    fun h => hfunds h.2
  have hrun : createTransaction noFaults db req =
      persistAndApply noFaults db req s amount TxType.international src none := by
    rw [createTransaction_of_source hv hfrom hamount htype hsrc, if_neg hnf, hto]
  rw [hrun, persistAndApply_noFaults _ _ _ _ _ _ _ hcat]
  refine ⟨rfl, rfl, rfl, ?_⟩
  unfold Db.balance?
  simp only []
  rw [updateBalances_debit noFaults db.accounts amount _ src none (Or.inr (Or.inr rfl))]
  have : ¬ noFaults.sourceSave = true := by simp [noFaults]
  rw [if_neg this, balance_saveAccount, if_pos hsid.symm, hfind]
  rfl

/-- Scenario D without recipient: the request is completed and 3975.00 are left. -/
theorem recipient_not_required_witness :
    scenarioD.UniqueIds ∧ validationPasses internationalNoRecipient = true ∧
    findOwned scenarioD.accounts 6 internationalNoRecipient.user =
      some { _id := 6, user := 7, accountNumber := "BA12345678006", type := "business",
             balance := 5000 } ∧
    internationalNoRecipient.recipient = none ∧
    (createTransaction noFaults scenarioD internationalNoRecipient).2.balance? 6 =
      some 3975 := by
  have hu : scenarioD.UniqueIds := by
    simp [Db.UniqueIds, scenarioD]
  have hv : validationPasses internationalNoRecipient = true := by
    simp [validationPasses, internationalNoRecipient]
    norm_num
  have hsrc : findOwned scenarioD.accounts 6 internationalNoRecipient.user =
      some { _id := 6, user := 7, accountNumber := "BA12345678006", type := "business",
             balance := 5000 } := by
    simp [findOwned, scenarioD, internationalNoRecipient]
  have hfee : calculateFee TxType.international 1000 true = 25 := by
    simp only [calculateFee, if_true]
    norm_num
  have hfunds : ¬ ((5000:ℚ) < 1000 + calculateFee TxType.international 1000 true) := by
    rw [hfee]
    norm_num
  have hcat : internationalNoRecipient.category.getD "other" ∈ categories := by
    simp [internationalNoRecipient, categories]
  have h := (recipient_not_required scenarioD internationalNoRecipient 6 1000 _ hu hv rfl rfl
    rfl hsrc hfunds rfl hcat).2.2.2
  refine ⟨hu, hv, hsrc, rfl, ?_⟩
  rw [h, hfee]
  norm_num

/-- C28. A `transfer` of amount `A` that passes validation, whose destination id is its
source id, on an owned account of balance `b >= A`, is completed when no write throws.
The account is loaded twice; `b + A` is written through the destination copy and then
`b - A` through the source copy, so the stored balance ends at `b - A`, the Transaction
is recorded as `completed` with fee 0, and the sum of all balances goes down by `A`. -/
theorem self_transfer_last_write_wins (db : Db) (req : Request) (s : ObjectId) (A : ℚ)
    (src : Account)
    (hu : db.UniqueIds)
    (hv : validationPasses req = true)
    (hfrom : req.fromAccount = IdField.id s) (hto : req.toAccount = IdField.id s)
    (hamount : req.amount = some A) (htype : req.type = some TxType.transfer)
    (hsrc : findOwned db.accounts s req.user = some src)
    (hb : A ≤ src.balance)
    (hcat : req.category.getD "other" ∈ categories) :
    findById db.accounts s = some src ∧
    (createTransaction noFaults db req).1 =
      Response.created (newTransaction req s A TxType.transfer src) ∧
    (newTransaction req s A TxType.transfer src).status = TxStatus.completed ∧
    (newTransaction req s A TxType.transfer src).fee = 0 ∧
    (createTransaction noFaults db req).2.accounts =
      saveAccount (saveAccount db.accounts { src with balance := src.balance + A })
        { src with balance := src.balance - A } ∧
    (createTransaction noFaults db req).2.balance? s = some (src.balance - A) ∧
    (createTransaction noFaults db req).2.totalBalance = db.totalBalance - A := by
  have hfind := findOwned_findById hu hsrc
  have hsid := findById_id hfind
  have hmem := findById_mem hfind
  have hfee : calculateFee TxType.transfer A
      (decide (TxType.transfer = TxType.international)) = 0 := rfl
  have hnf : ¬ (TxType.transfer ∈ debitingTypes ∧ src.balance <
      A + calculateFee TxType.transfer A
        (decide (TxType.transfer = TxType.international))) := by
    rw [hfee, add_zero]
    exact fun h => absurd hb (not_le.mpr h.2)
  have hrun : createTransaction noFaults db req =
      persistAndApply noFaults db req s A TxType.transfer src (some src) := by
    rw [createTransaction_of_source hv hfrom hamount htype hsrc, if_neg hnf, hto]
    simp only []
    rw [hfind]
  have haccs : (createTransaction noFaults db req).2.accounts =
      saveAccount (saveAccount db.accounts { src with balance := src.balance + A })
        { src with balance := src.balance - A } := by
    rw [hrun, persistAndApply_noFaults _ _ _ _ _ _ _ hcat]
    simp only []
    rw [updateBalances_transfer, hfee, add_zero]
    have h1 : ¬ noFaults.targetSave = true := by simp [noFaults]
    have h2 : ¬ noFaults.sourceSave = true := by simp [noFaults]
    rw [if_neg h1, if_neg h2]
  refine ⟨hfind, ?_, rfl, rfl, haccs, ?_, ?_⟩
  · rw [hrun, persistAndApply_noFaults _ _ _ _ _ _ _ hcat]
  · unfold Db.balance?
    rw [haccs, balance_saveAccount, if_pos hsid.symm, findById_saveAccount, hfind]
    rfl
  · unfold Db.totalBalance
    rw [haccs]
    have hu1 : ((saveAccount db.accounts { src with balance := src.balance + A }).map
        (·._id)).Nodup := by
      rw [saveAccount_ids]
      exact hu
    have hmem1 : ({ src with balance := src.balance + A } : Account) ∈
        saveAccount db.accounts { src with balance := src.balance + A } :=
      mem_saveAccount_self hmem rfl
    have e1 := @sum_saveAccount
      (saveAccount db.accounts { src with balance := src.balance + A })
      { src with balance := src.balance + A } { src with balance := src.balance - A }
      hu1 hmem1 rfl
    have e2 := @sum_saveAccount db.accounts src { src with balance := src.balance + A }
      hu hmem rfl
    rw [e1, e2]
    simp only []
    ring

/-- Scenario B: the transfer of 200.00 from account 1 to itself is completed, the balance
ends at 300.00 and the sum of the balances goes from 500.00 to 300.00. -/
theorem self_transfer_last_write_wins_witness :
    scenarioB.UniqueIds ∧ validationPasses selfTransfer = true ∧
    findOwned scenarioB.accounts 1 selfTransfer.user =
      some { _id := 1, user := 7, accountNumber := "BA12345678001", type := "checking",
             balance := 500 } ∧
    scenarioB.totalBalance = 500 ∧
    (createTransaction noFaults scenarioB selfTransfer).2.balance? 1 = some 300 ∧
    (createTransaction noFaults scenarioB selfTransfer).2.totalBalance = 300 := by
  have hu : scenarioB.UniqueIds := by
    simp [Db.UniqueIds, scenarioB]
  have hv : validationPasses selfTransfer = true := by
    simp [validationPasses, selfTransfer]
    norm_num
  have hsrc : findOwned scenarioB.accounts 1 selfTransfer.user =
      some { _id := 1, user := 7, accountNumber := "BA12345678001", type := "checking",
             balance := 500 } := by
    simp [findOwned, scenarioB, selfTransfer]
  have hcat : selfTransfer.category.getD "other" ∈ categories := by
    simp [selfTransfer, categories]
  have htotal : scenarioB.totalBalance = 500 := by
    simp [Db.totalBalance, scenarioB]
  obtain ⟨-, -, -, -, -, h6, h7⟩ := self_transfer_last_write_wins scenarioB selfTransfer 1 200 _
    hu hv rfl rfl rfl rfl hsrc (by norm_num) hcat
  refine ⟨hu, hv, hsrc, htotal, ?_, ?_⟩
  · rw [h6]
    norm_num
  · rw [h7, htotal]
    norm_num

/-- C29. Evaluation of the expressions of the handler on the amount `"100"`, a string the
validator lets through unconverted. Its numeric value is 100, but for a withdrawal
(fee 2.50) `amount + fee` is the string `"1002.5"`: a balance of 500.00 is found
insufficient although 500.00 is not below 102.50, a balance of 2000.00 is debited 1002.50
and ends at 997.50, and a credit of `"100"` on a balance of 50.00 ends at 50100.00. -/
theorem string_amount_concatenates :
    (JsValue.string "100").toNumber = some 100 ∧
    calculateFeeRaw TxType.withdrawal (JsValue.string "100") false = some (5/2) ∧
    totalAmountRaw (JsValue.string "100") (5/2) = JsValue.string "1002.5" ∧
    insufficientRaw 500 (JsValue.string "100") (5/2) = true ∧
    ¬ ((500:ℚ) < 100 + 5/2) ∧
    debitRaw 2000 (JsValue.string "100") (5/2) = some (1995/2) ∧
    (2000:ℚ) - (100 + 5/2) ≠ 1995/2 ∧
    creditRaw 50 (JsValue.string "100") = some 50100 ∧
    (50:ℚ) + 100 ≠ 50100 := by
  refine ⟨by decide!, rfl, by decide!, by decide!, by norm_num, by decide!, by norm_num,
    by decide!, by norm_num⟩

/-- C30. Evaluation of the listing with the query parameter `accountId`: user 8, who owns
account 2 only, asks for the transactions of account 1 and gets the withdrawal of user 7,
whose source is account 1 and which has no destination. -/
theorem listing_by_accountId_leaks :
    (scenarioListing.accounts.filter (fun a => a.user == 8)).map (·._id) = [2] ∧
    (getTransactions scenarioListing 8 1 20 (IdField.id 1)).1 =
      ListResponse.ok
        [{ fromAccount := 1, type := TxType.withdrawal, amount := 40, description := "cash",
           fee := 5/2, status := TxStatus.completed }] 1 ∧
    touches [2]
      { fromAccount := 1, type := TxType.withdrawal, amount := 40, description := "cash",
        fee := 5/2, status := TxStatus.completed } = false ∧
    (getTransactions scenarioListing 8 1 20 IdField.absent).1 = ListResponse.ok [] 0 := by
  refine ⟨?_, ?_, ?_, ?_⟩
  · simp [scenarioListing, scenarioB]
  · simp [getTransactions, scenarioListing, scenarioB, touches, pageOf]
  · simp [touches]
  · simp [getTransactions, scenarioListing, scenarioB, touches, pageOf]

/-! ## Claims on the raw body and on rounded arithmetic -/

/-- C1. Evaluation of the handler on a transfer whose amount is the string `"200"`, which
the validator lets through unconverted: from account 1 (5000.00) to account 2 (50.00) the
answer is 201 and the Transaction is stored as `completed` with amount 200 and fee 0, but
the source is debited 2000 (`"200" + 0` is `"2000"`) and ends at 3000.00, and the
destination ends at 50200.00 (`50 + "200"` is `"50200"`). -/
theorem transfer_of_string_amount :
    (JsValue.string "200").toNumberFl roundBinary64 = some 200 ∧
    scenarioRaw.balance? 1 = some 5000 ∧ scenarioRaw.balance? 2 = some 50 ∧
    (createTransactionRaw roundBinary64 noFaults scenarioRaw transferString).1 =
      Response.created transferStringRecord ∧
    transferStringRecord.amount = 200 ∧ transferStringRecord.fee = 0 ∧
    transferStringRecord.status = TxStatus.completed ∧
    (createTransactionRaw roundBinary64 noFaults scenarioRaw transferString).2.balance? 1 =
      some 3000 ∧
    (createTransactionRaw roundBinary64 noFaults scenarioRaw transferString).2.balance? 2 =
      some 50200 := by
  refine ⟨by decide!, by decide!, by decide!, by decide!, rfl, rfl, rfl, by decide!,
    by decide!⟩

/-- C2. Evaluation of the handler on a deposit whose amount is the string `"100"`: on an
account with overdraft limit 10.00 and balance -5.00, a state that satisfies
`balance >= -overdraftLimit`, the answer is 201 and the stored balance becomes -5100.00
(`-5 + "100"` is `"-5100"`), which is below `-overdraftLimit`. -/
theorem string_deposit_breaks_overdraft_invariant :
    (∀ a ∈ scenarioOverdrawn.accounts,
      0 ≤ a.overdraftLimit ∧ -a.overdraftLimit ≤ a.balance) ∧
    (createTransactionRaw roundBinary64 noFaults scenarioOverdrawn depositString).1 =
      Response.created depositStringRecord ∧
    (createTransactionRaw roundBinary64 noFaults scenarioOverdrawn depositString).2.accounts =
      [{ _id := 3, user := 7, accountNumber := "BA12345678003", type := "checking",
         balance := -5100, overdraftLimit := 10 }] ∧
    ¬ (-(10:ℚ) ≤ -5100) := by
  refine ⟨?_, by decide!, by decide!, by norm_num⟩
  simp [scenarioOverdrawn]
  norm_num

/-- C3, amended. For a request of a debiting type whose amount is a JSON number and that
passed validation, on an existing owned source account, the handler answers
`Insufficient funds` exactly when `source.balance < amount + fee`, the sum being the
rounded sum the handler computes (`fl` is the rounding of the arithmetic): the overdraft
limit takes no part, and a balance equal to that sum is allowed. -/
theorem insufficient_funds_iff_computed_sum (fl : ℚ → ℚ) (faults : Faults) (db : Db)
    (req : RawRequest) (s : ObjectId) (a : ℚ) (type : TxType) (src : Account)
    (hv : validationPassesRaw fl req = true)
    (hfrom : req.fromAccount = IdField.id s)
    (hamount : req.amount = some (JsValue.number a))
    (htype : req.type = some type) (hdebit : type ∈ debitingTypes)
    (hsrc : findOwned db.accounts s req.user = some src) :
    ((createTransactionRaw fl faults db req).1 = Response.insufficientFunds ↔
      src.balance <
        fl (a + calculateFeeFl fl type a (decide (type = TxType.international)))) ∧
    (src.balance = fl (a + calculateFeeFl fl type a (decide (type = TxType.international))) →
      (createTransactionRaw fl faults db req).1 ≠ Response.insufficientFunds) := by
  have hlt : jsLtFl fl src.balance
      (jsAddFl fl (JsValue.number a) (JsValue.number
        (calculateFeeFl fl type a (decide (type = TxType.international))))) = true ↔
      src.balance <
        fl (a + calculateFeeFl fl type a (decide (type = TxType.international))) := by
    simp [jsLtFl, jsAddFl, JsValue.toNumberFl]
  have key : (createTransactionRaw fl faults db req).1 = Response.insufficientFunds ↔
      src.balance <
        fl (a + calculateFeeFl fl type a (decide (type = TxType.international))) := by
    rw [createTransactionRaw_of_source hv hfrom hamount rfl htype hsrc]
    by_cases h : src.balance <
        fl (a + calculateFeeFl fl type a (decide (type = TxType.international)))
    · rw [if_pos ⟨hdebit, hlt.mpr h⟩]
      exact ⟨fun _ => h, fun _ => rfl⟩
    · rw [if_neg (fun hc => h (hlt.mp hc.2))]
      refine ⟨fun hr => ?_, fun hh => absurd hh h⟩
      exfalso
      cases hto : req.toAccount with
      | absent =>
        rw [hto] at hr
        rcases persistAndApplyRaw_response fl faults db req s (JsValue.number a) a type src
          none with h' | ⟨tx, h'⟩ <;> rw [h'] at hr <;> cases hr
      | malformed =>
        rw [hto] at hr
        cases hr
      | id i =>
        rw [hto] at hr
        simp only [] at hr
        cases hfind : findById db.accounts i with
        | none =>
          rw [hfind] at hr
          cases hr
        | some ta =>
          rw [hfind] at hr
          rcases persistAndApplyRaw_response fl faults db req s (JsValue.number a) a type src
            (some ta) with h' | ⟨tx, h'⟩ <;> rw [h'] at hr <;> cases hr
  refine ⟨key, ?_⟩
  intro heq hr
  have := key.mp hr
  rw [← heq] at this
  exact lt_irrefl _ this

/-- With the rounding of binary64: a withdrawal of `0.28` from a balance of `2.78` is
refused, because `0.28 + 2.5` rounds above `2.78`; a withdrawal of `0.3` from a balance of
`2.8` is not, because `0.3 + 2.5` rounds to `2.8`, and it is stored. -/
theorem insufficient_funds_iff_computed_sum_witness :
    validationPassesRaw roundBinary64 withdrawalCents = true ∧
    findOwned scenarioCents.accounts 4 withdrawalCents.user =
      some { _id := 4, user := 7, accountNumber := "BA12345678004", type := "checking",
             balance := roundBinary64 (278/100) } ∧
    roundBinary64 (278/100) <
      roundBinary64 (roundBinary64 (28/100) +
        calculateFeeFl roundBinary64 TxType.withdrawal (roundBinary64 (28/100)) false) ∧
    (createTransactionRaw roundBinary64 noFaults scenarioCents withdrawalCents).1 =
      Response.insufficientFunds ∧
    roundBinary64 (28/10) = roundBinary64 (roundBinary64 (3/10) + 5/2) ∧
    roundBinary64 (28/10) < roundBinary64 (3/10) + 5/2 ∧
    (createTransactionRaw roundBinary64 noFaults scenarioTenths withdrawalTenths).1 =
      Response.created withdrawalTenthsRecord := by
  have hv : validationPassesRaw roundBinary64 withdrawalCents = true := by decide!
  have hsrc : findOwned scenarioCents.accounts 4 withdrawalCents.user =
      some { _id := 4, user := 7, accountNumber := "BA12345678004", type := "checking",
             balance := roundBinary64 (278/100) } := by decide!
  have hlt : roundBinary64 (278/100) <
      roundBinary64 (roundBinary64 (28/100) +
        calculateFeeFl roundBinary64 TxType.withdrawal (roundBinary64 (28/100)) false) := by
    decide!
  exact ⟨hv, hsrc, hlt,
    (insufficient_funds_iff_computed_sum roundBinary64 noFaults scenarioCents withdrawalCents 4
      (roundBinary64 (28/100)) TxType.withdrawal _ hv rfl rfl rfl (by decide) hsrc).1.mpr hlt,
    by decide!, by decide!, by decide!⟩

/-- C4. Evaluation of the handler on a withdrawal whose amount is the string `"100"`: from
account 1 (5000.00) the answer is 201 and the Transaction is stored as `completed` with
amount 100 and fee 2.50, but the balance ends at 3997.50: it is debited 1002.50
(`"100" + 2.5` is `"1002.5"`), not `amount + fee = 102.50`. -/
theorem withdrawal_of_string_amount :
    (JsValue.string "100").toNumberFl roundBinary64 = some 100 ∧
    scenarioRaw.balance? 1 = some 5000 ∧
    (createTransactionRaw roundBinary64 noFaults scenarioRaw withdrawalString).1 =
      Response.created withdrawalStringRecord ∧
    withdrawalStringRecord.amount = 100 ∧ withdrawalStringRecord.fee = 5/2 ∧
    withdrawalStringRecord.status = TxStatus.completed ∧
    (createTransactionRaw roundBinary64 noFaults scenarioRaw withdrawalString).2.balance? 1 =
      some (7995/2) ∧
    (5000:ℚ) - (100 + 5/2) ≠ 7995/2 := by
  refine ⟨by decide!, by decide!, by decide!, rfl, rfl, rfl, by decide!, by norm_num⟩

/-- C5, as stated, fails: with the rounding of binary64 a deposit of 1 on a balance of
`1e16` is completed and the stored balance is still `1e16`; and the deposit of 50.00 of
Scenario C that also names a destination account which is not stored is answered
`Destination account not found` and credits nothing. -/
theorem deposit_not_always_credited :
    scenarioLarge.balance? 5 = some 10000000000000000 ∧
    (createTransactionRaw roundBinary64 noFaults scenarioLarge depositOne).1 =
      Response.created depositOneRecord ∧
    depositOneRecord.status = TxStatus.completed ∧
    (createTransactionRaw roundBinary64 noFaults scenarioLarge depositOne).2.balance? 5 =
      some 10000000000000000 ∧
    (createTransactionRaw roundBinary64 noFaults scenarioC depositDanglingRaw).1 =
      Response.destinationNotFound ∧
    (createTransactionRaw roundBinary64 noFaults scenarioC depositDanglingRaw).2.balance? 5 =
      some 0 := by
  refine ⟨by decide!, by decide!, rfl, by decide!, by decide!, by decide!⟩

/-- C5, amended. A `deposit` request whose amount is a JSON number, that passes validation,
carries a category of the schema (or none) and names no destination account or a stored
one, on an existing owned source account, completes whatever the balance of that account
when no write throws: the recorded fee is 0 and the stored balance becomes the rounded
sum `balance + amount` the handler computes, which is an increase by exactly `amount`
whenever that sum is a number (`fl` changes nothing on it). -/
theorem deposit_credits_computed_sum (fl : ℚ → ℚ) (db : Db) (req : RawRequest)
    (s : ObjectId) (a : ℚ) (src : Account)
    (hu : db.UniqueIds)
    (hv : validationPassesRaw fl req = true)
    (hfrom : req.fromAccount = IdField.id s)
    (hamount : req.amount = some (JsValue.number a))
    (htype : req.type = some TxType.deposit)
    (hsrc : findOwned db.accounts s req.user = some src)
    (hcat : req.category.getD "other" ∈ categories)
    (hto : req.toAccount = IdField.absent ∨
      ∃ t ta, req.toAccount = IdField.id t ∧ findById db.accounts t = some ta) :
    (∃ tx, (createTransactionRaw fl noFaults db req).1 = Response.created tx ∧
      tx.status = TxStatus.completed ∧ tx.fee = 0 ∧ tx.amount = a) ∧
    db.balance? s = some src.balance ∧
    (createTransactionRaw fl noFaults db req).2.balance? s = some (fl (src.balance + a)) ∧
    (fl (src.balance + a) = src.balance + a →
      (createTransactionRaw fl noFaults db req).2.balance? s = some (src.balance + a)) := by
  have hfind := findOwned_findById hu hsrc
  have hsid := findById_id hfind
  have hnd : ¬ (TxType.deposit ∈ debitingTypes ∧
      jsLtFl fl src.balance
        (jsAddFl fl (JsValue.number a) (JsValue.number
          (calculateFeeFl fl TxType.deposit a
            (decide (TxType.deposit = TxType.international))))) = true) := by
    simp [debitingTypes]
  have hcat' : ¬ (noFaults.transactionSave = true ∨
      ({ newTransaction (req.toRequest a) s a TxType.deposit src with
          fee := calculateFeeFl fl TxType.deposit a
            (decide (TxType.deposit = TxType.international)) } : Transaction).category ∉
        categories) := by
    have : (newTransaction (req.toRequest a) s a TxType.deposit src).category ∈ categories :=
      hcat
    simp [noFaults, this]
  have hs : ¬ noFaults.sourceSave = true := by simp [noFaults]
  have hr : ¬ noFaults.rewardsUpdate = true := by simp [noFaults]
  have hpa : ∀ tgt : Option Account,
      persistAndApplyRaw fl noFaults db req s (JsValue.number a) a TxType.deposit src tgt =
        (Response.created
          { newTransaction (req.toRequest a) s a TxType.deposit src with
            fee := calculateFeeFl fl TxType.deposit a
              (decide (TxType.deposit = TxType.international)) },
          { accounts := saveAccount db.accounts { src with balance := fl (src.balance + a) }
            transactions := db.transactions ++
              [{ newTransaction (req.toRequest a) s a TxType.deposit src with
                 fee := calculateFeeFl fl TxType.deposit a
                   (decide (TxType.deposit = TxType.international)) }]
            users := incRewards db.users req.user (⌊fl (a * fl (1/100))⌋ : ℤ) }) := by
    intro tgt
    unfold persistAndApplyRaw
    simp only []
    rw [if_neg hcat', updateBalancesRaw_deposit_number, if_neg hs]
    simp only []
    rw [if_neg hr]
  have hrun : ∀ tgt : Option Account,
      (req.toAccount = IdField.absent ∧ tgt = none ∨
        ∃ t ta, req.toAccount = IdField.id t ∧ findById db.accounts t = some ta ∧
          tgt = some ta) →
      createTransactionRaw fl noFaults db req =
        persistAndApplyRaw fl noFaults db req s (JsValue.number a) a TxType.deposit src
          tgt := by
    intro tgt htgt
    rw [createTransactionRaw_of_source hv hfrom hamount rfl htype hsrc, if_neg hnd]
    rcases htgt with ⟨habs, rfl⟩ | ⟨t, ta, hid, hta, rfl⟩
    · rw [habs]
    · rw [hid]
      simp only []
      rw [hta]
  obtain ⟨tgt, htgt⟩ : ∃ tgt : Option Account,
      (req.toAccount = IdField.absent ∧ tgt = none ∨
        ∃ t ta, req.toAccount = IdField.id t ∧ findById db.accounts t = some ta ∧
          tgt = some ta) := by
    rcases hto with habs | ⟨t, ta, hid, hta⟩
    · exact ⟨none, Or.inl ⟨habs, rfl⟩⟩
    · exact ⟨some ta, Or.inr ⟨t, ta, hid, hta, rfl⟩⟩
  have hbal : (createTransactionRaw fl noFaults db req).2.balance? s =
      some (fl (src.balance + a)) := by
    rw [hrun tgt htgt, hpa tgt]
    unfold Db.balance?
    simp only []
    rw [balance_saveAccount, if_pos hsid.symm, hfind]
    rfl
  refine ⟨⟨_, by rw [hrun tgt htgt, hpa tgt], rfl, ?_, rfl⟩, ?_, hbal, ?_⟩
  · simp [calculateFeeFl, fees]
  · unfold Db.balance?
    rw [hfind]
    rfl
  · intro hexact
    rw [hbal, hexact]

/-- Scenario C with the rounding of binary64: a deposit of 50.00 on a balance of 0.00
gives 50.00, fee 0. -/
theorem deposit_credits_computed_sum_witness :
    scenarioC.UniqueIds ∧ validationPassesRaw roundBinary64 depositCRaw = true ∧
    findOwned scenarioC.accounts 5 depositCRaw.user =
      some { _id := 5, user := 7, accountNumber := "BA12345678005", type := "savings",
             balance := 0 } ∧
    depositCRaw.category.getD "other" ∈ categories ∧
    roundBinary64 (0 + 50) = 0 + 50 ∧
    (createTransactionRaw roundBinary64 noFaults scenarioC depositCRaw).2.balance? 5 =
      some 50 := by
  have hu : scenarioC.UniqueIds := by
    simp [Db.UniqueIds, scenarioC]
  have hv : validationPassesRaw roundBinary64 depositCRaw = true := by decide!
  have hsrc : findOwned scenarioC.accounts 5 depositCRaw.user =
      some { _id := 5, user := 7, accountNumber := "BA12345678005", type := "savings",
             balance := 0 } := by
    simp [findOwned, scenarioC, depositCRaw]
  have hcat : depositCRaw.category.getD "other" ∈ categories := by
    simp [depositCRaw, categories]
  have hexact : roundBinary64 (0 + 50) = 0 + 50 := by decide!
  have h := (deposit_credits_computed_sum roundBinary64 scenarioC depositCRaw 5 50 _ hu hv rfl
    rfl rfl hsrc hcat (Or.inl rfl)).2.2.2 hexact
  refine ⟨hu, hv, hsrc, hcat, hexact, ?_⟩
  rw [h]
  norm_num

end BankingApp
